import Mathlib

/-!
# Engine sound generator: the waveguide network

A shallow embedding of `waveguide.cpp` and `engine_sound_generator.cpp`.

Conventions of the embedding
* A C++ `float` is modelled as an exact rational number: every sample, reflection
  factor and filter coefficient is a `ℚ`, and `+`, `-`, `*`, `/` are exact. Rounding,
  infinities and NaN are outside the model. The one exception is the phase
  accumulator, which has a second embedding (`updateRevolutionFloat`) where every
  operation is rounded as the machine rounds it (`toFloat`, `toDouble`).
* A C++ `int` is modelled as an `Int` between `INT_MIN` and `INT_MAX`. The one `int`
  operation of `DelayLine` whose operands are not confined by the class invariant, the
  sum of the cursor with a caller supplied offset in `getAtPosition`, is wrapped to 32
  bits (`wrapInt`), as the `i32` addition of the wasm32 target does. Every other `int`
  operation of the class has its result between `INT_MIN` and `INT_MAX` (the cursor
  moves between `-1` and `data_length`, the first loop of `getAtPosition` adds a
  positive length to a negative index, the second subtracts it from an index that is
  at least as large) and is exact.
* A `new float[n]` buffer is not initialised by the C++ code; its initial content is
  an argument (`heap`) of the constructors.
* A constructor that throws returns `Except.error`.
* The functions `sin` and `cos` of `math.h` are arguments of the model (`MathLibrary`);
  the values of `get_random_value ()` are arguments of the methods that draw them.
* The conversion `(long long) x` is truncation toward zero (`toLongLong`) to a 64-bit
  integer; where the truncated value is not a 64-bit integer, the conversion, which
  C++ leaves undefined, saturates.
* The arrays behind the pointers that `generateSound` receives are lists; the three
  output channels are results (`SoundBlock`).
-/

namespace EngineSound

/-! ## Machine integers -/

/-- Least value of a 32-bit `int`. -/
def INT_MIN : Int := -2147483648

/-- Greatest value of a 32-bit `int`. -/
def INT_MAX : Int := 2147483647

/-- The twos complement wrap of an integer to the 32-bit `int` range: the value an `i32`
addition leaves, and the value of an `unsigned int` converted to `int`. The integer is
reduced modulo `2^32`, and a residue of `2^31` or more stands for the residue minus
`2^32`. -/
def wrapInt (x : Int) : Int :=
  if 2147483648 ≤ x % 4294967296 then x % 4294967296 - 4294967296 else x % 4294967296

/-! ## DelayLine (waveguide.cpp) -/

/-- Message of the error thrown by `DelayLine::DelayLine`. -/
def lengthError : String := "The length of the delay line needs to be a positive value."

/-- State of a `DelayLine`: the buffer `data`, its length `data_length` and the cursor
`index`. The three fields are private in the C++ class; the propositions are the class
invariant that the constructor establishes and every method keeps: the buffer has
`data_length` cells, `data_length` is an `int`, the cursor is a cell of the buffer. -/
structure DelayLine where
  data : List ℚ
  data_length : Int
  index : Int
  data_size : (data.length : Int) = data_length
  length_le : data_length ≤ INT_MAX
  index_nonneg : 0 ≤ index
  index_lt : index < data_length

/-- Constructor `DelayLine::DelayLine (int length)`: throws when `length < 1`, otherwise
allocates `length` cells (content `heap 0, heap 1, ...`) and sets the cursor to 0.
The argument is an `int`: `hint` says that it is not above `INT_MAX`. -/
def DelayLine.new (length : Int) (hint : length ≤ INT_MAX) (heap : Nat → ℚ) :
    Except String DelayLine :=
  if h : length < 1 then
    Except.error lengthError
  else
    Except.ok
      { data := (List.range length.toNat).map heap
        data_length := length
        index := 0
        data_size := by simp only [List.length_map, List.length_range]; omega
        length_le := hint
        index_nonneg := le_refl 0
        index_lt := by omega }

/-- Method `DelayLine::updateLeft`: write at the cursor, then `index++` with wrap to 0. -/
def DelayLine.updateLeft (dl : DelayLine) (value : ℚ) : DelayLine :=
  if h : dl.index + 1 ≥ dl.data_length then
    { data := dl.data.set dl.index.toNat value
      data_length := dl.data_length
      index := 0
      data_size := by rw [List.length_set]; exact dl.data_size
      length_le := dl.length_le
      index_nonneg := le_refl 0
      index_lt := lt_of_le_of_lt dl.index_nonneg dl.index_lt }
  else
    { data := dl.data.set dl.index.toNat value
      data_length := dl.data_length
      index := dl.index + 1
      data_size := by rw [List.length_set]; exact dl.data_size
      length_le := dl.length_le
      index_nonneg := by have := dl.index_nonneg; omega
      index_lt := by omega }

/-- Method `DelayLine::updateRight`: write at the cursor, then `index--` with wrap to
`data_length-1`. -/
def DelayLine.updateRight (dl : DelayLine) (value : ℚ) : DelayLine :=
  if h : dl.index - 1 < 0 then
    { data := dl.data.set dl.index.toNat value
      data_length := dl.data_length
      index := dl.data_length - 1
      data_size := by rw [List.length_set]; exact dl.data_size
      length_le := dl.length_le
      index_nonneg := by have := dl.index_nonneg; have := dl.index_lt; omega
      index_lt := by omega }
  else
    { data := dl.data.set dl.index.toNat value
      data_length := dl.data_length
      index := dl.index - 1
      data_size := by rw [List.length_set]; exact dl.data_size
      length_le := dl.length_le
      index_nonneg := by omega
      index_lt := by have := dl.index_lt; omega }

/-- First loop of `getAtPosition`: `while (index < 0) index += data_length;`. -/
def DelayLine.whileNegative (data_length : Int) (hlen : 0 < data_length) (index : Int) : Int :=
  if h : index < 0 then
    DelayLine.whileNegative data_length hlen (index + data_length)
  else
    index
termination_by (-index).toNat
decreasing_by omega

/-- Second loop of `getAtPosition`: `while (index >= data_length) index -= data_length;`. -/
def DelayLine.whileBeyond (data_length : Int) (hlen : 0 < data_length) (index : Int) : Int :=
  if h : index ≥ data_length then
    DelayLine.whileBeyond data_length hlen (index - data_length)
  else
    index
termination_by index.toNat
decreasing_by omega

/-- Cell of the buffer that `getAtPosition (index)` reads: the 32-bit sum of the cursor
and the offset, taken through the two loops. -/
def DelayLine.positionIndex (dl : DelayLine) (index : Int) : Int :=
  let hlen : 0 < dl.data_length := lt_of_le_of_lt dl.index_nonneg dl.index_lt
  let index := wrapInt (dl.index + index)
  let index := DelayLine.whileNegative dl.data_length hlen index
  let index := DelayLine.whileBeyond dl.data_length hlen index
  index

/-- Method `DelayLine::getAtPosition`: `return this->data[index]` at the cell reached by
`positionIndex` (always a cell of the buffer, see `positionIndex_bounds`; the default
of `getD` is never returned). The method does not change the delay line. -/
def DelayLine.getAtPosition (dl : DelayLine) (index : Int) : ℚ :=
  dl.data.getD (dl.positionIndex index).toNat 0

/-! ## Waveguide (waveguide.cpp) -/

/-- State of a `Waveguide`: the two delay lines, `maxIndex` and the four public floats. -/
structure Waveguide where
  upper : DelayLine
  lower : DelayLine
  maxIndex : Nat
  reflectionFactorLeft : ℚ
  reflectionFactorRight : ℚ
  outputLeft : ℚ
  outputRight : ℚ

/-- Constructor `Waveguide::Waveguide (unsigned int length, float, float)`. The member
initialisers `upper(length)`, `lower(length)` convert the `unsigned int` to the `int`
parameter of `DelayLine::DelayLine` (`wrapInt`) and run first, in this order; an error
thrown by either leaves the constructor. `maxIndex = length-1` is unsigned arithmetic:
the length 0 gives `2^32 - 1`.
`heapUpper`, `heapLower` give the content of the two fresh buffers. -/
def Waveguide.new (length : Nat) (reflectionFactorLeft reflectionFactorRight : ℚ)
    (heapUpper heapLower : Nat → ℚ) : Except String Waveguide :=
  match DelayLine.new (wrapInt (length : Int)) (by unfold wrapInt INT_MAX; split <;> omega) heapUpper with
  | Except.error e => Except.error e
  | Except.ok upper =>
    match DelayLine.new (wrapInt (length : Int)) (by unfold wrapInt INT_MAX; split <;> omega) heapLower with
    | Except.error e => Except.error e
    | Except.ok lower =>
      Except.ok
        { upper := upper
          lower := lower
          maxIndex := if length = 0 then 4294967295 else length - 1
          reflectionFactorLeft := reflectionFactorLeft
          reflectionFactorRight := reflectionFactorRight
          outputLeft := 0
          outputRight := 0 }

/-- Method `Waveguide::add`, statement by statement. -/
def Waveguide.add (w : Waveguide) (valueLeft valueRight : ℚ) : Waveguide :=
  let reflectedValueLeft := w.lower.getAtPosition 0 * w.reflectionFactorLeft
  let outputLeft := w.lower.getAtPosition 0 * (1 - w.reflectionFactorLeft)
  let reflectedValueRight := w.upper.getAtPosition 0 * w.reflectionFactorRight
  let outputRight := w.upper.getAtPosition 0 * (1 - w.reflectionFactorRight)
  { w with
    outputLeft := outputLeft
    outputRight := outputRight
    upper := w.upper.updateRight (valueLeft + reflectedValueLeft)
    lower := w.lower.updateLeft (valueRight + reflectedValueRight) }

/-- State of the waveguide after the first `n` calls of `add`, the call number `j`
(counted from 0) receiving `valueLeft = (inputs j).1` and `valueRight = (inputs j).2`. -/
def Waveguide.run (w : Waveguide) (inputs : Nat → ℚ × ℚ) : Nat → Waveguide
  | 0 => w
  | n + 1 => (Waveguide.run w inputs n).add (inputs n).1 (inputs n).2

/-! ## LowpassFilter (engine_sound_generator.cpp) -/

/-- The constant `SAMPLING_RATE`. -/
def SAMPLING_RATE : Nat := 44100

/-- The constant `M_PI` of `math.h`. -/
def M_PI : ℚ := 3.14159265358979323846

/-- State of a `LowpassFilter`. -/
structure LowpassFilter where
  frequency : ℚ
  alpha : ℚ
  lastValue : ℚ

/-- Constructor `LowpassFilter (frequency, samplingRate, lastValue)`; a caller that
leaves out the default arguments passes `SAMPLING_RATE` and `0.0`. -/
def LowpassFilter.new (frequency : ℚ) (samplingRate : ℚ) (lastValue : ℚ) : LowpassFilter :=
  let samplingRateInverse := 1 / samplingRate
  { frequency := frequency
    alpha := 2 * M_PI * samplingRateInverse * frequency /
      (2 * M_PI * samplingRateInverse * frequency + 1)
    lastValue := lastValue }

/-- Method `LowpassFilter::getFilteredValue`: the returned value and the new state. -/
def LowpassFilter.getFilteredValue (f : LowpassFilter) (value : ℚ) : ℚ × LowpassFilter :=
  let filteredValue := f.lastValue + f.alpha * (value - f.lastValue)
  (filteredValue, { f with lastValue := filteredValue })

/-- Values returned by successive calls of `getFilteredValue` on the inputs of a list,
with the state of the filter after the last call. -/
def LowpassFilter.filterAll (f : LowpassFilter) : List ℚ → List ℚ × LowpassFilter
  | [] => ([], f)
  | value :: rest =>
    let r := f.getFilteredValue value
    let rs := LowpassFilter.filterAll r.2 rest
    (r.1 :: rs.1, rs.2)

/-! ## Muffler (engine_sound_generator.cpp) -/

/-- State of a `Muffler`; `elements` is the array that the pointer `elements` owns. -/
structure Muffler where
  elements : List Waveguide
  elementsCount : Nat
  elementsCountInverse : ℚ
  outputLeft : ℚ
  outputRight : ℚ

/-- The waveguides `Waveguide (elementLengths[i], 0.0, action)` for `i` from `first` on,
`count` of them, built in order; the first error leaves the constructor. `heap k` is
the content of the fresh buffers of element `k` (upper line, lower line). A length
read beyond the end of `elementLengths` is outside the model and read as 0. -/
def Muffler.newElements (elementLengths : List Nat) (action : ℚ)
    (heap : Nat → (Nat → ℚ) × (Nat → ℚ)) : Nat → Nat → Except String (List Waveguide)
  | 0, _ => Except.ok []
  | count + 1, first =>
    match Waveguide.new (elementLengths.getD first 0) 0 action (heap first).1 (heap first).2 with
    | Except.error e => Except.error e
    | Except.ok w =>
      match Muffler.newElements elementLengths action heap count (first + 1) with
      | Except.error e => Except.error e
      | Except.ok ws => Except.ok (w :: ws)

/-- Constructor `Muffler (elementLengths, elementsCount, action)`. The default
constructed array cells are all overwritten by the assignments of the loop. -/
def Muffler.new (elementLengths : List Nat) (elementsCount : Nat) (action : ℚ)
    (heap : Nat → (Nat → ℚ) × (Nat → ℚ)) : Except String Muffler :=
  match Muffler.newElements elementLengths action heap elementsCount 0 with
  | Except.error e => Except.error e
  | Except.ok ws =>
    Except.ok
      { elements := ws
        elementsCount := elementsCount
        elementsCountInverse := 1 / (elementsCount : ℚ)
        outputLeft := 0
        outputRight := 0 }

/-- Body of the loop of `Muffler::update` for the index `i`: add the outputs of
`elements[i]` to the totals, then advance `elements[i]`. An index beyond the array is
outside the model and leaves the state as it is. -/
def Muffler.updateStep (mufflerInput outletValue : ℚ) (m : Muffler) (i : Nat) : Muffler :=
  match m.elements[i]? with
  | none => m
  | some e =>
    { m with
      outputLeft := m.outputLeft + e.outputLeft
      outputRight := m.outputRight + e.outputRight
      elements := m.elements.set i (e.add mufflerInput outletValue) }

/-- Method `Muffler::update`. -/
def Muffler.update (m : Muffler) (mufflerInput outletValue : ℚ) : Muffler :=
  let mufflerInput := m.elementsCountInverse * mufflerInput
  let outletValue := m.elementsCountInverse * outletValue
  (List.range m.elementsCount).foldl (Muffler.updateStep mufflerInput outletValue)
    { m with outputLeft := 0, outputRight := 0 }

/-! ## Cylinder (engine_sound_generator.cpp) -/

/-- The functions `sin` and `cos` of `math.h`, which the valve, piston and ignition
signals call; they are arguments of the model. -/
structure MathLibrary where
  sin : ℚ → ℚ
  cos : ℚ → ℚ

/-- State of a `Cylinder`. -/
structure Cylinder where
  index : Nat
  intakeOpenReflectionFactor : ℚ
  intakeClosedReflectionFactor : ℚ
  exhaustOpenReflectionFactor : ℚ
  exhaustClosedReflectionFactor : ℚ
  ignitionTime : ℚ
  intakeValve : ℚ
  exhaustValve : ℚ
  pistonMotion : ℚ
  fuelIgnition : ℚ
  cylinderWaveguide : Waveguide
  intakeWaveguide : Waveguide
  exhaustWaveguide : Waveguide
  extractorWaveguide : Waveguide

/-- Default constructor `Cylinder ()`: the four member initialisers in the order of the
member declarations. `heap k` is the content of the fresh buffers of the waveguide
number `k`; `uninitIndex` and `uninit` stand for the members the constructor leaves
uninitialised. -/
def Cylinder.default (heap : Nat → (Nat → ℚ) × (Nat → ℚ)) (uninitIndex : Nat)
    (uninit : Nat → ℚ) : Except String Cylinder :=
  match Waveguide.new 10 0.75 0.75 (heap 0).1 (heap 0).2 with
  | Except.error e => Except.error e
  | Except.ok cylinderWaveguide =>
    match Waveguide.new 0 0.01 0 (heap 1).1 (heap 1).2 with
    | Except.error e => Except.error e
    | Except.ok intakeWaveguide =>
      match Waveguide.new 0 0 0.01 (heap 2).1 (heap 2).2 with
      | Except.error e => Except.error e
      | Except.ok exhaustWaveguide =>
        match Waveguide.new 0 0.01 0.01 (heap 3).1 (heap 3).2 with
        | Except.error e => Except.error e
        | Except.ok extractorWaveguide =>
          Except.ok
            { index := uninitIndex
              intakeOpenReflectionFactor := uninit 0
              intakeClosedReflectionFactor := uninit 1
              exhaustOpenReflectionFactor := uninit 2
              exhaustClosedReflectionFactor := uninit 3
              ignitionTime := uninit 4
              intakeValve := uninit 5
              exhaustValve := uninit 6
              pistonMotion := uninit 7
              fuelIgnition := uninit 8
              cylinderWaveguide := cylinderWaveguide
              intakeWaveguide := intakeWaveguide
              exhaustWaveguide := exhaustWaveguide
              extractorWaveguide := extractorWaveguide }

/-- Constructor `Cylinder (index, intakeWaveguideLength, ..., ignitionTime)`. -/
def Cylinder.new (index intakeWaveguideLength exhaustWaveguideLength
    extractorWaveguideLength : Nat)
    (intakeOpenReflectionFactor intakeClosedReflectionFactor
      exhaustOpenReflectionFactor exhaustClosedReflectionFactor ignitionTime : ℚ)
    (heap : Nat → (Nat → ℚ) × (Nat → ℚ)) (uninit : Nat → ℚ) : Except String Cylinder :=
  match Waveguide.new 10 0.75 0.75 (heap 0).1 (heap 0).2 with
  | Except.error e => Except.error e
  | Except.ok cylinderWaveguide =>
    match Waveguide.new intakeWaveguideLength 0.01 intakeOpenReflectionFactor
        (heap 1).1 (heap 1).2 with
    | Except.error e => Except.error e
    | Except.ok intakeWaveguide =>
      match Waveguide.new exhaustWaveguideLength exhaustClosedReflectionFactor 0.01
          (heap 2).1 (heap 2).2 with
      | Except.error e => Except.error e
      | Except.ok exhaustWaveguide =>
        match Waveguide.new extractorWaveguideLength 0.01 0.01 (heap 3).1 (heap 3).2 with
        | Except.error e => Except.error e
        | Except.ok extractorWaveguide =>
          Except.ok
            { index := index
              intakeOpenReflectionFactor := intakeOpenReflectionFactor
              intakeClosedReflectionFactor := intakeClosedReflectionFactor
              exhaustOpenReflectionFactor := exhaustOpenReflectionFactor
              exhaustClosedReflectionFactor := exhaustClosedReflectionFactor
              ignitionTime := ignitionTime
              intakeValve := uninit 5
              exhaustValve := uninit 6
              pistonMotion := uninit 7
              fuelIgnition := uninit 8
              cylinderWaveguide := cylinderWaveguide
              intakeWaveguide := intakeWaveguide
              exhaustWaveguide := exhaustWaveguide
              extractorWaveguide := extractorWaveguide }

/-- Method `Cylinder::_exhaustValve`. -/
def Cylinder._exhaustValve (libm : MathLibrary) (x : ℚ) : ℚ :=
  if 0.75 < x ∧ x < 1.0 then -libm.sin (4.0 * M_PI * x) else 0

/-- Method `Cylinder::_intakeValve`. -/
def Cylinder._intakeValve (libm : MathLibrary) (x : ℚ) : ℚ :=
  if 0 < x ∧ x < 0.25 then libm.sin (4.0 * M_PI * x) else 0

/-- Method `Cylinder::_pistonMotion`. -/
def Cylinder._pistonMotion (libm : MathLibrary) (x : ℚ) : ℚ :=
  libm.cos (4.0 * M_PI * x)

/-- Method `Cylinder::_fuelIgnition`. -/
def Cylinder._fuelIgnition (libm : MathLibrary) (x t : ℚ) : ℚ :=
  if 0.0 < x ∧ x < 0.5 * t then libm.sin (2.0 * M_PI * (x / t)) else 0

/-- Method `Cylinder::updateWaveguidesReflectionValues`. -/
def Cylinder.updateWaveguidesReflectionValues (c : Cylinder) : Cylinder :=
  let c := { c with intakeWaveguide := { c.intakeWaveguide with
    reflectionFactorRight := c.intakeOpenReflectionFactor * c.intakeValve +
      c.intakeClosedReflectionFactor * (1.0 - c.intakeValve) } }
  let c := { c with cylinderWaveguide := { c.cylinderWaveguide with
    reflectionFactorLeft := c.intakeOpenReflectionFactor * c.intakeValve +
      c.intakeClosedReflectionFactor * (1.0 - c.intakeValve) } }
  let c := { c with exhaustWaveguide := { c.exhaustWaveguide with
    reflectionFactorLeft := c.exhaustOpenReflectionFactor * c.exhaustValve +
      c.exhaustClosedReflectionFactor * (1.0 - c.exhaustValve) } }
  let c := { c with cylinderWaveguide := { c.cylinderWaveguide with
    reflectionFactorRight := c.exhaustOpenReflectionFactor * c.exhaustValve +
      c.exhaustClosedReflectionFactor * (1.0 - c.exhaustValve) } }
  c

/-- Method `Cylinder::update`, statement by statement. -/
def Cylinder.update (libm : MathLibrary) (c : Cylinder)
    (intakeNoise straightPipeOutputLeft x : ℚ) : Cylinder :=
  let c := { c with exhaustValve := Cylinder._exhaustValve libm x }
  let c := { c with intakeValve := Cylinder._intakeValve libm x }
  let c := { c with pistonMotion := Cylinder._pistonMotion libm x }
  let c := { c with fuelIgnition := Cylinder._fuelIgnition libm x c.ignitionTime }
  let c := c.updateWaveguidesReflectionValues
  let intakeNoise := intakeNoise * c.intakeValve
  let currentCylinderAmplitude := c.pistonMotion * 1.5 + c.fuelIgnition * 5.0
  let extractorOutputLeft := c.extractorWaveguide.outputLeft
  let cylinderOutputLeft := c.cylinderWaveguide.outputLeft
  let cylinderOutputRight := c.cylinderWaveguide.outputRight
  let intakeOutputRight := c.intakeWaveguide.outputRight
  let c := { c with extractorWaveguide :=
    c.extractorWaveguide.add c.exhaustWaveguide.outputRight straightPipeOutputLeft }
  let c := { c with exhaustWaveguide :=
    (c.exhaustWaveguide.add
      (cylinderOutputRight * (1.0 - 0 * c.exhaustWaveguide.reflectionFactorLeft))
      extractorOutputLeft) }
  let c := { c with cylinderWaveguide :=
    (c.cylinderWaveguide.add
      (currentCylinderAmplitude +
        intakeOutputRight * (1.0 - c.intakeWaveguide.reflectionFactorRight))
      (extractorOutputLeft * (1.0 - c.exhaustWaveguide.reflectionFactorLeft))) }
  let c := { c with intakeWaveguide :=
    (c.intakeWaveguide.add intakeNoise
      (cylinderOutputLeft * (1.0 - c.intakeWaveguide.reflectionFactorRight))) }
  c

/-! ## EngineSoundGenerator (engine_sound_generator.cpp) -/

/-- State of an `EngineSoundGenerator`. The three output buffers `sound`,
`intakeSound`, `outletSound` belong to the caller; the samples written to them are
results of `_updateSample` (`SampleOutput`). -/
structure EngineSoundGenerator where
  secondsPerSample : ℚ
  rpm : ℚ
  throttle : ℚ
  currentRevolution : ℚ
  intakeNoiseLowPassFilter : LowpassFilter
  crankshaftLowPassFilter : LowpassFilter
  engineLowPassFilter : LowpassFilter
  cylinders : List Cylinder
  cylinderCount : Nat
  cylindersCountInverse : ℚ
  cylindersFactor : ℚ
  straightPipe : Waveguide
  muffler : Muffler
  outlet : Waveguide

/-- The three samples `sound[index]`, `intakeSound[index]`, `outletSound[index]` that
one call of `_updateSample` writes. -/
structure SampleOutput where
  sound : ℚ
  intakeSound : ℚ
  outletSound : ℚ

/-- The conversion `(long long)x`: truncation toward zero where the truncated value
is a 64-bit integer, from `-2^63` to `2^63 - 1`. For every other `x` the conversion is
undefined in C++ (the wasm instruction traps or saturates); the model takes the
nearest 64-bit integer, the result of the saturating instruction. -/
def toLongLong (x : ℚ) : Int :=
  if x < -9223372036854775808 then -9223372036854775808
  else if 9223372036854775808 ≤ x then 9223372036854775807
  else if 0 ≤ x then ⌊x⌋ else ⌈x⌉

/-- Body of the first loop of `_updateSample` for the cylinder `i`: advance the cylinder
and add its chamber output to `sound[index]` (second component). An index beyond the
vector is outside the model and leaves the state as it is. -/
def EngineSoundGenerator.cylinderStep (libm : MathLibrary) (intakeNoise crankshaftValue : ℚ)
    (acc : EngineSoundGenerator × ℚ) (i : Nat) : EngineSoundGenerator × ℚ :=
  match acc.1.cylinders[i]? with
  | none => acc
  | some c =>
    let x := acc.1.currentRevolution + (i : ℚ) * (acc.1.cylindersCountInverse + crankshaftValue)
    let c := c.update libm intakeNoise acc.1.straightPipe.outputLeft (x - (toLongLong x : ℚ))
    let g := { acc.1 with cylinders := acc.1.cylinders.set i c }
    if g.cylinderCount ≤ 4 then
      (g, acc.2 + c.cylinderWaveguide.outputLeft)
    else
      (g, acc.2 + g.cylindersFactor * c.cylinderWaveguide.outputLeft)

/-- Body of the second and third loop of `_updateSample`: add the output `out` of
cylinder `i`, scaled by `cylindersFactor` when there are more than four cylinders. -/
def EngineSoundGenerator.sumStep (g : EngineSoundGenerator) (out : Cylinder → ℚ)
    (acc : ℚ) (i : Nat) : ℚ :=
  match g.cylinders[i]? with
  | none => acc
  | some c =>
    if g.cylinderCount ≤ 4 then acc + out c else acc + g.cylindersFactor * out c

/-- Lines 297 to 314 of `_updateSample`: the two filtered random values and the loop
that advances the cylinders; the second component is `sound[index]`. `random1` and
`random2` are the values of the two calls of `get_random_value ()`. -/
def EngineSoundGenerator.updateCylinders (libm : MathLibrary) (g : EngineSoundGenerator)
    (random1 random2 : ℚ) : EngineSoundGenerator × ℚ :=
  let noise := g.intakeNoiseLowPassFilter.getFilteredValue (2.0 * random1 - 1.0)
  let intakeNoise : ℚ := if g.rpm < 25.0 then 0 else noise.1
  let crankshaft := g.crankshaftLowPassFilter.getFilteredValue (0.25 * random2)
  (List.range g.cylinderCount).foldl
    (EngineSoundGenerator.cylinderStep libm intakeNoise crankshaft.1)
    ({ g with intakeNoiseLowPassFilter := noise.2, crankshaftLowPassFilter := crankshaft.2 },
      (0.0 : ℚ))

/-- Lines 315 to 318 of `_updateSample`: advance `currentRevolution` and subtract one
revolution when it has become greater than 1. -/
def EngineSoundGenerator.updateRevolution (g : EngineSoundGenerator) : EngineSoundGenerator :=
  let currentRevolution : ℚ := g.currentRevolution + g.secondsPerSample * g.rpm / 120.0
  if currentRevolution > 1.0 then
    { g with currentRevolution := currentRevolution - 1.0 }
  else
    { g with currentRevolution := currentRevolution }

/-- Lines 341 to 345 of `_updateSample`: advance the straight pipe, the outlet and the
muffler; the second component is `outletSound[index]`. -/
def EngineSoundGenerator.updateExhaustPath (g : EngineSoundGenerator)
    (straightPipeInput : ℚ) : EngineSoundGenerator × ℚ :=
  let straightPipe := g.straightPipe.add straightPipeInput g.muffler.outputLeft
  let outlet := g.outlet.add g.muffler.outputRight 0.0
  ({ g with
      straightPipe := straightPipe
      outlet := outlet
      muffler := g.muffler.update straightPipe.outputRight outlet.outputLeft },
    outlet.outputRight)

/-- Method `EngineSoundGenerator::_updateSample`: the cylinder loop, the advance of
`currentRevolution`, the two sums over the cylinders and the exhaust path, in the
order of the source. -/
def EngineSoundGenerator._updateSample (libm : MathLibrary) (g : EngineSoundGenerator)
    (random1 random2 : ℚ) : EngineSoundGenerator × SampleOutput :=
  let cylindersDone := EngineSoundGenerator.updateCylinders libm g random1 random2
  let revolved := EngineSoundGenerator.updateRevolution cylindersDone.1
  let intakeSound : ℚ := (List.range revolved.cylinderCount).foldl
    (revolved.sumStep (fun c => c.intakeWaveguide.outputLeft)) 0
  let straightPipeInput : ℚ := (List.range revolved.cylinderCount).foldl
    (revolved.sumStep (fun c => c.extractorWaveguide.outputRight)) 0.0
  let exhausted := EngineSoundGenerator.updateExhaustPath revolved straightPipeInput
  (exhausted.1,
    { sound := cylindersDone.2, intakeSound := intakeSound, outletSound := exhausted.2 })

/-- State of the generator after `n` calls of `_updateSample`; the call number `j`
(counted from 0) draws the random values `(random j).1` and `(random j).2`. -/
def EngineSoundGenerator.runSamples (libm : MathLibrary) (g : EngineSoundGenerator)
    (random : Nat → ℚ × ℚ) : Nat → EngineSoundGenerator
  | 0 => g
  | n + 1 =>
    (EngineSoundGenerator._updateSample libm
      (EngineSoundGenerator.runSamples libm g random n) (random n).1 (random n).2).1

/-- What the model asks of the function `sin` of `math.h` at the argument `y`: its
value there has the sign of the real sine (it is not negative where the real sine is
not negative, not positive where the real sine is not positive) and lies between -1
and 1. A sine rounded to a float has these properties at every argument. -/
def MathLibrary.SineKeepsSignAndRangeAt (libm : MathLibrary) (y : ℚ) : Prop :=
  (0 ≤ Real.sin (y : ℝ) → 0 ≤ libm.sin y) ∧ (Real.sin (y : ℝ) ≤ 0 → libm.sin y ≤ 0) ∧
    -1 ≤ libm.sin y ∧ libm.sin y ≤ 1

/-- Content of the memory that a reconfiguration allocates: for the cylinder `i`, the
fresh buffers of its waveguide number `k` (`cylinderHeap i k`) and the members its
constructor leaves uninitialised (`cylinderUninit i`); the fresh buffers of the
straight pipe, of the muffler element `k` and of the outlet. -/
structure FreshMemory where
  cylinderHeap : Nat → Nat → (Nat → ℚ) × (Nat → ℚ)
  cylinderUninit : Nat → Nat → ℚ
  straightPipeHeap : (Nat → ℚ) × (Nat → ℚ)
  mufflerHeap : Nat → (Nat → ℚ) × (Nat → ℚ)
  outletHeap : (Nat → ℚ) × (Nat → ℚ)

/-- The loop of `updateParameters` that fills the vector `cylinders`: the cylinders
`Cylinder (i, ...)` for `i` from `first` on, `count` of them, in order; the first
error leaves the method. -/
def EngineSoundGenerator.newCylinders
    (intakeWaveguideLength exhaustWaveguideLength extractorWaveguideLength : Nat)
    (intakeOpenReflectionFactor intakeClosedReflectionFactor
      exhaustOpenReflectionFactor exhaustClosedReflectionFactor ignitionTime : ℚ)
    (memory : FreshMemory) : Nat → Nat → Except String (List Cylinder)
  | 0, _ => Except.ok []
  | count + 1, first =>
    match Cylinder.new first intakeWaveguideLength exhaustWaveguideLength
        extractorWaveguideLength intakeOpenReflectionFactor intakeClosedReflectionFactor
        exhaustOpenReflectionFactor exhaustClosedReflectionFactor ignitionTime
        (memory.cylinderHeap first) (memory.cylinderUninit first) with
    | Except.error e => Except.error e
    | Except.ok c =>
      match EngineSoundGenerator.newCylinders intakeWaveguideLength exhaustWaveguideLength
          extractorWaveguideLength intakeOpenReflectionFactor intakeClosedReflectionFactor
          exhaustOpenReflectionFactor exhaustClosedReflectionFactor ignitionTime memory
          count (first + 1) with
      | Except.error e => Except.error e
      | Except.ok cs => Except.ok (c :: cs)

/-- Method `EngineSoundGenerator::updateParameters`: the cylinder vector, the count
and the two fields derived from it, the straight pipe, the muffler and the outlet
are built anew, in this order; an error thrown by a constructor leaves the method.
No other member is assigned. The object that a throwing call leaves behind (the count
assigned, the vector cleared or partly filled) is not modelled. -/
def EngineSoundGenerator.updateParameters (g : EngineSoundGenerator)
    (cylinderCount intakeWaveguideLength exhaustWaveguideLength
      extractorWaveguideLength : Nat)
    (intakeOpenReflectionFactor intakeClosedReflectionFactor
      exhaustOpenReflectionFactor exhaustClosedReflectionFactor ignitionTime : ℚ)
    (straightPipeWaveguideLength : Nat) (straightPipeReflectionFactor : ℚ)
    (mufflerElementsLength : List Nat) (mufflerElementsCount : Nat) (action : ℚ)
    (outletWaveguideLength : Nat) (outletReflectionFactor : ℚ)
    (memory : FreshMemory) : Except String EngineSoundGenerator :=
  match EngineSoundGenerator.newCylinders intakeWaveguideLength exhaustWaveguideLength
      extractorWaveguideLength intakeOpenReflectionFactor intakeClosedReflectionFactor
      exhaustOpenReflectionFactor exhaustClosedReflectionFactor ignitionTime memory
      cylinderCount 0 with
  | Except.error e => Except.error e
  | Except.ok cylinders =>
    match Waveguide.new straightPipeWaveguideLength straightPipeReflectionFactor
        straightPipeReflectionFactor memory.straightPipeHeap.1 memory.straightPipeHeap.2 with
    | Except.error e => Except.error e
    | Except.ok straightPipe =>
      match Muffler.new mufflerElementsLength mufflerElementsCount action
          memory.mufflerHeap with
      | Except.error e => Except.error e
      | Except.ok muffler =>
        match Waveguide.new outletWaveguideLength outletReflectionFactor
            outletReflectionFactor memory.outletHeap.1 memory.outletHeap.2 with
        | Except.error e => Except.error e
        | Except.ok outlet =>
          Except.ok
            { g with
              cylinders := cylinders
              cylinderCount := cylinderCount
              cylindersCountInverse := 1.0 / (cylinderCount : ℚ)
              cylindersFactor := 4.0 * (1.0 / (cylinderCount : ℚ))
              straightPipe := straightPipe
              muffler := muffler
              outlet := outlet }

/-- Constructor `EngineSoundGenerator (sampleRate, cylinderCount, ...)`: the three
filters and `secondsPerSample` are set, then `updateParameters` is called. `blank`
is the object before the constructor runs; its members `rpm`, `throttle` and
`currentRevolution` are assigned nowhere in the constructor. -/
def EngineSoundGenerator.new (blank : EngineSoundGenerator) (sampleRate : Nat)
    (cylinderCount intakeWaveguideLength exhaustWaveguideLength
      extractorWaveguideLength : Nat)
    (intakeOpenReflectionFactor intakeClosedReflectionFactor
      exhaustOpenReflectionFactor exhaustClosedReflectionFactor ignitionTime : ℚ)
    (straightPipeWaveguideLength : Nat) (straightPipeReflectionFactor : ℚ)
    (mufflerElementsLength : List Nat) (mufflerElementsCount : Nat) (action : ℚ)
    (outletWaveguideLength : Nat) (outletReflectionFactor : ℚ)
    (memory : FreshMemory) : Except String EngineSoundGenerator :=
  EngineSoundGenerator.updateParameters
    { blank with
      intakeNoiseLowPassFilter := LowpassFilter.new 11000.0 (sampleRate : ℚ) 0.0
      crankshaftLowPassFilter := LowpassFilter.new 75.0 (sampleRate : ℚ) 0.0
      engineLowPassFilter := LowpassFilter.new 125.0 (sampleRate : ℚ) 0.0
      secondsPerSample := 1.0 / (sampleRate : ℚ) }
    cylinderCount intakeWaveguideLength exhaustWaveguideLength extractorWaveguideLength
    intakeOpenReflectionFactor intakeClosedReflectionFactor exhaustOpenReflectionFactor
    exhaustClosedReflectionFactor ignitionTime straightPipeWaveguideLength
    straightPipeReflectionFactor mufflerElementsLength mufflerElementsCount action
    outletWaveguideLength outletReflectionFactor memory

/-- The arrays and lengths that `generateSound` receives for one control input: the
array behind the pointer and the length the caller passes with it. -/
structure ControlInput where
  values : List ℚ
  length : Nat

/-- The value of a control input for the sample `i`: `length>1 ? values[i] : values[0]`.
A read beyond the end of the array is outside the model and read as 0. -/
def ControlInput.valueAt (input : ControlInput) (i : Nat) : ℚ :=
  if input.length > 1 then input.values.getD i 0 else input.values.getD 0 0

/-- Body of the first loop of `generateSound` for the sample `i`: set `rpm` and
`throttle`, call `_updateSample (i)`; the samples written are appended to the
second component. -/
def EngineSoundGenerator.sampleStep (libm : MathLibrary) (rpm throttle : ControlInput)
    (random : Nat → ℚ × ℚ) (acc : EngineSoundGenerator × List SampleOutput) (i : Nat) :
    EngineSoundGenerator × List SampleOutput :=
  let r := EngineSoundGenerator._updateSample libm
    { acc.1 with rpm := rpm.valueAt i, throttle := throttle.valueAt i } (random i).1 (random i).2
  (r.1, acc.2 ++ [r.2])

/-- The three channels that `generateSound` fills. -/
structure SoundBlock where
  channelIntake : List ℚ
  channelEngineBlockVibrations : List ℚ
  channelOutlet : List ℚ

/-- Method `EngineSoundGenerator::generateSound`: `chunkSize` samples are produced
(`chunkSize` is `channelIntakeLength`), the sample `i` drawing the random values
`random i`; then the samples of the vibration channel are passed through the engine
low-pass filter in order. The arguments `currentFrame` and `sampleRate` of the method
are used nowhere in it and are left out. -/
def EngineSoundGenerator.generateSound (libm : MathLibrary) (g : EngineSoundGenerator)
    (rpm throttle : ControlInput) (chunkSize : Nat) (random : Nat → ℚ × ℚ) :
    EngineSoundGenerator × SoundBlock :=
  let loop := (List.range chunkSize).foldl
    (EngineSoundGenerator.sampleStep libm rpm throttle random) (g, [])
  let filtered := loop.1.engineLowPassFilter.filterAll (loop.2.map (fun s => s.sound))
  ({ loop.1 with engineLowPassFilter := filtered.2 },
    { channelIntake := loop.2.map (fun s => s.intakeSound)
      channelEngineBlockVibrations := filtered.1
      channelOutlet := loop.2.map (fun s => s.outletSound) })

/-- The third argument of the call of `Cylinder::update` in the first loop of
`_updateSample`, for the cylinder `i`: `x-(long long)x` with
`x = currentRevolution+i*(cylindersCountInverse+crankshaftValue)`. -/
def EngineSoundGenerator.cylinderPhase (g : EngineSoundGenerator) (crankshaftValue : ℚ)
    (i : Nat) : ℚ :=
  let x := g.currentRevolution + (i : ℚ) * (g.cylindersCountInverse + crankshaftValue)
  x - (toLongLong x : ℚ)

/-! ## Machine floats and the phase accumulator -/

/-- Rounding of a rational number to the nearest integer, a tie going to the even
neighbour. -/
def roundHalfEven (m : ℚ) : Int :=
  if m - (⌊m⌋ : ℚ) < 1 / 2 then ⌊m⌋
  else if 1 / 2 < m - (⌊m⌋ : ℚ) then ⌊m⌋ + 1
  else if ⌊m⌋ % 2 = 0 then ⌊m⌋ else ⌊m⌋ + 1

/-- The value nearest to `x` in the binary floating-point format with `precision`
significant bits and the least normal exponent `emin` (IEEE 754 rounding to nearest,
ties to even; below `2 ^ emin` the spacing is that of the subnormal numbers). The
format has no largest value here: overflow to infinity is outside the model. -/
def roundToBinary (precision : Nat) (emin : Int) (x : ℚ) : ℚ :=
  if x = 0 then 0
  else
    (roundHalfEven (x / 2 ^ (max (Int.log 2 |x|) emin - ((precision : Int) - 1))) : ℚ) *
      2 ^ (max (Int.log 2 |x|) emin - ((precision : Int) - 1))

/-- Conversion to `float` (binary32: 24 significant bits). -/
def toFloat (x : ℚ) : ℚ := roundToBinary 24 (-126) x

/-- Rounding of the result of a `double` operation (binary64: 53 significant bits). -/
def toDouble (x : ℚ) : ℚ := roundToBinary 53 (-1022) x

/-- The value that the constructor stores in `secondsPerSample`:
`this->secondsPerSample = 1.0/sampleRate`, a `double` division whose result is
converted to `float`. -/
def EngineSoundGenerator.secondsPerSampleFloat (sampleRate : Nat) : ℚ :=
  toFloat (toDouble (1.0 / (sampleRate : ℚ)))

/-- Lines 315 to 318 of `_updateSample` with the roundings of the machine arithmetic:
the product of the two `float` members is a `float`; the division by the `double`
constant `120.0`, the sum, the comparison with `1.0` and the difference are `double`
operations; the two assignments convert to `float`. The members are `float` values. -/
def EngineSoundGenerator.updateRevolutionFloat (g : EngineSoundGenerator) :
    EngineSoundGenerator :=
  let step : ℚ := toDouble (toFloat (g.secondsPerSample * g.rpm) / 120.0)
  let currentRevolution : ℚ := toFloat (toDouble (g.currentRevolution + step))
  if currentRevolution > 1.0 then
    { g with currentRevolution := toFloat (toDouble (currentRevolution - 1.0)) }
  else
    { g with currentRevolution := currentRevolution }

/-- The clock of the generator after `n` calls of `_updateSample` at a constant `rpm`,
with the roundings of the machine arithmetic. The other statements of `_updateSample`
assign none of `secondsPerSample`, `rpm` and `currentRevolution`. -/
def EngineSoundGenerator.runRevolutionFloat (g : EngineSoundGenerator) :
    Nat → EngineSoundGenerator
  | 0 => g
  | n + 1 => (EngineSoundGenerator.runRevolutionFloat g n).updateRevolutionFloat

/-! ## Example states

Concrete states at which the theorems below are instantiated. -/

/-- A delay line of length 3 with cursor 1. -/
def exampleDelayLine : DelayLine :=
  ⟨[10, 20, 30], 3, 1, rfl, by decide, by decide, by decide⟩

/-- A waveguide of length 2 with stale samples in its lines, the reflection factors
`reflectionFactorLeft` and `reflectionFactorRight`, and the outputs 3 and 4. -/
def exampleWaveguide (reflectionFactorLeft reflectionFactorRight : ℚ) : Waveguide :=
  { upper := ⟨[5, 6], 2, 1, rfl, by decide, by decide, by decide⟩
    lower := ⟨[7, 8], 2, 0, rfl, by decide, by decide, by decide⟩
    maxIndex := 1
    reflectionFactorLeft := reflectionFactorLeft
    reflectionFactorRight := reflectionFactorRight
    outputLeft := 3
    outputRight := 4 }

/-- A muffler of two elements. -/
def exampleMuffler : Muffler :=
  { elements := [exampleWaveguide 0 (1 / 2), exampleWaveguide 0 (1 / 2)]
    elementsCount := 2
    elementsCountInverse := 1 / 2
    outputLeft := 0
    outputRight := 0 }

/-- A cylinder. -/
def exampleCylinder : Cylinder :=
  { index := 0
    intakeOpenReflectionFactor := 1 / 100
    intakeClosedReflectionFactor := 9 / 10
    exhaustOpenReflectionFactor := 1 / 100
    exhaustClosedReflectionFactor := 9 / 10
    ignitionTime := 1 / 10
    intakeValve := 0
    exhaustValve := 0
    pistonMotion := 0
    fuelIgnition := 0
    cylinderWaveguide := exampleWaveguide (3 / 4) (3 / 4)
    intakeWaveguide := exampleWaveguide (1 / 100) (1 / 100)
    exhaustWaveguide := exampleWaveguide (9 / 10) (1 / 100)
    extractorWaveguide := exampleWaveguide (1 / 100) (1 / 100) }

/-- A generator of one cylinder with the given clock: `secondsPerSample`, `rpm` and
`currentRevolution`. -/
def exampleGenerator (secondsPerSample rpm currentRevolution : ℚ) : EngineSoundGenerator :=
  { secondsPerSample := secondsPerSample
    rpm := rpm
    throttle := 1
    currentRevolution := currentRevolution
    intakeNoiseLowPassFilter := LowpassFilter.new 11000 (1 / secondsPerSample) 0
    crankshaftLowPassFilter := LowpassFilter.new 75 (1 / secondsPerSample) 0
    engineLowPassFilter := LowpassFilter.new 125 (1 / secondsPerSample) 0
    cylinders := [exampleCylinder]
    cylinderCount := 1
    cylindersCountInverse := 1
    cylindersFactor := 4
    straightPipe := exampleWaveguide (1 / 10) (1 / 10)
    muffler := exampleMuffler
    outlet := exampleWaveguide (1 / 10) (1 / 10) }

/-- A stand-in for `sin` and `cos`. -/
def exampleMath : MathLibrary :=
  { sin := fun _ => 0
    cos := fun _ => 1 }

/-- A stand-in for `sin` with the period `2 * M_PI`: the triangle wave that has the
zeros of the sine at the multiples of `M_PI` and its extrema 1 and -1 at the odd
multiples of `M_PI / 2`. -/
def triangleWave (y : ℚ) : ℚ :=
  let t := y / (M_PI / 2)
  let f := t - (⌊t⌋ : ℚ)
  if ⌊t⌋ % 4 = 0 then f
  else if ⌊t⌋ % 4 = 1 then 1 - f
  else if ⌊t⌋ % 4 = 2 then -f
  else f - 1

/-- A stand-in for `sin` and `cos` that follows the sine: the triangle wave, and the
same wave a quarter period ahead. -/
def exampleTriangleMath : MathLibrary :=
  { sin := triangleWave
    cos := fun y => triangleWave (y + M_PI / 2) }

/-- A generator of `count` equal cylinders at 600 revolutions per minute and half a
revolution, with the scaling fields that `updateParameters` computes for `count`. -/
def exampleEngine (count : Nat) : EngineSoundGenerator :=
  { exampleGenerator (1 / 44100) 600 (1 / 2) with
    cylinders := List.replicate count exampleCylinder
    cylinderCount := count
    cylindersCountInverse := 1 / (count : ℚ)
    cylindersFactor := 4 * (1 / (count : ℚ)) }

/-- Fresh memory that holds zeros everywhere. -/
def exampleMemory : FreshMemory :=
  { cylinderHeap := fun _ _ => (fun _ => 0, fun _ => 0)
    cylinderUninit := fun _ _ => 0
    straightPipeHeap := (fun _ => 0, fun _ => 0)
    mufflerHeap := fun _ => (fun _ => 0, fun _ => 0)
    outletHeap := (fun _ => 0, fun _ => 0) }

/-- The engine of eight cylinders with `currentRevolution = 2^64`, a value that the
member, which no constructor initialises, can hold and that one sample at a large
`rpm` leaves in it. -/
def exampleOverflowEngine : EngineSoundGenerator :=
  { exampleEngine 8 with currentRevolution := 18446744073709551616 }

/-! ## Theorems -/

/-! ### Machine integers and the loops of `getAtPosition` -/

theorem wrapInt_of_range (x : Int) (hlo : INT_MIN ≤ x) (hhi : x ≤ INT_MAX) : wrapInt x = x := by
  unfold INT_MIN at hlo
  unfold INT_MAX at hhi
  unfold wrapInt
  split <;> omega

theorem DelayLine.length_pos (dl : DelayLine) : 0 < dl.data_length :=
  lt_of_le_of_lt dl.index_nonneg dl.index_lt

theorem DelayLine.whileNegative_spec (len : Int) (hlen : 0 < len) (i : Int) :
    DelayLine.whileNegative len hlen i = if i < 0 then i % len else i := by
  induction i using DelayLine.whileNegative.induct len hlen with
  | case1 i h ih =>
    rw [DelayLine.whileNegative, dif_pos h, ih, if_pos h]
    split
    · rw [Int.add_emod_self]
    · have h2 : (i + len) % len = i + len := Int.emod_eq_of_lt (by omega) (by omega)
      rw [← h2, Int.add_emod_self]
  | case2 i h =>
    rw [DelayLine.whileNegative, dif_neg h, if_neg h]

theorem DelayLine.whileBeyond_spec (len : Int) (hlen : 0 < len) (i : Int) (hi : 0 ≤ i) :
    DelayLine.whileBeyond len hlen i = i % len := by
  induction i using DelayLine.whileBeyond.induct len hlen with
  | case1 i h ih =>
    have h2 : (i - len + len) % len = (i - len) % len := Int.add_emod_self
    rw [Int.sub_add_cancel] at h2
    rw [DelayLine.whileBeyond, dif_pos h, ih (by omega), h2]
  | case2 i h =>
    rw [DelayLine.whileBeyond, dif_neg h, Int.emod_eq_of_lt hi (by omega)]

/-- The cell read by `getAtPosition` is the 32-bit sum of cursor and offset, reduced
modulo the length. -/
theorem DelayLine.positionIndex_eq (dl : DelayLine) (offset : Int) :
    dl.positionIndex offset = wrapInt (dl.index + offset) % dl.data_length := by
  have hlen : 0 < dl.data_length := dl.length_pos
  simp only [DelayLine.positionIndex]
  rw [DelayLine.whileNegative_spec]
  split
  · rw [DelayLine.whileBeyond_spec _ _ _ (Int.emod_nonneg _ (by omega)),
      Int.emod_emod_of_dvd _ (dvd_refl _)]
  · rw [DelayLine.whileBeyond_spec _ _ _ (by omega)]

/-- The cell read by `getAtPosition` lies inside the buffer. -/
theorem DelayLine.positionIndex_bounds (dl : DelayLine) (offset : Int) :
    0 ≤ dl.positionIndex offset ∧ (dl.positionIndex offset).toNat < dl.data.length := by
  have hlen : 0 < dl.data_length := dl.length_pos
  have hsize := dl.data_size
  rw [DelayLine.positionIndex_eq]
  have h1 := Int.emod_nonneg (wrapInt (dl.index + offset)) (ne_of_gt hlen)
  have h2 := Int.emod_lt_of_pos (wrapInt (dl.index + offset)) hlen
  constructor
  · exact h1
  · omega

/-- With offset 0 the cell read is the cursor. -/
theorem DelayLine.positionIndex_zero (dl : DelayLine) : dl.positionIndex 0 = dl.index := by
  have h0 := dl.index_nonneg
  have h1 := dl.index_lt
  have h2 := dl.length_le
  rw [DelayLine.positionIndex_eq, Int.add_zero,
    wrapInt_of_range _ (by unfold INT_MIN; omega) (by omega)]
  exact Int.emod_eq_of_lt h0 dl.index_lt

/-- The read `getAtPosition (0)` is the cell under the cursor. -/
theorem DelayLine.getAtPosition_zero (dl : DelayLine) :
    dl.getAtPosition 0 = dl.data.getD dl.index.toNat 0 := by
  rw [DelayLine.getAtPosition, DelayLine.positionIndex_zero]

/-! ### C1: construction of a delay line -/

theorem DelayLine.new_of_lt_one (length : Int) (hint : length ≤ INT_MAX) (heap : Nat → ℚ)
    (h : length < 1) : DelayLine.new length hint heap = Except.error lengthError := by
  unfold DelayLine.new
  rw [dif_pos h]

theorem DelayLine.new_of_one_le (length : Int) (hint : length ≤ INT_MAX) (heap : Nat → ℚ)
    (h : 1 ≤ length) :
    ∃ dl, DelayLine.new length hint heap = Except.ok dl ∧
      dl.data = (List.range length.toNat).map heap ∧ dl.data_length = length ∧ dl.index = 0 := by
  unfold DelayLine.new
  rw [dif_neg (by omega)]
  exact ⟨_, rfl, rfl, rfl, rfl⟩

/-- C1: `DelayLine::DelayLine (length)` throws the invalid-length error exactly when
`length < 1`; for every `length ≥ 1` it returns a delay line with `length` cells (the
content of the fresh buffer), `data_length = length` and cursor 0. -/
theorem DelayLine.new_error_iff_length_lt_one (length : Int) (hint : length ≤ INT_MAX)
    (heap : Nat → ℚ) :
    (DelayLine.new length hint heap = Except.error lengthError ↔ length < 1) ∧
    ((∃ dl, DelayLine.new length hint heap = Except.ok dl) ↔ 1 ≤ length) ∧
    (∀ dl, DelayLine.new length hint heap = Except.ok dl →
      dl.data_length = length ∧ (dl.data.length : Int) = length ∧ dl.index = 0 ∧
      dl.data = (List.range length.toNat).map heap) := by
  by_cases h : length < 1
  · have e := DelayLine.new_of_lt_one length hint heap h
    rw [e]
    refine ⟨⟨fun _ => h, fun _ => rfl⟩, ⟨?_, fun h1 => absurd h1 (by omega)⟩, ?_⟩
    · rintro ⟨dl, hdl⟩
      cases hdl
    · intro dl hdl
      cases hdl
  · obtain ⟨dl0, e, hdata, hlen, hidx⟩ := DelayLine.new_of_one_le length hint heap (by omega)
    rw [e]
    refine ⟨Iff.intro (fun h1 => (by cases h1)) (fun h1 => absurd h1 h),
      Iff.intro (fun _ => (by omega)) (fun _ => ⟨dl0, rfl⟩), ?_⟩
    intro dl hdl
    injection hdl with hdl
    subst hdl
    refine ⟨hlen, ?_, hidx, hdata⟩
    rw [dl0.data_size, hlen]

/-- Witness of C1: a length of 3 and a length of 0. -/
theorem DelayLine.new_error_iff_length_lt_one_witness :
    ((∃ dl, DelayLine.new 3 (by decide) (fun _ => 0) = Except.ok dl) ↔ (1:Int) ≤ 3) ∧
    (DelayLine.new 0 (by decide) (fun _ => 0) = Except.error lengthError ↔ (0:Int) < 1) :=
  ⟨(DelayLine.new_error_iff_length_lt_one 3 (by decide) (fun _ => 0)).2.1,
   (DelayLine.new_error_iff_length_lt_one 0 (by decide) (fun _ => 0)).1⟩


/-! ### C2: construction of a waveguide -/

theorem Waveguide.new_of_range (length : Nat) (rl rr : ℚ) (heapUpper heapLower : Nat → ℚ)
    (h1 : 1 ≤ length) (h2 : length ≤ 2147483647) :
    ∃ w, Waveguide.new length rl rr heapUpper heapLower = Except.ok w ∧
      w.upper.data = (List.range length).map heapUpper ∧
      w.lower.data = (List.range length).map heapLower ∧
      w.upper.data_length = length ∧ w.lower.data_length = length ∧
      w.upper.index = 0 ∧ w.lower.index = 0 ∧
      w.reflectionFactorLeft = rl ∧ w.reflectionFactorRight = rr ∧
      w.outputLeft = 0 ∧ w.outputRight = 0 := by
  have hw : wrapInt (length : Int) = length := by unfold wrapInt; split <;> omega
  have hn : (wrapInt (length : Int)).toNat = length := by rw [hw]; exact Int.toNat_natCast length
  have hint : wrapInt (length : Int) ≤ INT_MAX := by unfold wrapInt INT_MAX; split <;> omega
  obtain ⟨u, hu, hud, hul, hui⟩ :=
    DelayLine.new_of_one_le (wrapInt (length : Int)) hint heapUpper (by omega)
  obtain ⟨l, hl, hld, hll, hli⟩ :=
    DelayLine.new_of_one_le (wrapInt (length : Int)) hint heapLower (by omega)
  unfold Waveguide.new
  generalize hx : DelayLine.new (wrapInt (length : Int)) _ heapUpper = x
  generalize hy : DelayLine.new (wrapInt (length : Int)) _ heapLower = y
  have ex : x = Except.ok u := hx.symm.trans hu
  have ey : y = Except.ok l := hy.symm.trans hl
  subst ex
  subst ey
  refine ⟨_, rfl, ?_, ?_, ?_, ?_, hui, hli, rfl, rfl, rfl, rfl⟩
  · rw [hud, hn]
  · rw [hld, hn]
  · rw [hul, hw]
  · rw [hll, hw]

theorem Waveguide.new_zero (rl rr : ℚ) (heapUpper heapLower : Nat → ℚ) :
    Waveguide.new 0 rl rr heapUpper heapLower = Except.error lengthError := by
  have hint : wrapInt ((0 : Nat) : Int) ≤ INT_MAX := by decide
  have hu := DelayLine.new_of_lt_one (wrapInt ((0 : Nat) : Int)) hint heapUpper (by decide)
  unfold Waveguide.new
  generalize hx : DelayLine.new (wrapInt ((0 : Nat) : Int)) _ heapUpper = x
  have ex : x = Except.error lengthError := hx.symm.trans hu
  subst ex
  rfl

/-- C2, as the code has it: a `Waveguide` of length 0 cannot be constructed, the
constructor of its first delay line throws the invalid-length error; for every length
from 1 to `2^31 - 1` the construction succeeds and gives two delay lines of that
length with cursor 0, the given reflection factors and both outputs 0. -/
theorem Waveguide.new_zero_fails_positive_succeeds (length : Nat) (rl rr : ℚ)
    (heapUpper heapLower : Nat → ℚ) :
    Waveguide.new 0 rl rr heapUpper heapLower = Except.error lengthError ∧
    (1 ≤ length ∧ length ≤ 2147483647 →
      ∃ w, Waveguide.new length rl rr heapUpper heapLower = Except.ok w ∧
        w.upper.data_length = length ∧ w.lower.data_length = length ∧
        w.upper.index = 0 ∧ w.lower.index = 0 ∧
        w.reflectionFactorLeft = rl ∧ w.reflectionFactorRight = rr ∧
        w.outputLeft = 0 ∧ w.outputRight = 0) := by
  refine ⟨Waveguide.new_zero rl rr heapUpper heapLower, ?_⟩
  rintro ⟨h1, h2⟩
  obtain ⟨w, hw, -, -, h⟩ := Waveguide.new_of_range length rl rr heapUpper heapLower h1 h2
  exact ⟨w, hw, h⟩

/-- Counterexample to C2: the construction of a waveguide of length 0 fails with the
invalid-length error, and so does the default constructor of `Cylinder`, at its
intake waveguide. -/
theorem Waveguide.new_zero_counterexample :
    Waveguide.new 0 0.01 0 (fun _ => 0) (fun _ => 0) = Except.error lengthError ∧
    Cylinder.default (fun _ => (fun _ => 0, fun _ => 0)) 0 (fun _ => 0) =
      Except.error lengthError := by
  constructor
  · exact Waveguide.new_zero _ _ _ _
  · obtain ⟨w, hw, -⟩ := Waveguide.new_of_range 10 0.75 0.75 (fun _ => 0) (fun _ => 0)
      (by decide) (by decide)
    unfold Cylinder.default
    rw [hw, Waveguide.new_zero]

/-! ### C3: reading at an offset -/

theorem DelayLine.getAtPosition_eq (dl : DelayLine) (offset : Int) :
    dl.data[(wrapInt (dl.index + offset) % dl.data_length).toNat]? =
      some (dl.getAtPosition offset) := by
  have hb := (dl.positionIndex_bounds offset).2
  rw [DelayLine.positionIndex_eq] at hb
  rw [DelayLine.getAtPosition, DelayLine.positionIndex_eq, List.getD_eq_getElem?_getD,
    List.getElem?_eq_getElem hb]
  rfl

/-- C3, as the code has it: when the sum of the cursor and the offset is a 32-bit
`int`, `getAtPosition (offset)` returns the sample stored in the cell
`(cursor + offset) mod length` (a cell of the buffer), and then the read at `offset`
and the read at `offset + length` agree whenever that second sum is an `int` too.
The method always returns: `getAtPosition` is a total function, its two loops end
because the length is positive. -/
theorem DelayLine.getAtPosition_mod_length (dl : DelayLine) (offset : Int)
    (hlo : INT_MIN ≤ dl.index + offset) (hhi : dl.index + offset ≤ INT_MAX) :
    dl.data[((dl.index + offset) % dl.data_length).toNat]? = some (dl.getAtPosition offset) ∧
    (dl.index + (offset + dl.data_length) ≤ INT_MAX →
      dl.getAtPosition (offset + dl.data_length) = dl.getAtPosition offset) := by
  have h := dl.getAtPosition_eq offset
  rw [wrapInt_of_range _ hlo hhi] at h
  refine ⟨h, fun hhi2 => ?_⟩
  have hpos := dl.length_pos
  have h2 := dl.getAtPosition_eq (offset + dl.data_length)
  rw [wrapInt_of_range _ (by omega) hhi2, ← add_assoc, Int.add_emod_self, h] at h2
  exact (Option.some.inj h2).symm

/-- Witness of C3 (amended): the line `[10, 20, 30]` with cursor 1, read at the offset
-7, cell `(1 - 7) mod 3 = 0`. -/
theorem DelayLine.getAtPosition_mod_length_witness :
    exampleDelayLine.data[((exampleDelayLine.index + -7) % exampleDelayLine.data_length).toNat]? =
      some (exampleDelayLine.getAtPosition (-7)) ∧
    exampleDelayLine.getAtPosition (-7 + exampleDelayLine.data_length) =
      exampleDelayLine.getAtPosition (-7) :=
  ⟨(DelayLine.getAtPosition_mod_length exampleDelayLine (-7) (by decide) (by decide)).1,
   (DelayLine.getAtPosition_mod_length exampleDelayLine (-7) (by decide) (by decide)).2
     (by decide)⟩

/-- Counterexample to C3: in the line `[10, 20, 30]` with cursor 1 the offset
`2147483647` makes the 32-bit sum `-2147483648`, the first loop ends at cell 1 and
`getAtPosition` returns 20, while cell `(1 + 2147483647) mod 3 = 2` holds 30. -/
theorem DelayLine.getAtPosition_overflow_counterexample :
    exampleDelayLine.getAtPosition 2147483647 = 20 ∧
    exampleDelayLine.data[((exampleDelayLine.index + 2147483647) %
      exampleDelayLine.data_length).toNat]? = some 30 := by
  constructor
  · have h := DelayLine.getAtPosition_eq exampleDelayLine 2147483647
    have e : (wrapInt (exampleDelayLine.index + 2147483647) %
        exampleDelayLine.data_length).toNat = 1 := by decide
    rw [e] at h
    exact (Option.some.inj h).symm
  · have e : ((exampleDelayLine.index + 2147483647) %
        exampleDelayLine.data_length).toNat = 2 := by decide
    rw [e]
    rfl


/-! ### Writes into a delay line -/

theorem DelayLine.updateLeft_data (dl : DelayLine) (v : ℚ) :
    (dl.updateLeft v).data = dl.data.set dl.index.toNat v := by
  unfold DelayLine.updateLeft
  split <;> rfl

theorem DelayLine.updateLeft_data_length (dl : DelayLine) (v : ℚ) :
    (dl.updateLeft v).data_length = dl.data_length := by
  unfold DelayLine.updateLeft
  split <;> rfl

theorem DelayLine.updateLeft_index (dl : DelayLine) (v : ℚ) :
    (dl.updateLeft v).index = (dl.index + 1) % dl.data_length := by
  have h0 := dl.index_nonneg
  have h1 := dl.index_lt
  unfold DelayLine.updateLeft
  split
  · show (0 : Int) = _
    have e : dl.index + 1 = dl.data_length := by omega
    rw [e, Int.emod_self]
  · show dl.index + 1 = _
    rw [Int.emod_eq_of_lt (by omega) (by omega)]

theorem DelayLine.updateRight_data (dl : DelayLine) (v : ℚ) :
    (dl.updateRight v).data = dl.data.set dl.index.toNat v := by
  unfold DelayLine.updateRight
  split <;> rfl

theorem DelayLine.updateRight_data_length (dl : DelayLine) (v : ℚ) :
    (dl.updateRight v).data_length = dl.data_length := by
  unfold DelayLine.updateRight
  split <;> rfl

theorem DelayLine.updateRight_index (dl : DelayLine) (v : ℚ) :
    (dl.updateRight v).index = (dl.index + -1) % dl.data_length := by
  have h0 := dl.index_nonneg
  have h1 := dl.index_lt
  unfold DelayLine.updateRight
  split
  · show dl.data_length - 1 = _
    have e : dl.index + -1 + dl.data_length = dl.data_length - 1 := by omega
    rw [← Int.add_emod_self, e, Int.emod_eq_of_lt (by omega) (by omega)]
  · show dl.index - 1 = _
    rw [Int.emod_eq_of_lt (by omega) (by omega)]
    omega

theorem emod_shift_ne (L a d : Int) (hd0 : 0 < d) (hdL : d < L) :
    (a + d) % L ≠ a % L ∧ (a - d) % L ≠ a % L := by
  constructor
  · intro h
    rw [Int.emod_eq_emod_iff_emod_sub_eq_zero] at h
    have e : a + d - a = d := by omega
    rw [e, Int.emod_eq_of_lt (by omega) hdL] at h
    omega
  · intro h
    rw [Int.emod_eq_emod_iff_emod_sub_eq_zero] at h
    have e : a - d - a + L = L - d := by omega
    rw [← Int.add_emod_self, e, Int.emod_eq_of_lt (by omega) (by omega)] at h
    omega

/-- After at most `data_length` successive writes that move the cursor by `s = 1` or
`s = -1` (modulo the length), the write number `j` is stored `j` steps from the first
cursor, and the cursor has moved `s` times the number of writes. -/
theorem DelayLine.writes_spec (step : DelayLine → ℚ → DelayLine) (s : Int)
    (hs : s = 1 ∨ s = -1)
    (hdata : ∀ dl v, (step dl v).data = dl.data.set dl.index.toNat v)
    (hlen : ∀ dl v, (step dl v).data_length = dl.data_length)
    (hidx : ∀ dl v, (step dl v).index = (dl.index + s) % dl.data_length)
    (ws : List ℚ) (dl : DelayLine) (hws : (ws.length : Int) ≤ dl.data_length) :
    (ws.foldl step dl).data_length = dl.data_length ∧
    (ws.foldl step dl).index = (dl.index + s * ws.length) % dl.data_length ∧
    ∀ j, j < ws.length →
      (ws.foldl step dl).data[((dl.index + s * j) % dl.data_length).toNat]? = ws[j]? := by
  induction ws using List.reverseRecOn with
  | nil =>
    have h0 := dl.index_nonneg
    have h1 := dl.index_lt
    refine ⟨rfl, ?_, fun j hj => absurd hj (Nat.not_lt_zero j)⟩
    simp only [List.foldl_nil, List.length_nil, Nat.cast_zero, mul_zero, add_zero]
    exact (Int.emod_eq_of_lt h0 h1).symm
  | append_singleton ws w ih =>
    have hpos := dl.length_pos
    simp only [List.length_append, List.length_singleton, Nat.cast_add, Nat.cast_one] at hws
    obtain ⟨ihlen, ihidx, ihcells⟩ := ih (by omega)
    simp only [List.foldl_append, List.foldl_cons, List.foldl_nil]
    refine ⟨by rw [hlen, ihlen], ?_, ?_⟩
    · rw [hidx, ihlen, ihidx, Int.emod_add_emod]
      congr 1
      simp only [List.length_append, List.length_singleton, Nat.cast_add, Nat.cast_one]
      ring
    · intro j hj
      simp only [List.length_append, List.length_singleton] at hj
      rw [hdata, ihidx]
      have hsize := (ws.foldl step dl).data_size
      rw [ihlen] at hsize
      have hq0 := Int.emod_nonneg (dl.index + s * ws.length) (ne_of_gt hpos)
      have hq1 := Int.emod_lt_of_pos (dl.index + s * ws.length) hpos
      have hp0 := Int.emod_nonneg (dl.index + s * j) (ne_of_gt hpos)
      by_cases hjn : j < ws.length
      · have hne : (dl.index + s * ws.length) % dl.data_length ≠
            (dl.index + s * j) % dl.data_length := by
          have hd0 : (0 : Int) < (ws.length : Int) - j := by omega
          have hdL : (ws.length : Int) - j < dl.data_length := by omega
          have hsh := emod_shift_ne dl.data_length (dl.index + s * j) ((ws.length : Int) - j)
            hd0 hdL
          rcases hs with hs | hs
          · have e : dl.index + s * ws.length = dl.index + s * j + ((ws.length : Int) - j) := by
              rw [hs]; ring
            rw [e]
            exact hsh.1
          · have e : dl.index + s * ws.length = dl.index + s * j - ((ws.length : Int) - j) := by
              rw [hs]; ring
            rw [e]
            exact hsh.2
        have hne2 : ((dl.index + s * ws.length) % dl.data_length).toNat ≠
            ((dl.index + s * j) % dl.data_length).toNat := by
          intro h
          apply hne
          omega
        rw [List.getElem?_set_ne hne2, ihcells j hjn, List.getElem?_append_left hjn]
      · have hj2 : j = ws.length := by omega
        subst hj2
        rw [List.getElem?_set_self (by omega), List.getElem?_concat_length]

/-- After exactly `data_length` writes of the kind of `writes_spec`, the read at offset
0 returns the first value written. -/
theorem DelayLine.read_after_full_turn (step : DelayLine → ℚ → DelayLine) (s : Int)
    (hs : s = 1 ∨ s = -1)
    (hdata : ∀ dl v, (step dl v).data = dl.data.set dl.index.toNat v)
    (hlen : ∀ dl v, (step dl v).data_length = dl.data_length)
    (hidx : ∀ dl v, (step dl v).index = (dl.index + s) % dl.data_length)
    (v : ℚ) (ws : List ℚ) (dl : DelayLine) (hws : ((v :: ws).length : Int) = dl.data_length) :
    ((v :: ws).foldl step dl).getAtPosition 0 = v := by
  obtain ⟨_, hi, hc⟩ := DelayLine.writes_spec step s hs hdata hlen hidx (v :: ws) dl (by omega)
  have h0 := dl.index_nonneg
  have h1 := dl.index_lt
  have hc0 := hc 0 (by simp)
  rw [hws, Int.add_mul_emod_self, Int.emod_eq_of_lt h0 h1] at hi
  simp only [Nat.cast_zero, mul_zero, add_zero, Int.emod_eq_of_lt h0 h1] at hc0
  rw [DelayLine.getAtPosition_zero, hi, List.getD_eq_getElem?_getD, hc0]
  simp only [List.length_cons, Nat.zero_lt_succ, List.getElem?_eq_getElem,
    List.getElem_cons_zero, Option.getD_some]

theorem DelayLine.read_after_full_turn_left (v : ℚ) (ws : List ℚ) (dl : DelayLine)
    (hws : ((v :: ws).length : Int) = dl.data_length) :
    ((v :: ws).foldl DelayLine.updateLeft dl).getAtPosition 0 = v :=
  DelayLine.read_after_full_turn DelayLine.updateLeft 1 (Or.inl rfl)
    DelayLine.updateLeft_data DelayLine.updateLeft_data_length DelayLine.updateLeft_index
    v ws dl hws

theorem DelayLine.read_after_full_turn_right (v : ℚ) (ws : List ℚ) (dl : DelayLine)
    (hws : ((v :: ws).length : Int) = dl.data_length) :
    ((v :: ws).foldl DelayLine.updateRight dl).getAtPosition 0 = v :=
  DelayLine.read_after_full_turn DelayLine.updateRight (-1) (Or.inr rfl)
    DelayLine.updateRight_data DelayLine.updateRight_data_length DelayLine.updateRight_index
    v ws dl hws


/-! ### C4: a full turn of writes -/

/-- C4: after exactly `length` advances of a delay line with the values `vs` (forward
with `updateLeft`, or backward with `updateRight`), from any buffer content and any
cursor, the read at offset 0 returns the first value of `vs`. -/
theorem DelayLine.full_turn_reads_first (dl : DelayLine) (vs : List ℚ)
    (hvs : (vs.length : Int) = dl.data_length) :
    vs.head? = some ((vs.foldl DelayLine.updateLeft dl).getAtPosition 0) ∧
    vs.head? = some ((vs.foldl DelayLine.updateRight dl).getAtPosition 0) := by
  cases vs with
  | nil =>
    have hpos := dl.length_pos
    simp only [List.length_nil, Nat.cast_zero] at hvs
    omega
  | cons v ws =>
    rw [DelayLine.read_after_full_turn_left v ws dl hvs,
      DelayLine.read_after_full_turn_right v ws dl hvs]
    exact ⟨rfl, rfl⟩

/-- Witness of C4: three writes into the line `[10, 20, 30]` with cursor 1. -/
theorem DelayLine.full_turn_reads_first_witness :
    ([7, 8, 9] : List ℚ).head? =
      some ((([7, 8, 9] : List ℚ).foldl DelayLine.updateLeft exampleDelayLine).getAtPosition 0) ∧
    ([7, 8, 9] : List ℚ).head? =
      some ((([7, 8, 9] : List ℚ).foldl DelayLine.updateRight exampleDelayLine).getAtPosition 0) :=
  DelayLine.full_turn_reads_first exampleDelayLine [7, 8, 9] rfl

/-! ### C5: the waveguide without reflection is a pure delay -/

theorem Waveguide.run_reflectionFactors (w : Waveguide) (inputs : Nat → ℚ × ℚ) (n : Nat) :
    (w.run inputs n).reflectionFactorLeft = w.reflectionFactorLeft ∧
    (w.run inputs n).reflectionFactorRight = w.reflectionFactorRight := by
  induction n with
  | zero => exact ⟨rfl, rfl⟩
  | succ n ih => exact ih

theorem Waveguide.run_upper (w : Waveguide) (inputs : Nat → ℚ × ℚ)
    (hl : w.reflectionFactorLeft = 0) (k n : Nat) :
    (w.run inputs (k + n)).upper =
      ((List.range n).map (fun j => (inputs (k + j)).1)).foldl DelayLine.updateRight
        (w.run inputs k).upper := by
  induction n with
  | zero => rfl
  | succ n ih =>
    have hrl := (w.run_reflectionFactors inputs (k + n)).1
    rw [List.range_succ, List.map_append, List.foldl_append, ← ih]
    show ((w.run inputs (k + n)).add (inputs (k + n)).1 (inputs (k + n)).2).upper = _
    simp only [Waveguide.add, hrl, hl, mul_zero, add_zero, List.map_cons, List.map_nil,
      List.foldl_cons, List.foldl_nil]

theorem Waveguide.run_lower (w : Waveguide) (inputs : Nat → ℚ × ℚ)
    (hr : w.reflectionFactorRight = 0) (k n : Nat) :
    (w.run inputs (k + n)).lower =
      ((List.range n).map (fun j => (inputs (k + j)).2)).foldl DelayLine.updateLeft
        (w.run inputs k).lower := by
  induction n with
  | zero => rfl
  | succ n ih =>
    have hrr := (w.run_reflectionFactors inputs (k + n)).2
    rw [List.range_succ, List.map_append, List.foldl_append, ← ih]
    show ((w.run inputs (k + n)).add (inputs (k + n)).1 (inputs (k + n)).2).lower = _
    simp only [Waveguide.add, hrr, hr, mul_zero, add_zero, List.map_cons, List.map_nil,
      List.foldl_cons, List.foldl_nil]

theorem Waveguide.run_data_length (w : Waveguide) (inputs : Nat → ℚ × ℚ) (n : Nat) :
    (w.run inputs n).upper.data_length = w.upper.data_length ∧
    (w.run inputs n).lower.data_length = w.lower.data_length := by
  induction n with
  | zero => exact ⟨rfl, rfl⟩
  | succ n ih =>
    constructor
    · show ((w.run inputs n).upper.updateRight _).data_length = _
      rw [DelayLine.updateRight_data_length, ih.1]
    · show ((w.run inputs n).lower.updateLeft _).data_length = _
      rw [DelayLine.updateLeft_data_length, ih.2]

/-- C5: in a waveguide whose two lines have length `L` and whose two reflection factors
are 0, from any buffer content and any cursors, the call of `add` number `k + L`
(calls counted from 0, so `run inputs (k + L + 1)` is the state it leaves) sets
`outputRight` to the `valueLeft` of call `k` and `outputLeft` to the `valueRight` of
call `k`. -/
theorem Waveguide.pure_delay (w : Waveguide) (L : Nat) (inputs : Nat → ℚ × ℚ) (k : Nat)
    (hupper : w.upper.data_length = L) (hlower : w.lower.data_length = L)
    (hl : w.reflectionFactorLeft = 0) (hr : w.reflectionFactorRight = 0) :
    (w.run inputs (k + L + 1)).outputRight = (inputs k).1 ∧
    (w.run inputs (k + L + 1)).outputLeft = (inputs k).2 := by
  have hrf := w.run_reflectionFactors inputs (k + L)
  have hlen := w.run_data_length inputs k
  have hposL : 1 ≤ L := by
    have := w.upper.length_pos
    omega
  obtain ⟨m, rfl⟩ : ∃ m, L = m + 1 := ⟨L - 1, by omega⟩
  constructor
  · show (w.run inputs (k + (m + 1))).upper.getAtPosition 0 *
      (1 - (w.run inputs (k + (m + 1))).reflectionFactorRight) = _
    rw [hrf.2, hr, sub_zero, mul_one, Waveguide.run_upper w inputs hl k (m + 1),
      List.range_succ_eq_map, List.map_cons]
    rw [DelayLine.read_after_full_turn_right]
    · rfl
    · simp only [List.length_cons, List.length_map, List.length_range]
      rw [hlen.1, hupper]
  · show (w.run inputs (k + (m + 1))).lower.getAtPosition 0 *
      (1 - (w.run inputs (k + (m + 1))).reflectionFactorLeft) = _
    rw [hrf.1, hl, sub_zero, mul_one, Waveguide.run_lower w inputs hr k (m + 1),
      List.range_succ_eq_map, List.map_cons]
    rw [DelayLine.read_after_full_turn_left]
    · rfl
    · simp only [List.length_cons, List.length_map, List.length_range]
      rw [hlen.2, hlower]

/-- Witness of C5: a waveguide of length 2 with stale buffer content, fed the inputs
`(j, -j)`, after call number `3 + 2`. -/
theorem Waveguide.pure_delay_witness :
    ((exampleWaveguide 0 0).run (fun j => ((j : ℚ), -(j : ℚ))) (3 + 2 + 1)).outputRight =
      ((3 : Nat) : ℚ) ∧
    ((exampleWaveguide 0 0).run (fun j => ((j : ℚ), -(j : ℚ))) (3 + 2 + 1)).outputLeft =
      -((3 : Nat) : ℚ) :=
  Waveguide.pure_delay (exampleWaveguide 0 0) 2 (fun j => ((j : ℚ), -(j : ℚ))) 3 rfl rfl rfl rfl

/-! ### C6: total reflection -/

/-- C6: when `reflectionFactorLeft = 1`, a call of `add` in any state with any inputs
sets `outputLeft` to 0 and writes `valueLeft` plus the whole sample read from the
lower line into the upper line, and `outputLeft` is 0 after every call of a run; the
same holds at the right end with `reflectionFactorRight`, `outputRight` and the two
lines exchanged. -/
theorem Waveguide.full_reflection_transmits_nothing (w : Waveguide) (valueLeft valueRight : ℚ)
    (inputs : Nat → ℚ × ℚ) (n : Nat) :
    (w.reflectionFactorLeft = 1 →
      (w.add valueLeft valueRight).outputLeft = 0 ∧
      (w.add valueLeft valueRight).upper =
        w.upper.updateRight (valueLeft + w.lower.getAtPosition 0) ∧
      (w.run inputs (n + 1)).outputLeft = 0) ∧
    (w.reflectionFactorRight = 1 →
      (w.add valueLeft valueRight).outputRight = 0 ∧
      (w.add valueLeft valueRight).lower =
        w.lower.updateLeft (valueRight + w.upper.getAtPosition 0) ∧
      (w.run inputs (n + 1)).outputRight = 0) := by
  have hrf := w.run_reflectionFactors inputs n
  constructor
  · intro h
    refine ⟨?_, ?_, ?_⟩
    · simp only [Waveguide.add, h, sub_self, mul_zero]
    · simp only [Waveguide.add, h, mul_one]
    · show (w.run inputs n).lower.getAtPosition 0 *
        (1 - (w.run inputs n).reflectionFactorLeft) = 0
      rw [hrf.1, h, sub_self, mul_zero]
  · intro h
    refine ⟨?_, ?_, ?_⟩
    · simp only [Waveguide.add, h, sub_self, mul_zero]
    · simp only [Waveguide.add, h, mul_one]
    · show (w.run inputs n).upper.getAtPosition 0 *
        (1 - (w.run inputs n).reflectionFactorRight) = 0
      rw [hrf.2, h, sub_self, mul_zero]

/-! ### C7: the low-pass filter with cutoff 0 -/

theorem LowpassFilter.filterAll_of_alpha_zero (f : LowpassFilter) (h : f.alpha = 0)
    (values : List ℚ) :
    (f.filterAll values).1 = List.replicate values.length f.lastValue ∧
    (f.filterAll values).2 = f := by
  induction values with
  | nil => exact ⟨rfl, rfl⟩
  | cons v vs ih =>
    have e : f.getFilteredValue v = (f.lastValue, f) := by
      obtain ⟨frequency, alpha, lastValue⟩ := f
      simp only at h
      subst h
      simp only [LowpassFilter.getFilteredValue, zero_mul, add_zero]
    simp only [LowpassFilter.filterAll, e, ih.1, ih.2, List.length_cons, List.replicate_succ,
      and_self]

/-- C7: a filter created with cutoff frequency 0, a positive sampling rate and any
initial value has `alpha = 0`, and for every sequence of inputs every call of
`getFilteredValue` returns the initial value and leaves the filter as it was. The
sampling rate is positive as in the claim; the proof does not depend on its value. -/
theorem LowpassFilter.zero_cutoff_holds_initial (samplingRate initialValue : ℚ)
    (_hrate : 0 < samplingRate) (values : List ℚ) :
    (LowpassFilter.new 0 samplingRate initialValue).alpha = 0 ∧
    ((LowpassFilter.new 0 samplingRate initialValue).filterAll values).1 =
      List.replicate values.length initialValue ∧
    ((LowpassFilter.new 0 samplingRate initialValue).filterAll values).2 =
      LowpassFilter.new 0 samplingRate initialValue := by
  have ha : (LowpassFilter.new 0 samplingRate initialValue).alpha = 0 := by
    simp only [LowpassFilter.new, mul_zero, zero_add, div_one]
  exact ⟨ha, LowpassFilter.filterAll_of_alpha_zero _ ha values⟩

/-- Witness of C7: the sampling rate 44100, the initial value 1/2 and three inputs. -/
theorem LowpassFilter.zero_cutoff_holds_initial_witness :
    ((LowpassFilter.new 0 44100 (1 / 2)).filterAll [1, -1, 3]).1 =
      List.replicate ([1, -1, 3] : List ℚ).length (1 / 2) :=
  (LowpassFilter.zero_cutoff_holds_initial 44100 (1 / 2) (by norm_num) [1, -1, 3]).2.1


/-! ### C8: the muffler -/

theorem Muffler.updateStep_some (a b : ℚ) (m : Muffler) (i : Nat) (e : Waveguide)
    (h : m.elements[i]? = some e) :
    Muffler.updateStep a b m i =
      { m with
        outputLeft := m.outputLeft + e.outputLeft
        outputRight := m.outputRight + e.outputRight
        elements := m.elements.set i (e.add a b) } := by
  unfold Muffler.updateStep
  rw [h]

/-- State of the muffler after the first `n` passes of the loop of `update`: the first
`n` elements are advanced, the totals have grown by their former outputs. -/
theorem Muffler.updateLoop_spec (a b : ℚ) (m : Muffler) (n : Nat) (hn : n ≤ m.elements.length) :
    ((List.range n).foldl (Muffler.updateStep a b) m).elements.length = m.elements.length ∧
    (∀ i, ((List.range n).foldl (Muffler.updateStep a b) m).elements[i]? =
      if i < n then (m.elements[i]?).map (fun e => e.add a b) else m.elements[i]?) ∧
    ((List.range n).foldl (Muffler.updateStep a b) m).outputLeft =
      m.outputLeft + ((m.elements.take n).map (fun e => e.outputLeft)).sum ∧
    ((List.range n).foldl (Muffler.updateStep a b) m).outputRight =
      m.outputRight + ((m.elements.take n).map (fun e => e.outputRight)).sum ∧
    ((List.range n).foldl (Muffler.updateStep a b) m).elementsCount = m.elementsCount ∧
    ((List.range n).foldl (Muffler.updateStep a b) m).elementsCountInverse =
      m.elementsCountInverse := by
  induction n with
  | zero =>
    simp only [List.range_zero, List.foldl_nil, Nat.not_lt_zero, if_false, List.take_zero,
      List.map_nil, List.sum_nil, add_zero, implies_true, and_self]
  | succ n ih =>
    obtain ⟨hlen, hget, hl, hr, hc, hi⟩ := ih (by omega)
    have hn2 : n < m.elements.length := by omega
    have hsome : ((List.range n).foldl (Muffler.updateStep a b) m).elements[n]? =
        some (m.elements[n]) := by
      rw [hget n, if_neg (Nat.lt_irrefl n), List.getElem?_eq_getElem hn2]
    rw [List.range_succ, List.foldl_append, List.foldl_cons, List.foldl_nil]
    have hstep := Muffler.updateStep_some a b _ n _ hsome
    rw [hstep]
    have htake : m.elements.take (n + 1) = m.elements.take n ++ [m.elements[n]] := by
      rw [List.take_succ, List.getElem?_eq_getElem hn2]
      rfl
    refine ⟨?_, ?_, ?_, ?_, hc, hi⟩
    · show (List.set _ n _).length = _
      rw [List.length_set, hlen]
    · intro i
      show (List.set _ n _)[i]? = _
      rw [List.getElem?_set]
      by_cases hin : n = i
      · subst hin
        rw [if_pos rfl, if_pos (by omega), if_pos (Nat.lt_succ_self n),
          List.getElem?_eq_getElem hn2]
        rfl
      · rw [if_neg hin, hget i]
        by_cases hlt : i < n
        · rw [if_pos hlt, if_pos (by omega)]
        · rw [if_neg hlt, if_neg (by omega)]
    · show _ + _ = _
      rw [hl, htake, List.map_append, List.sum_append, List.map_cons, List.map_nil,
        List.sum_singleton, add_assoc]
    · show _ + _ = _
      rw [hr, htake, List.map_append, List.sum_append, List.map_cons, List.map_nil,
        List.sum_singleton, add_assoc]

/-- The constructor of `Muffler` gives `elementsCount` elements and the inverse of the
count. -/
theorem Muffler.newElements_length (elementLengths : List Nat) (action : ℚ)
    (heap : Nat → (Nat → ℚ) × (Nat → ℚ)) (count first : Nat) (ws : List Waveguide)
    (h : Muffler.newElements elementLengths action heap count first = Except.ok ws) :
    ws.length = count := by
  induction count generalizing first ws with
  | zero =>
    simp only [Muffler.newElements] at h
    injection h with h
    subst h
    rfl
  | succ count ih =>
    unfold Muffler.newElements at h
    split at h
    · cases h
    · split at h
      · cases h
      · rename_i ws2 hws2
        injection h with h
        subst h
        rw [List.length_cons, ih _ _ hws2]

theorem Muffler.new_spec (elementLengths : List Nat) (elementsCount : Nat) (action : ℚ)
    (heap : Nat → (Nat → ℚ) × (Nat → ℚ)) (m : Muffler)
    (h : Muffler.new elementLengths elementsCount action heap = Except.ok m) :
    m.elements.length = m.elementsCount ∧ m.elementsCount = elementsCount ∧
    m.elementsCountInverse = 1 / (m.elementsCount : ℚ) ∧
    m.outputLeft = 0 ∧ m.outputRight = 0 := by
  unfold Muffler.new at h
  split at h
  · cases h
  · rename_i ws hws
    injection h with h
    subst h
    exact ⟨Muffler.newElements_length _ _ _ _ _ _ hws, rfl, rfl, rfl, rfl⟩

/-- C8: for a muffler whose array holds `elementsCount` waveguides and whose
`elementsCountInverse` is `1 / elementsCount` (what the constructor sets), `update`
leaves in `outputLeft` and `outputRight` the sums of the outputs that the elements
held before the call, and replaces every element by its state after one call of `add`
with `mufflerInput / elementsCount` and `outletValue / elementsCount`. -/
theorem Muffler.update_sums_outputs_and_advances_each (m : Muffler)
    (mufflerInput outletValue : ℚ)
    (hsize : m.elements.length = m.elementsCount)
    (hinv : m.elementsCountInverse = 1 / (m.elementsCount : ℚ)) :
    (m.update mufflerInput outletValue).outputLeft =
      (m.elements.map (fun e => e.outputLeft)).sum ∧
    (m.update mufflerInput outletValue).outputRight =
      (m.elements.map (fun e => e.outputRight)).sum ∧
    (m.update mufflerInput outletValue).elements =
      m.elements.map (fun e =>
        e.add (mufflerInput / (m.elementsCount : ℚ)) (outletValue / (m.elementsCount : ℚ))) ∧
    (m.update mufflerInput outletValue).elementsCount = m.elementsCount ∧
    (m.update mufflerInput outletValue).elementsCountInverse = m.elementsCountInverse := by
  have h := Muffler.updateLoop_spec (m.elementsCountInverse * mufflerInput)
    (m.elementsCountInverse * outletValue) { m with outputLeft := 0, outputRight := 0 }
    m.elementsCount (le_of_eq hsize.symm)
  obtain ⟨hlen, hget, hl, hr, hc, hi⟩ := h
  have ea : m.elementsCountInverse * mufflerInput = mufflerInput / (m.elementsCount : ℚ) := by
    rw [hinv]; ring
  have eb : m.elementsCountInverse * outletValue = outletValue / (m.elementsCount : ℚ) := by
    rw [hinv]; ring
  simp only [ea, eb] at hlen hget hl hr hc hi
  unfold Muffler.update
  simp only [ea, eb]
  refine ⟨?_, ?_, ?_, hc, hi⟩
  · rw [hl, ← hsize, List.take_length, zero_add]
  · rw [hr, ← hsize, List.take_length, zero_add]
  · apply List.ext_getElem?
    intro i
    rw [hget i, List.getElem?_map]
    by_cases hlt : i < m.elementsCount
    · rw [if_pos hlt]
    · rw [if_neg hlt, List.getElem?_eq_none (by omega)]
      rfl


/-- Witness of C8: the muffler of two elements. -/
theorem Muffler.update_sums_outputs_and_advances_each_witness :
    (exampleMuffler.update 1 2).outputLeft =
      (exampleMuffler.elements.map (fun e => e.outputLeft)).sum ∧
    (exampleMuffler.update 1 2).elements =
      exampleMuffler.elements.map (fun e =>
        e.add (1 / ((exampleMuffler.elementsCount : Nat) : ℚ))
          (2 / ((exampleMuffler.elementsCount : Nat) : ℚ))) :=
  ⟨(Muffler.update_sums_outputs_and_advances_each exampleMuffler 1 2 rfl
      (by norm_num [exampleMuffler])).1,
   (Muffler.update_sums_outputs_and_advances_each exampleMuffler 1 2 rfl
      (by norm_num [exampleMuffler])).2.2.1⟩

/-! ### C9: the crank phase accumulator -/

theorem EngineSoundGenerator.cylinderStep_clock (libm : MathLibrary) (a b : ℚ)
    (acc : EngineSoundGenerator × ℚ) (i : Nat) :
    (EngineSoundGenerator.cylinderStep libm a b acc i).1.currentRevolution =
      acc.1.currentRevolution ∧
    (EngineSoundGenerator.cylinderStep libm a b acc i).1.secondsPerSample =
      acc.1.secondsPerSample ∧
    (EngineSoundGenerator.cylinderStep libm a b acc i).1.rpm = acc.1.rpm := by
  unfold EngineSoundGenerator.cylinderStep
  split
  · exact ⟨rfl, rfl, rfl⟩
  · simp only
    split <;> exact ⟨rfl, rfl, rfl⟩

theorem EngineSoundGenerator.cylinderLoop_clock (libm : MathLibrary) (a b : ℚ) (l : List Nat)
    (acc : EngineSoundGenerator × ℚ) :
    (l.foldl (EngineSoundGenerator.cylinderStep libm a b) acc).1.currentRevolution =
      acc.1.currentRevolution ∧
    (l.foldl (EngineSoundGenerator.cylinderStep libm a b) acc).1.secondsPerSample =
      acc.1.secondsPerSample ∧
    (l.foldl (EngineSoundGenerator.cylinderStep libm a b) acc).1.rpm = acc.1.rpm := by
  induction l generalizing acc with
  | nil => exact ⟨rfl, rfl, rfl⟩
  | cons i l ih =>
    have h := EngineSoundGenerator.cylinderStep_clock libm a b acc i
    have h2 := ih (EngineSoundGenerator.cylinderStep libm a b acc i)
    rw [List.foldl_cons]
    exact ⟨h2.1.trans h.1, h2.2.1.trans h.2.1, h2.2.2.trans h.2.2⟩

theorem EngineSoundGenerator.updateCylinders_clock (libm : MathLibrary)
    (g : EngineSoundGenerator) (random1 random2 : ℚ) :
    (g.updateCylinders libm random1 random2).1.currentRevolution = g.currentRevolution ∧
    (g.updateCylinders libm random1 random2).1.secondsPerSample = g.secondsPerSample ∧
    (g.updateCylinders libm random1 random2).1.rpm = g.rpm := by
  unfold EngineSoundGenerator.updateCylinders
  exact EngineSoundGenerator.cylinderLoop_clock libm _ _ _ _

theorem EngineSoundGenerator.updateRevolution_clock (g : EngineSoundGenerator) :
    g.updateRevolution.secondsPerSample = g.secondsPerSample ∧
    g.updateRevolution.rpm = g.rpm ∧
    g.updateRevolution.currentRevolution =
      if g.currentRevolution + g.secondsPerSample * g.rpm / 120 > 1 then
        g.currentRevolution + g.secondsPerSample * g.rpm / 120 - 1
      else g.currentRevolution + g.secondsPerSample * g.rpm / 120 := by
  have e120 : (120.0 : ℚ) = 120 := by norm_num
  have e1 : (1.0 : ℚ) = 1 := by norm_num
  unfold EngineSoundGenerator.updateRevolution
  simp only [e120, e1]
  by_cases h : g.currentRevolution + g.secondsPerSample * g.rpm / 120 > 1
  · rw [if_pos h, if_pos h]
    exact ⟨rfl, rfl, rfl⟩
  · rw [if_neg h, if_neg h]
    exact ⟨rfl, rfl, rfl⟩

/-- What one call of `_updateSample` does to the clock of the generator:
`secondsPerSample` and `rpm` stay, `currentRevolution` grows by the step and loses one
revolution when the sum is greater than 1. -/
theorem EngineSoundGenerator._updateSample_clock (libm : MathLibrary)
    (g : EngineSoundGenerator) (random1 random2 : ℚ) :
    (g._updateSample libm random1 random2).1.secondsPerSample = g.secondsPerSample ∧
    (g._updateSample libm random1 random2).1.rpm = g.rpm ∧
    (g._updateSample libm random1 random2).1.currentRevolution =
      if g.currentRevolution + g.secondsPerSample * g.rpm / 120 > 1 then
        g.currentRevolution + g.secondsPerSample * g.rpm / 120 - 1
      else g.currentRevolution + g.secondsPerSample * g.rpm / 120 := by
  obtain ⟨hc, hs, hr⟩ := EngineSoundGenerator.updateCylinders_clock libm g random1 random2
  obtain ⟨h1, h2, h3⟩ :=
    EngineSoundGenerator.updateRevolution_clock (g.updateCylinders libm random1 random2).1
  rw [hc, hs, hr] at h3
  exact ⟨h1.trans hs, h2.trans hr, h3⟩

/-- The step of the crank phase lies between 0 and 1 when the rpm lies between 0 and
`120 * sampleRate`. -/
theorem EngineSoundGenerator.step_bounds (g : EngineSoundGenerator) (sampleRate : ℚ)
    (hrate : 0 < sampleRate) (hsps : g.secondsPerSample = 1 / sampleRate)
    (hrpm0 : 0 ≤ g.rpm) (hrpm1 : g.rpm ≤ 120 * sampleRate) :
    0 ≤ g.secondsPerSample * g.rpm / 120 ∧ g.secondsPerSample * g.rpm / 120 ≤ 1 := by
  have e : g.secondsPerSample * g.rpm / 120 = g.rpm / (120 * sampleRate) := by
    rw [hsps]
    field_simp
    left
    ring
  rw [e]
  have hpos : (0 : ℚ) < 120 * sampleRate := by linarith
  exact ⟨div_nonneg hrpm0 (le_of_lt hpos), (div_le_one hpos).mpr hrpm1⟩

/-- C9, as the code has it: from a state with `currentRevolution` in the closed
interval `[0, 1]`, an rpm between 0 and `120 * sampleRate` (a step of at most one
revolution) and `secondsPerSample = 1 / sampleRate` for a positive sample rate, one
call of `_updateSample` leaves `currentRevolution` in `[0, 1]` again; it is strictly
below 1 when it was below 1 before and the sum of it and the step is not exactly 1. -/
theorem EngineSoundGenerator.currentRevolution_stays_in_closed_unit_interval
    (libm : MathLibrary) (g : EngineSoundGenerator) (random1 random2 sampleRate : ℚ)
    (hrate : 0 < sampleRate) (hsps : g.secondsPerSample = 1 / sampleRate)
    (hrpm0 : 0 ≤ g.rpm) (hrpm1 : g.rpm ≤ 120 * sampleRate)
    (hc0 : 0 ≤ g.currentRevolution) (hc1 : g.currentRevolution ≤ 1) :
    0 ≤ (g._updateSample libm random1 random2).1.currentRevolution ∧
    (g._updateSample libm random1 random2).1.currentRevolution ≤ 1 ∧
    (g.currentRevolution < 1 →
      g.currentRevolution + g.secondsPerSample * g.rpm / 120 ≠ 1 →
      (g._updateSample libm random1 random2).1.currentRevolution < 1) := by
  obtain ⟨hd0, hd1⟩ := g.step_bounds sampleRate hrate hsps hrpm0 hrpm1
  rw [(EngineSoundGenerator._updateSample_clock libm g random1 random2).2.2]
  by_cases h : g.currentRevolution + g.secondsPerSample * g.rpm / 120 > 1
  · rw [if_pos h]
    refine ⟨by linarith, by linarith, fun h1 _ => by linarith⟩
  · rw [if_neg h]
    refine ⟨by linarith, by linarith, fun _ hne => ?_⟩
    exact lt_of_le_of_ne (not_lt.mp h) hne

/-- Witness of C9 (amended): the sample rate 44100 at 3000 rpm, from the phase 1/2. -/
theorem EngineSoundGenerator.currentRevolution_stays_in_closed_unit_interval_witness :
    0 ≤ ((exampleGenerator (1 / 44100) 3000 (1 / 2))._updateSample exampleMath 0
      0).1.currentRevolution ∧
    ((exampleGenerator (1 / 44100) 3000 (1 / 2))._updateSample exampleMath 0
      0).1.currentRevolution ≤ 1 :=
  ⟨(EngineSoundGenerator.currentRevolution_stays_in_closed_unit_interval exampleMath
      (exampleGenerator (1 / 44100) 3000 (1 / 2)) 0 0 44100 (by norm_num) rfl
      (by norm_num [exampleGenerator]) (by norm_num [exampleGenerator])
      (by norm_num [exampleGenerator]) (by norm_num [exampleGenerator])).1,
   (EngineSoundGenerator.currentRevolution_stays_in_closed_unit_interval exampleMath
      (exampleGenerator (1 / 44100) 3000 (1 / 2)) 0 0 44100 (by norm_num) rfl
      (by norm_num [exampleGenerator]) (by norm_num [exampleGenerator])
      (by norm_num [exampleGenerator]) (by norm_num [exampleGenerator])).2.1⟩

/-- Counterexample to C9: at the sample rate 32768 and 3840 rpm the step is 1/1024;
from the phase 1023/1024 the sum is exactly 1, the test `> 1.0` fails and
`currentRevolution` stays 1, which is not below 1. At the same sample rate and
7864320 rpm the step is 2, and from the phase 1/2 the one subtraction leaves 3/2. -/
theorem EngineSoundGenerator.currentRevolution_reaches_one_counterexample :
    ((exampleGenerator (1 / 32768) 3840 (1023 / 1024))._updateSample exampleMath 0
      0).1.currentRevolution = 1 ∧
    ((exampleGenerator (1 / 32768) 7864320 (1 / 2))._updateSample exampleMath 0
      0).1.currentRevolution = 3 / 2 := by
  constructor
  · rw [(EngineSoundGenerator._updateSample_clock _ _ _ _).2.2]
    norm_num [exampleGenerator]
  · rw [(EngineSoundGenerator._updateSample_clock _ _ _ _).2.2]
    norm_num [exampleGenerator]

theorem EngineSoundGenerator.runSamples_clock (libm : MathLibrary) (g : EngineSoundGenerator)
    (random : Nat → ℚ × ℚ) (k : Nat) :
    (g.runSamples libm random k).secondsPerSample = g.secondsPerSample ∧
    (g.runSamples libm random k).rpm = g.rpm := by
  induction k with
  | zero => exact ⟨rfl, rfl⟩
  | succ k ih =>
    have h := EngineSoundGenerator._updateSample_clock libm (g.runSamples libm random k)
      (random k).1 (random k).2
    exact ⟨h.1.trans ih.1, h.2.1.trans ih.2⟩

theorem EngineSoundGenerator.runSamples_succ (libm : MathLibrary) (g : EngineSoundGenerator)
    (random : Nat → ℚ × ℚ) (k : Nat) :
    (g.runSamples libm random (k + 1)).currentRevolution =
      if (g.runSamples libm random k).currentRevolution + g.secondsPerSample * g.rpm / 120 > 1
      then (g.runSamples libm random k).currentRevolution + g.secondsPerSample * g.rpm / 120 - 1
      else (g.runSamples libm random k).currentRevolution + g.secondsPerSample * g.rpm / 120 := by
  have h := EngineSoundGenerator._updateSample_clock libm (g.runSamples libm random k)
    (random k).1 (random k).2
  have hk := EngineSoundGenerator.runSamples_clock libm g random k
  rw [hk.1, hk.2] at h
  exact h.2.2

/-- With a step between 0 and 1 the phase stays in `[0, 1]` and differs from the sum of
the steps by a whole number of revolutions. -/
theorem EngineSoundGenerator.runSamples_phase (libm : MathLibrary) (g : EngineSoundGenerator)
    (random : Nat → ℚ × ℚ)
    (hd0 : 0 ≤ g.secondsPerSample * g.rpm / 120) (hd1 : g.secondsPerSample * g.rpm / 120 ≤ 1)
    (hc0 : 0 ≤ g.currentRevolution) (hc1 : g.currentRevolution ≤ 1) (k : Nat) :
    0 ≤ (g.runSamples libm random k).currentRevolution ∧
    (g.runSamples libm random k).currentRevolution ≤ 1 ∧
    ∃ z : Int, (g.runSamples libm random k).currentRevolution =
      g.currentRevolution + k * (g.secondsPerSample * g.rpm / 120) - z := by
  induction k with
  | zero =>
    refine ⟨hc0, hc1, 0, ?_⟩
    show g.currentRevolution = _
    simp only [Nat.cast_zero, zero_mul, add_zero, Int.cast_zero, sub_zero]
  | succ k ih =>
    obtain ⟨h0, h1, z, hz⟩ := ih
    rw [EngineSoundGenerator.runSamples_succ]
    by_cases h : (g.runSamples libm random k).currentRevolution +
        g.secondsPerSample * g.rpm / 120 > 1
    · rw [if_pos h]
      refine ⟨by linarith, by linarith, z + 1, ?_⟩
      rw [hz]
      push_cast
      ring
    · rw [if_neg h]
      refine ⟨by linarith, by linarith, z, ?_⟩
      rw [hz]
      push_cast
      ring

/-- From the phase 0 the accumulator reaches `k` steps after `k` samples, as long as
these do not exceed one revolution. -/
theorem EngineSoundGenerator.runSamples_from_zero (libm : MathLibrary)
    (g : EngineSoundGenerator) (random : Nat → ℚ × ℚ) (N : Nat)
    (hd0 : 0 ≤ g.secondsPerSample * g.rpm / 120)
    (hN : (N : ℚ) * (g.secondsPerSample * g.rpm / 120) = 1)
    (hc : g.currentRevolution = 0) (k : Nat) (hk : k ≤ N) :
    (g.runSamples libm random k).currentRevolution =
      k * (g.secondsPerSample * g.rpm / 120) := by
  induction k with
  | zero =>
    show g.currentRevolution = _
    rw [hc, Nat.cast_zero, zero_mul]
  | succ k ih =>
    have hle : ((k + 1 : Nat) : ℚ) * (g.secondsPerSample * g.rpm / 120) ≤ 1 := by
      rw [← hN]
      exact mul_le_mul_of_nonneg_right (by exact_mod_cast hk) hd0
    rw [EngineSoundGenerator.runSamples_succ, ih (by omega)]
    push_cast at hle ⊢
    rw [if_neg (by linarith)]
    ring

/-- In exact arithmetic: at a constant rpm > 0 and a sample rate for which
`N = 120 * sampleRate / rpm` is a whole number, `N` successive calls of `_updateSample`
from a phase in `[0, 1)` bring `currentRevolution` back to its starting value modulo 1:
its fractional part is the starting value; it is the starting value itself when that
is above 0, and it is 1 when the start was 0. -/
theorem EngineSoundGenerator.runSamples_returns_after_period (libm : MathLibrary)
    (g : EngineSoundGenerator) (random : Nat → ℚ × ℚ) (rpm sampleRate : ℚ) (N : Nat)
    (hrpm : 0 < rpm) (hrate : 0 < sampleRate) (hN : (N : ℚ) = 120 * sampleRate / rpm)
    (hg : g.rpm = rpm) (hsps : g.secondsPerSample = 1 / sampleRate)
    (hc0 : 0 ≤ g.currentRevolution) (hc1 : g.currentRevolution < 1) :
    Int.fract (g.runSamples libm random N).currentRevolution = g.currentRevolution ∧
    (0 < g.currentRevolution →
      (g.runSamples libm random N).currentRevolution = g.currentRevolution) ∧
    (g.currentRevolution = 0 → (g.runSamples libm random N).currentRevolution = 1) := by
  have hstep : (N : ℚ) * (g.secondsPerSample * g.rpm / 120) = 1 := by
    rw [hN, hsps, hg]
    field_simp
    ring
  have hNpos : (0 : ℚ) < N := by
    rw [hN]
    positivity
  have hd0 : 0 ≤ g.secondsPerSample * g.rpm / 120 := by
    rw [hsps, hg]
    positivity
  have hd1 : g.secondsPerSample * g.rpm / 120 ≤ 1 := by
    have h1 : (1 : ℚ) ≤ N := by
      have : 0 < N := by exact_mod_cast hNpos
      exact_mod_cast this
    nlinarith
  obtain ⟨h0, h1, z, hz⟩ := EngineSoundGenerator.runSamples_phase libm g random hd0 hd1 hc0
    (le_of_lt hc1) N
  rw [hstep] at hz
  refine ⟨?_, ?_, ?_⟩
  · have e : (g.runSamples libm random N).currentRevolution =
        g.currentRevolution + ((1 - z : Int) : ℚ) := by
      rw [hz]
      push_cast
      ring
    rw [e, Int.fract_add_int]
    exact Int.fract_eq_self.mpr ⟨hc0, hc1⟩
  · intro hpos
    have hz1 : (0 : ℚ) < z := by linarith
    have hz2 : (z : ℚ) < 2 := by linarith
    have hz3 : 0 < z := by exact_mod_cast hz1
    have hz4 : z < 2 := by exact_mod_cast hz2
    have hz5 : z = 1 := by omega
    rw [hz, hz5]
    push_cast
    ring
  · intro hzero
    rw [EngineSoundGenerator.runSamples_from_zero libm g random N hd0 hstep hzero N (le_refl N),
      hstep]

/-! ### C14: the step of a waveguide -/

/-- C14: `add` sets `outputLeft` to the sample read at offset 0 from the lower line
times `1 - reflectionFactorLeft` and `outputRight` to the sample read at offset 0 from
the upper line times `1 - reflectionFactorRight`; it advances the upper line (the one
that determines `outputRight`) backward with `valueLeft` plus the lower sample times
`reflectionFactorLeft`, and the lower line (the one that determines `outputLeft`)
forward with `valueRight` plus the upper sample times `reflectionFactorRight`; the
reflection factors stay; at each end the transmitted and the reflected part add up to
the sample read. The samples are those of the lines before the step. -/
theorem Waveguide.add_is_crossed_reflect_transmit (w : Waveguide) (valueLeft valueRight : ℚ) :
    (w.add valueLeft valueRight).outputLeft =
      w.lower.getAtPosition 0 * (1 - w.reflectionFactorLeft) ∧
    (w.add valueLeft valueRight).outputRight =
      w.upper.getAtPosition 0 * (1 - w.reflectionFactorRight) ∧
    (w.add valueLeft valueRight).upper =
      w.upper.updateRight (valueLeft + w.lower.getAtPosition 0 * w.reflectionFactorLeft) ∧
    (w.add valueLeft valueRight).lower =
      w.lower.updateLeft (valueRight + w.upper.getAtPosition 0 * w.reflectionFactorRight) ∧
    (w.add valueLeft valueRight).reflectionFactorLeft = w.reflectionFactorLeft ∧
    (w.add valueLeft valueRight).reflectionFactorRight = w.reflectionFactorRight ∧
    (w.add valueLeft valueRight).outputLeft +
      w.lower.getAtPosition 0 * w.reflectionFactorLeft = w.lower.getAtPosition 0 ∧
    (w.add valueLeft valueRight).outputRight +
      w.upper.getAtPosition 0 * w.reflectionFactorRight = w.upper.getAtPosition 0 := by
  refine ⟨rfl, rfl, rfl, rfl, rfl, rfl, ?_, ?_⟩
  · show w.lower.getAtPosition 0 * (1 - w.reflectionFactorLeft) +
      w.lower.getAtPosition 0 * w.reflectionFactorLeft = w.lower.getAtPosition 0
    ring
  · show w.upper.getAtPosition 0 * (1 - w.reflectionFactorRight) +
      w.upper.getAtPosition 0 * w.reflectionFactorRight = w.upper.getAtPosition 0
    ring

/-! ### C15: the cursor of a delay line -/

theorem DelayLine.set_cursor_cells (dl : DelayLine) (v : ℚ) :
    (dl.data.set dl.index.toNat v)[dl.index.toNat]? = some v ∧
    (∀ p, p ≠ dl.index.toNat → (dl.data.set dl.index.toNat v)[p]? = dl.data[p]?) := by
  have h0 := dl.index_nonneg
  have h1 := dl.index_lt
  have hsize := dl.data_size
  constructor
  · exact List.getElem?_set_self (by omega)
  · intro p hp
    exact List.getElem?_set_ne (Ne.symm hp)

/-- C15: `updateLeft (value)` stores `value` in the cell under the cursor and moves
the cursor to `(cursor + 1) mod length`; `updateRight (value)` stores `value` in the
cell under the cursor and moves the cursor to `(cursor - 1) mod length`; after either
the cursor is in `[0, length)` again, `data_length` and the number of cells are as
before, and every cell but the one under the old cursor holds what it held.
The read `getAtPosition` is a function of the line and returns a sample only: it
assigns to its own parameter `index`, never to a member. -/
theorem DelayLine.update_moves_cursor_and_writes_one_cell (dl : DelayLine) (value : ℚ) :
    ((dl.updateLeft value).data[dl.index.toNat]? = some value ∧
      (dl.updateLeft value).index = (dl.index + 1) % dl.data_length ∧
      0 ≤ (dl.updateLeft value).index ∧
      (dl.updateLeft value).index < (dl.updateLeft value).data_length ∧
      (dl.updateLeft value).data_length = dl.data_length ∧
      (dl.updateLeft value).data.length = dl.data.length ∧
      ∀ p, p ≠ dl.index.toNat → (dl.updateLeft value).data[p]? = dl.data[p]?) ∧
    ((dl.updateRight value).data[dl.index.toNat]? = some value ∧
      (dl.updateRight value).index = (dl.index - 1) % dl.data_length ∧
      0 ≤ (dl.updateRight value).index ∧
      (dl.updateRight value).index < (dl.updateRight value).data_length ∧
      (dl.updateRight value).data_length = dl.data_length ∧
      (dl.updateRight value).data.length = dl.data.length ∧
      ∀ p, p ≠ dl.index.toNat → (dl.updateRight value).data[p]? = dl.data[p]?) := by
  obtain ⟨hcell, hothers⟩ := dl.set_cursor_cells value
  constructor
  · rw [DelayLine.updateLeft_data, DelayLine.updateLeft_data_length]
    refine ⟨hcell, DelayLine.updateLeft_index dl value, (dl.updateLeft value).index_nonneg, ?_,
      rfl, List.length_set _ _ _, hothers⟩
    have h := (dl.updateLeft value).index_lt
    rw [DelayLine.updateLeft_data_length] at h
    exact h
  · rw [DelayLine.updateRight_data, DelayLine.updateRight_data_length]
    refine ⟨hcell, ?_, (dl.updateRight value).index_nonneg, ?_,
      rfl, List.length_set _ _ _, hothers⟩
    · rw [DelayLine.updateRight_index, Int.sub_eq_add_neg]
    · have h := (dl.updateRight value).index_lt
      rw [DelayLine.updateRight_data_length] at h
      exact h

/-! ### C17 and C18: the wiring of a cylinder -/

/-- The state that `Cylinder::update` leaves, written out from the state before the
call: every waveguide is advanced once, with its blended reflection factors and with
inputs taken from the outputs held before the call. -/
theorem Cylinder.update_eq (libm : MathLibrary) (c : Cylinder)
    (intakeNoise straightPipeOutputLeft x : ℚ) :
    c.update libm intakeNoise straightPipeOutputLeft x =
      { c with
        exhaustValve := Cylinder._exhaustValve libm x
        intakeValve := Cylinder._intakeValve libm x
        pistonMotion := Cylinder._pistonMotion libm x
        fuelIgnition := Cylinder._fuelIgnition libm x c.ignitionTime
        extractorWaveguide :=
          c.extractorWaveguide.add c.exhaustWaveguide.outputRight straightPipeOutputLeft
        exhaustWaveguide :=
          ({ c.exhaustWaveguide with
              reflectionFactorLeft :=
                c.exhaustOpenReflectionFactor * Cylinder._exhaustValve libm x +
                  c.exhaustClosedReflectionFactor * (1 - Cylinder._exhaustValve libm x) }).add
            c.cylinderWaveguide.outputRight c.extractorWaveguide.outputLeft
        cylinderWaveguide :=
          ({ c.cylinderWaveguide with
              reflectionFactorLeft :=
                c.intakeOpenReflectionFactor * Cylinder._intakeValve libm x +
                  c.intakeClosedReflectionFactor * (1 - Cylinder._intakeValve libm x)
              reflectionFactorRight :=
                c.exhaustOpenReflectionFactor * Cylinder._exhaustValve libm x +
                  c.exhaustClosedReflectionFactor * (1 - Cylinder._exhaustValve libm x) }).add
            (1.5 * Cylinder._pistonMotion libm x +
              5 * Cylinder._fuelIgnition libm x c.ignitionTime +
              c.intakeWaveguide.outputRight *
                (1 - (c.intakeOpenReflectionFactor * Cylinder._intakeValve libm x +
                  c.intakeClosedReflectionFactor * (1 - Cylinder._intakeValve libm x))))
            (c.extractorWaveguide.outputLeft *
              (1 - (c.exhaustOpenReflectionFactor * Cylinder._exhaustValve libm x +
                c.exhaustClosedReflectionFactor * (1 - Cylinder._exhaustValve libm x))))
        intakeWaveguide :=
          ({ c.intakeWaveguide with
              reflectionFactorRight :=
                c.intakeOpenReflectionFactor * Cylinder._intakeValve libm x +
                  c.intakeClosedReflectionFactor * (1 - Cylinder._intakeValve libm x) }).add
            (intakeNoise * Cylinder._intakeValve libm x)
            (c.cylinderWaveguide.outputLeft *
              (1 - (c.intakeOpenReflectionFactor * Cylinder._intakeValve libm x +
                c.intakeClosedReflectionFactor * (1 - Cylinder._intakeValve libm x)))) } := by
  have e1 : (1.0 : ℚ) = 1 := by norm_num
  have e5 : (5.0 : ℚ) = 5 := by norm_num
  unfold Cylinder.update Cylinder.updateWaveguidesReflectionValues
  simp only [e1, e5, zero_mul, sub_zero, mul_one]
  congr 2
  ring


theorem Cylinder.update_reflectionFactors (libm : MathLibrary) (c : Cylinder)
    (intakeNoise straightPipeOutputLeft x : ℚ) :
    (c.update libm intakeNoise straightPipeOutputLeft x).intakeWaveguide.reflectionFactorRight =
      c.intakeOpenReflectionFactor * Cylinder._intakeValve libm x +
        c.intakeClosedReflectionFactor * (1 - Cylinder._intakeValve libm x) ∧
    (c.update libm intakeNoise straightPipeOutputLeft x).cylinderWaveguide.reflectionFactorLeft =
      c.intakeOpenReflectionFactor * Cylinder._intakeValve libm x +
        c.intakeClosedReflectionFactor * (1 - Cylinder._intakeValve libm x) ∧
    (c.update libm intakeNoise straightPipeOutputLeft x).exhaustWaveguide.reflectionFactorLeft =
      c.exhaustOpenReflectionFactor * Cylinder._exhaustValve libm x +
        c.exhaustClosedReflectionFactor * (1 - Cylinder._exhaustValve libm x) ∧
    (c.update libm intakeNoise straightPipeOutputLeft x).cylinderWaveguide.reflectionFactorRight =
      c.exhaustOpenReflectionFactor * Cylinder._exhaustValve libm x +
        c.exhaustClosedReflectionFactor * (1 - Cylinder._exhaustValve libm x) := by
  rw [Cylinder.update_eq]
  exact ⟨rfl, rfl, rfl, rfl⟩

/-- C17: `Cylinder::update` advances each of its four waveguides once, with inputs
taken from the outputs held before the call, so that the result is the same in any
order of the four advances: the extractor with (`exhaust.outputRight`, the straight
pipe feedback), the exhaust with right input `extractor.outputLeft` (and left input
`chamber.outputRight`), the chamber with (`1.5 * pistonMotion (x) + 5.0 * ignition (x) +
intake.outputRight * (1 - intake.reflectionFactorRight)`, `extractor.outputLeft *
(1 - exhaust.reflectionFactorLeft)`), the intake with (`intakeNoise * intakeValve (x)`,
`chamber.outputLeft * (1 - intake.reflectionFactorRight)`). The outputs are those of the
cylinder `c` before the call, the reflection factors those of the cylinder after it,
blended in this call. -/
theorem Cylinder.update_feeds_previous_outputs (libm : MathLibrary) (c : Cylinder)
    (intakeNoise straightPipeOutputLeft x : ℚ) :
    (c.update libm intakeNoise straightPipeOutputLeft x).extractorWaveguide =
      c.extractorWaveguide.add c.exhaustWaveguide.outputRight straightPipeOutputLeft ∧
    (c.update libm intakeNoise straightPipeOutputLeft x).exhaustWaveguide =
      ({ c.exhaustWaveguide with
          reflectionFactorLeft := (c.update libm intakeNoise straightPipeOutputLeft
            x).exhaustWaveguide.reflectionFactorLeft }).add
        c.cylinderWaveguide.outputRight c.extractorWaveguide.outputLeft ∧
    (c.update libm intakeNoise straightPipeOutputLeft x).cylinderWaveguide =
      ({ c.cylinderWaveguide with
          reflectionFactorLeft := (c.update libm intakeNoise straightPipeOutputLeft
            x).intakeWaveguide.reflectionFactorRight
          reflectionFactorRight := (c.update libm intakeNoise straightPipeOutputLeft
            x).exhaustWaveguide.reflectionFactorLeft }).add
        (1.5 * Cylinder._pistonMotion libm x +
          5.0 * Cylinder._fuelIgnition libm x c.ignitionTime +
          c.intakeWaveguide.outputRight *
            (1 - (c.update libm intakeNoise straightPipeOutputLeft
              x).intakeWaveguide.reflectionFactorRight))
        (c.extractorWaveguide.outputLeft *
          (1 - (c.update libm intakeNoise straightPipeOutputLeft
            x).exhaustWaveguide.reflectionFactorLeft)) ∧
    (c.update libm intakeNoise straightPipeOutputLeft x).intakeWaveguide =
      ({ c.intakeWaveguide with
          reflectionFactorRight := (c.update libm intakeNoise straightPipeOutputLeft
            x).intakeWaveguide.reflectionFactorRight }).add
        (intakeNoise * Cylinder._intakeValve libm x)
        (c.cylinderWaveguide.outputLeft *
          (1 - (c.update libm intakeNoise straightPipeOutputLeft
            x).intakeWaveguide.reflectionFactorRight)) := by
  obtain ⟨h1, -, h3, -⟩ :=
    Cylinder.update_reflectionFactors libm c intakeNoise straightPipeOutputLeft x
  have e5 : (5.0 : ℚ) = 5 := by norm_num
  rw [h1, h3, e5, Cylinder.update_eq]
  exact ⟨rfl, rfl, rfl, rfl⟩

/-- C18, as the code has it: the left input of the exhaust waveguide in
`Cylinder::update` is `cylinderOutputRight * (1.0 - 0 * reflectionFactorLeft)`, the
output `chamber.outputRight` held before the call, not scaled: the exhaust is advanced
with (`chamber.outputRight`, `extractor.outputLeft`), and its upper line receives
`chamber.outputRight` plus the part of its lower sample that the blended
`reflectionFactorLeft` reflects. -/
theorem Cylinder.update_exhaust_receives_unscaled_output (libm : MathLibrary) (c : Cylinder)
    (intakeNoise straightPipeOutputLeft x : ℚ) :
    (c.update libm intakeNoise straightPipeOutputLeft x).exhaustWaveguide =
      ({ c.exhaustWaveguide with
          reflectionFactorLeft := (c.update libm intakeNoise straightPipeOutputLeft
            x).exhaustWaveguide.reflectionFactorLeft }).add
        c.cylinderWaveguide.outputRight c.extractorWaveguide.outputLeft ∧
    (c.update libm intakeNoise straightPipeOutputLeft x).exhaustWaveguide.upper =
      c.exhaustWaveguide.upper.updateRight
        (c.cylinderWaveguide.outputRight +
          c.exhaustWaveguide.lower.getAtPosition 0 *
            (c.update libm intakeNoise straightPipeOutputLeft
              x).exhaustWaveguide.reflectionFactorLeft) := by
  obtain ⟨-, -, h3, -⟩ :=
    Cylinder.update_reflectionFactors libm c intakeNoise straightPipeOutputLeft x
  rw [h3, Cylinder.update_eq]
  exact ⟨rfl, rfl⟩

/-- Counterexample to C18: in the example cylinder at the phase 1/2 (both valves
closed) the exhaust has `reflectionFactorLeft = 9/10`, the chamber holds
`outputRight = 4` and the lower line of the exhaust reads 7. The update writes
`4 + 7 * 9/10 = 103/10` into the upper line of the exhaust; with the left input scaled
by `1 - 9/10` it would write `4 * 1/10 + 7 * 9/10 = 67/10`. -/
theorem Cylinder.update_exhaust_unscaled_counterexample :
    (exampleCylinder.update exampleMath 0 0 (1 / 2)).exhaustWaveguide.reflectionFactorLeft =
      9 / 10 ∧
    exampleCylinder.cylinderWaveguide.outputRight = 4 ∧
    (exampleCylinder.update exampleMath 0 0 (1 / 2)).exhaustWaveguide.upper.data =
      [5, 103 / 10] ∧
    (({ exampleCylinder.exhaustWaveguide with reflectionFactorLeft := 9 / 10 }).add
      (exampleCylinder.cylinderWaveguide.outputRight * (1 - 9 / 10))
      exampleCylinder.extractorWaveguide.outputLeft).upper.data = [5, 67 / 10] := by
  have hv : Cylinder._exhaustValve exampleMath (1 / 2) = 0 := by
    norm_num [Cylinder._exhaustValve]
  have hrf : (exampleCylinder.update exampleMath 0 0 (1 / 2)).exhaustWaveguide.reflectionFactorLeft
      = 9 / 10 := by
    rw [(Cylinder.update_reflectionFactors exampleMath exampleCylinder 0 0 (1 / 2)).2.2.1, hv]
    norm_num [exampleCylinder]
  refine ⟨hrf, rfl, ?_, ?_⟩
  · rw [Cylinder.update_eq]
    simp only [Waveguide.add, hv]
    rw [DelayLine.updateRight_data, DelayLine.getAtPosition_zero]
    norm_num [exampleCylinder, exampleWaveguide]
  · simp only [Waveguide.add]
    rw [DelayLine.updateRight_data, DelayLine.getAtPosition_zero]
    norm_num [exampleCylinder, exampleWaveguide]

/-! ### C16: the modulated reflection factors -/

theorem M_PI_cast_lt_pi : ((M_PI : ℚ) : ℝ) < Real.pi := by
  have h := Real.pi_gt_d20
  have e : ((M_PI : ℚ) : ℝ) = 3.14159265358979323846 := by
    unfold M_PI
    norm_num
  rw [e]
  exact h

theorem M_PI_cast_gt : Real.pi < ((M_PI : ℚ) : ℝ) + 1 / 10 ^ 20 := by
  have h := Real.pi_lt_d20
  have e : ((M_PI : ℚ) : ℝ) = 3.14159265358979323846 := by
    unfold M_PI
    norm_num
  rw [e]
  norm_num at h ⊢
  linarith

theorem M_PI_pos : (0 : ℚ) < M_PI := by
  unfold M_PI
  norm_num

/-- The intake valve signal lies in `[0, 1]` at every phase. -/
theorem Cylinder._intakeValve_bounds (libm : MathLibrary) (x : ℚ)
    (hlibm : libm.SineKeepsSignAndRangeAt (4.0 * M_PI * x)) :
    0 ≤ Cylinder._intakeValve libm x ∧ Cylinder._intakeValve libm x ≤ 1 := by
  unfold Cylinder._intakeValve
  split
  · rename_i h
    obtain ⟨hpos, -, -, hle⟩ := hlibm
    refine ⟨hpos ?_, hle⟩
    apply Real.sin_nonneg_of_nonneg_of_le_pi
    · have h1 : (0 : ℝ) < ((M_PI : ℚ) : ℝ) := by exact_mod_cast M_PI_pos
      have h2 : (0 : ℝ) < (x : ℝ) := by exact_mod_cast h.1
      push_cast
      norm_num
      positivity
    · have h1 : (0 : ℝ) < ((M_PI : ℚ) : ℝ) := by exact_mod_cast M_PI_pos
      have h2q : x < 1 / 4 := by
        have := h.2
        norm_num at this
        linarith
      have h2 : (x : ℝ) < 1 / 4 := by
        have := (Rat.cast_lt (K := ℝ)).mpr h2q
        push_cast at this
        exact this
      have h3 := M_PI_cast_lt_pi
      push_cast
      norm_num
      nlinarith
  · exact ⟨le_refl 0, zero_le_one⟩

/-- The exhaust valve signal lies in `[0, 1]` at every phase that is not strictly
between 0.75 and `0.75 + 2^-24`. -/
theorem Cylinder._exhaustValve_bounds (libm : MathLibrary) (x : ℚ)
    (hlibm : libm.SineKeepsSignAndRangeAt (4.0 * M_PI * x))
    (hfloat : x ≤ 3 / 4 ∨ 3 / 4 + 1 / 16777216 ≤ x) :
    0 ≤ Cylinder._exhaustValve libm x ∧ Cylinder._exhaustValve libm x ≤ 1 := by
  unfold Cylinder._exhaustValve
  split
  · rename_i h
    obtain ⟨-, hneg, hge, -⟩ := hlibm
    have hx1 : (3 : ℚ) / 4 + 1 / 16777216 ≤ x := by
      rcases hfloat with hf | hf
      · have := h.1
        norm_num at this
        linarith
      · exact hf
    have hx2 : (x : ℝ) < 1 := by
      have := h.2
      norm_num at this
      exact_mod_cast this
    have hx3 : (3 : ℝ) / 4 + 1 / 16777216 ≤ (x : ℝ) := by
      have := (Rat.cast_le (K := ℝ)).mpr hx1
      push_cast at this
      exact this
    have hM0 : (0 : ℝ) < ((M_PI : ℚ) : ℝ) := by exact_mod_cast M_PI_pos
    have hM1 := M_PI_cast_lt_pi
    have hM2 := M_PI_cast_gt
    have hM3 : (3 : ℝ) < ((M_PI : ℚ) : ℝ) := by
      have : (3 : ℚ) < M_PI := by unfold M_PI; norm_num
      exact_mod_cast this
    have hsin : Real.sin (((4.0 * M_PI * x : ℚ)) : ℝ) ≤ 0 := by
      have e : (((4.0 * M_PI * x : ℚ)) : ℝ) = 4 * ((M_PI : ℚ) : ℝ) * (x : ℝ) := by
        push_cast
        norm_num
      rw [e, ← Real.sin_sub_two_pi, ← Real.sin_sub_two_pi]
      apply Real.sin_nonpos_of_nonnpos_of_neg_pi_le
      · nlinarith
      · norm_num at hx3 hM2
        nlinarith
    have hs := hneg hsin
    constructor <;> linarith
  · exact ⟨le_refl 0, zero_le_one⟩

/-- A blend `open * v + closed * (1 - v)` with `v` in `[0, 1]` lies between the closed
and the open value. -/
theorem blend_between (o c v : ℚ) (hv0 : 0 ≤ v) (hv1 : v ≤ 1) :
    min c o ≤ o * v + c * (1 - v) ∧ o * v + c * (1 - v) ≤ max c o := by
  rcases le_total c o with h | h
  · rw [min_eq_left h, max_eq_right h]
    constructor <;> nlinarith
  · rw [min_eq_right h, max_eq_left h]
    constructor <;> nlinarith

/-- C16: with a `sin` that keeps the sign and the range of the real sine at the
argument `4.0 * M_PI * x` that the two valve functions pass to it, at every phase `x`
that a float can hold (no float lies strictly between 0.75 and
`0.75 + 2^-24 = 0.75 + 1/16777216`), the intake valve signal and the exhaust valve
signal lie in `[0, 1]`; hence after `Cylinder::update` of a cylinder whose open and closed reflection factors
lie in `[0, 1]`, the four factors it writes (`intake.reflectionFactorRight =
chamber.reflectionFactorLeft`, `exhaust.reflectionFactorLeft =
chamber.reflectionFactorRight`) lie between the closed and the open value, and in
`[0, 1]`. -/
theorem Cylinder.update_reflectionFactors_in_unit_interval (libm : MathLibrary)
    (c : Cylinder) (intakeNoise straightPipeOutputLeft x : ℚ)
    (hlibm : libm.SineKeepsSignAndRangeAt (4.0 * M_PI * x))
    (hfloat : x ≤ 3 / 4 ∨ 3 / 4 + 1 / 16777216 ≤ x)
    (hio : 0 ≤ c.intakeOpenReflectionFactor ∧ c.intakeOpenReflectionFactor ≤ 1)
    (hic : 0 ≤ c.intakeClosedReflectionFactor ∧ c.intakeClosedReflectionFactor ≤ 1)
    (heo : 0 ≤ c.exhaustOpenReflectionFactor ∧ c.exhaustOpenReflectionFactor ≤ 1)
    (hec : 0 ≤ c.exhaustClosedReflectionFactor ∧ c.exhaustClosedReflectionFactor ≤ 1) :
    (0 ≤ Cylinder._intakeValve libm x ∧ Cylinder._intakeValve libm x ≤ 1) ∧
    (0 ≤ Cylinder._exhaustValve libm x ∧ Cylinder._exhaustValve libm x ≤ 1) ∧
    (c.update libm intakeNoise straightPipeOutputLeft x).cylinderWaveguide.reflectionFactorLeft =
      (c.update libm intakeNoise straightPipeOutputLeft x).intakeWaveguide.reflectionFactorRight ∧
    (c.update libm intakeNoise straightPipeOutputLeft x).cylinderWaveguide.reflectionFactorRight =
      (c.update libm intakeNoise straightPipeOutputLeft x).exhaustWaveguide.reflectionFactorLeft ∧
    (min c.intakeClosedReflectionFactor c.intakeOpenReflectionFactor ≤
        (c.update libm intakeNoise straightPipeOutputLeft x).intakeWaveguide.reflectionFactorRight ∧
      (c.update libm intakeNoise straightPipeOutputLeft x).intakeWaveguide.reflectionFactorRight ≤
        max c.intakeClosedReflectionFactor c.intakeOpenReflectionFactor) ∧
    (min c.exhaustClosedReflectionFactor c.exhaustOpenReflectionFactor ≤
        (c.update libm intakeNoise straightPipeOutputLeft x).exhaustWaveguide.reflectionFactorLeft ∧
      (c.update libm intakeNoise straightPipeOutputLeft x).exhaustWaveguide.reflectionFactorLeft ≤
        max c.exhaustClosedReflectionFactor c.exhaustOpenReflectionFactor) ∧
    (0 ≤ (c.update libm intakeNoise straightPipeOutputLeft x).intakeWaveguide.reflectionFactorRight ∧
      (c.update libm intakeNoise straightPipeOutputLeft x).intakeWaveguide.reflectionFactorRight ≤ 1) ∧
    (0 ≤ (c.update libm intakeNoise straightPipeOutputLeft x).exhaustWaveguide.reflectionFactorLeft ∧
      (c.update libm intakeNoise straightPipeOutputLeft x).exhaustWaveguide.reflectionFactorLeft ≤ 1) := by
  obtain ⟨h1, h2, h3, h4⟩ :=
    Cylinder.update_reflectionFactors libm c intakeNoise straightPipeOutputLeft x
  have hi := Cylinder._intakeValve_bounds libm x hlibm
  have he := Cylinder._exhaustValve_bounds libm x hlibm hfloat
  have bi := blend_between c.intakeOpenReflectionFactor c.intakeClosedReflectionFactor
    (Cylinder._intakeValve libm x) hi.1 hi.2
  have be := blend_between c.exhaustOpenReflectionFactor c.exhaustClosedReflectionFactor
    (Cylinder._exhaustValve libm x) he.1 he.2
  rw [h1, h2, h3, h4]
  refine ⟨hi, he, rfl, rfl, bi, be, ⟨?_, ?_⟩, ⟨?_, ?_⟩⟩
  · exact le_trans (le_min hic.1 hio.1) bi.1
  · exact le_trans bi.2 (max_le hic.2 hio.2)
  · exact le_trans (le_min hec.1 heo.1) be.1
  · exact le_trans be.2 (max_le hec.2 heo.2)

/-- The real sine is negative from `3 * M_PI + 1/10` to `4 * M_PI`, which lies within
the interval from `3 * π` to `4 * π`. -/
theorem sin_neg_of_exhaust_range (y : ℚ) (h1 : 3 * M_PI + 1 / 10 ≤ y) (h2 : y ≤ 4 * M_PI) :
    Real.sin (y : ℝ) < 0 := by
  have hM1 := M_PI_cast_lt_pi
  have hM2 := M_PI_cast_gt
  have h1r : 3 * ((M_PI : ℚ) : ℝ) + 1 / 10 ≤ (y : ℝ) := by
    have := (Rat.cast_le (K := ℝ)).mpr h1
    push_cast at this
    exact this
  have h2r : (y : ℝ) ≤ 4 * ((M_PI : ℚ) : ℝ) := by
    have := (Rat.cast_le (K := ℝ)).mpr h2
    push_cast at this
    exact this
  rw [← Real.sin_sub_two_pi, ← Real.sin_sub_two_pi]
  apply Real.sin_neg_of_neg_of_neg_pi_lt
  · linarith
  · norm_num at hM2
    linarith

/-- The real sine is positive from 0 to `M_PI`, which lies below `π`. -/
theorem sin_pos_of_intake_range (y : ℚ) (h1 : 0 < y) (h2 : y ≤ M_PI) :
    0 < Real.sin (y : ℝ) := by
  have hM1 := M_PI_cast_lt_pi
  have h1r : (0 : ℝ) < (y : ℝ) := by exact_mod_cast h1
  have h2r : (y : ℝ) ≤ ((M_PI : ℚ) : ℝ) := by exact_mod_cast h2
  exact Real.sin_pos_of_pos_of_lt_pi h1r (lt_of_le_of_lt h2r hM1)

/-- The stand-in sine after a whole number `n` of quarter periods and the part `f` of
one more. -/
theorem triangleWave_of_quarters (y : ℚ) (n : Int) (f : ℚ) (hf0 : 0 ≤ f) (hf1 : f < 1)
    (hy : y = ((n : ℚ) + f) * (M_PI / 2)) :
    triangleWave y =
      if n % 4 = 0 then f else if n % 4 = 1 then 1 - f else if n % 4 = 2 then -f else f - 1 := by
  have hM := M_PI_pos
  have ht : y / (M_PI / 2) = (n : ℚ) + f := by
    rw [hy]
    field_simp
  have hfloor : ⌊(n : ℚ) + f⌋ = n := by
    rw [Int.floor_eq_iff]
    constructor <;> linarith
  unfold triangleWave
  simp only [ht, hfloor, add_sub_cancel_left]

/-- The stand-in sine is -1 at `4.0 * M_PI * (7 / 8)`, seven quarter periods, where the
real sine is -1 to rounding. -/
theorem triangleWave_at_seven_eighths : triangleWave (4.0 * M_PI * (7 / 8)) = -1 := by
  rw [triangleWave_of_quarters _ 7 0 (le_refl 0) zero_lt_one (by norm_num; ring)]
  norm_num

/-- The stand-in sine is 1 at `4.0 * M_PI * (1 / 8)`, one quarter period. -/
theorem triangleWave_at_one_eighth : triangleWave (4.0 * M_PI * (1 / 8)) = 1 := by
  rw [triangleWave_of_quarters _ 1 0 (le_refl 0) zero_lt_one (by norm_num; ring)]
  norm_num

/-- The stand-in sine is -1/2 at `4.0 * M_PI * (13 / 16)`, six and a half quarter
periods. -/
theorem triangleWave_at_thirteen_sixteenths :
    triangleWave (4.0 * M_PI * (13 / 16)) = -(1 / 2) := by
  rw [triangleWave_of_quarters _ 6 (1 / 2) (by norm_num) (by norm_num) (by norm_num; ring)]
  norm_num

/-- A value of the stand-in sine that is negative and not below -1, at an argument
where the real sine is negative, keeps the sign and the range of the real sine. -/
theorem exampleTriangleMath_keeps_sign_of_neg (y v : ℚ)
    (hw : exampleTriangleMath.sin y = v) (hv0 : v ≤ 0) (hv1 : -1 ≤ v)
    (hsin : Real.sin (y : ℝ) < 0) : exampleTriangleMath.SineKeepsSignAndRangeAt y := by
  refine ⟨fun h => absurd h (not_le.mpr hsin), fun _ => ?_, ?_, ?_⟩
  · rw [hw]
    exact hv0
  · rw [hw]
    exact hv1
  · rw [hw]
    linarith

/-- Witness of C16, the example cylinder with a stand-in sine that follows the sine.
At the phase 7/8 the exhaust valve signal is 1 (fully open) and the exhaust
`reflectionFactorLeft` is the open value 1/100; at the phase 1/8 the intake valve
signal is 1 and the intake `reflectionFactorRight` is the open value 1/100; at the
phase 13/16 the exhaust valve signal is 1/2 and the exhaust `reflectionFactorLeft` is
the blend 91/200 of the closed 9/10 and the open 1/100. Each factor lies in `[0, 1]`. -/
theorem Cylinder.update_reflectionFactors_in_unit_interval_witness :
    (Cylinder._exhaustValve exampleTriangleMath (7 / 8) = 1 ∧
      (exampleCylinder.update exampleTriangleMath 0 0
        (7 / 8)).exhaustWaveguide.reflectionFactorLeft = 1 / 100 ∧
      0 ≤ (exampleCylinder.update exampleTriangleMath 0 0
        (7 / 8)).exhaustWaveguide.reflectionFactorLeft ∧
      (exampleCylinder.update exampleTriangleMath 0 0
        (7 / 8)).exhaustWaveguide.reflectionFactorLeft ≤ 1) ∧
    (Cylinder._intakeValve exampleTriangleMath (1 / 8) = 1 ∧
      (exampleCylinder.update exampleTriangleMath 0 0
        (1 / 8)).intakeWaveguide.reflectionFactorRight = 1 / 100 ∧
      0 ≤ (exampleCylinder.update exampleTriangleMath 0 0
        (1 / 8)).intakeWaveguide.reflectionFactorRight ∧
      (exampleCylinder.update exampleTriangleMath 0 0
        (1 / 8)).intakeWaveguide.reflectionFactorRight ≤ 1) ∧
    (Cylinder._exhaustValve exampleTriangleMath (13 / 16) = 1 / 2 ∧
      (exampleCylinder.update exampleTriangleMath 0 0
        (13 / 16)).exhaustWaveguide.reflectionFactorLeft = 91 / 200 ∧
      0 ≤ (exampleCylinder.update exampleTriangleMath 0 0
        (13 / 16)).exhaustWaveguide.reflectionFactorLeft ∧
      (exampleCylinder.update exampleTriangleMath 0 0
        (13 / 16)).exhaustWaveguide.reflectionFactorLeft ≤ 1) := by
  have hfactors : (0 ≤ exampleCylinder.intakeOpenReflectionFactor ∧
      exampleCylinder.intakeOpenReflectionFactor ≤ 1) ∧
      (0 ≤ exampleCylinder.intakeClosedReflectionFactor ∧
      exampleCylinder.intakeClosedReflectionFactor ≤ 1) ∧
      (0 ≤ exampleCylinder.exhaustOpenReflectionFactor ∧
      exampleCylinder.exhaustOpenReflectionFactor ≤ 1) ∧
      (0 ≤ exampleCylinder.exhaustClosedReflectionFactor ∧
      exampleCylinder.exhaustClosedReflectionFactor ≤ 1) := by
    norm_num [exampleCylinder]
  obtain ⟨hio, hic, heo, hec⟩ := hfactors
  -- the phase 7/8
  have hv1 : Cylinder._exhaustValve exampleTriangleMath (7 / 8) = 1 := by
    unfold Cylinder._exhaustValve
    rw [if_pos (by norm_num)]
    show -triangleWave (4.0 * M_PI * (7 / 8)) = 1
    rw [triangleWave_at_seven_eighths]
    norm_num
  have hs1 : exampleTriangleMath.SineKeepsSignAndRangeAt (4.0 * M_PI * (7 / 8)) :=
    exampleTriangleMath_keeps_sign_of_neg _ (-1) triangleWave_at_seven_eighths
      (by norm_num) (le_refl _)
      (sin_neg_of_exhaust_range _ (by norm_num [M_PI]) (by norm_num [M_PI]))
  have hf1 : (exampleCylinder.update exampleTriangleMath 0 0
      (7 / 8)).exhaustWaveguide.reflectionFactorLeft = 1 / 100 := by
    rw [(Cylinder.update_reflectionFactors exampleTriangleMath exampleCylinder 0 0
      (7 / 8)).2.2.1, hv1]
    norm_num [exampleCylinder]
  -- the phase 1/8
  have hv2 : Cylinder._intakeValve exampleTriangleMath (1 / 8) = 1 := by
    unfold Cylinder._intakeValve
    rw [if_pos (by norm_num)]
    exact triangleWave_at_one_eighth
  have hs2 : exampleTriangleMath.SineKeepsSignAndRangeAt (4.0 * M_PI * (1 / 8)) := by
    have hw : exampleTriangleMath.sin (4.0 * M_PI * (1 / 8)) = 1 := triangleWave_at_one_eighth
    have hpos := sin_pos_of_intake_range (4.0 * M_PI * (1 / 8)) (by norm_num [M_PI])
      (by norm_num [M_PI])
    refine ⟨fun _ => ?_, fun h => absurd h (not_le.mpr hpos), ?_, ?_⟩
    · rw [hw]
      norm_num
    · rw [hw]
      norm_num
    · rw [hw]
  have hf2 : (exampleCylinder.update exampleTriangleMath 0 0
      (1 / 8)).intakeWaveguide.reflectionFactorRight = 1 / 100 := by
    rw [(Cylinder.update_reflectionFactors exampleTriangleMath exampleCylinder 0 0
      (1 / 8)).1, hv2]
    norm_num [exampleCylinder]
  -- the phase 13/16
  have hv3 : Cylinder._exhaustValve exampleTriangleMath (13 / 16) = 1 / 2 := by
    unfold Cylinder._exhaustValve
    rw [if_pos (by norm_num)]
    show -triangleWave (4.0 * M_PI * (13 / 16)) = 1 / 2
    rw [triangleWave_at_thirteen_sixteenths]
    norm_num
  have hs3 : exampleTriangleMath.SineKeepsSignAndRangeAt (4.0 * M_PI * (13 / 16)) :=
    exampleTriangleMath_keeps_sign_of_neg _ (-(1 / 2)) triangleWave_at_thirteen_sixteenths
      (by norm_num) (by norm_num)
      (sin_neg_of_exhaust_range _ (by norm_num [M_PI]) (by norm_num [M_PI]))
  have hf3 : (exampleCylinder.update exampleTriangleMath 0 0
      (13 / 16)).exhaustWaveguide.reflectionFactorLeft = 91 / 200 := by
    rw [(Cylinder.update_reflectionFactors exampleTriangleMath exampleCylinder 0 0
      (13 / 16)).2.2.1, hv3]
    norm_num [exampleCylinder]
  exact ⟨⟨hv1, hf1,
      (Cylinder.update_reflectionFactors_in_unit_interval exampleTriangleMath
        exampleCylinder 0 0 (7 / 8) hs1 (Or.inr (by norm_num)) hio hic heo
        hec).2.2.2.2.2.2.2⟩,
    ⟨hv2, hf2,
      (Cylinder.update_reflectionFactors_in_unit_interval exampleTriangleMath
        exampleCylinder 0 0 (1 / 8) hs2 (Or.inl (by norm_num)) hio hic heo
        hec).2.2.2.2.2.2.1⟩,
    ⟨hv3, hf3,
      (Cylinder.update_reflectionFactors_in_unit_interval exampleTriangleMath
        exampleCylinder 0 0 (13 / 16) hs3 (Or.inr (by norm_num)) hio hic heo
        hec).2.2.2.2.2.2.2⟩⟩

/-! ### The loops over the cylinders -/

theorem take_succ_set_self {α : Type} (l : List α) (n : Nat) (a : α) (h : n < l.length) :
    (l.set n a).take (n + 1) = l.take n ++ [a] := by
  rw [List.take_succ, List.set_take, List.set_eq_of_length_le (by simp),
    List.getElem?_set_self h]
  rfl

theorem EngineSoundGenerator.cylinderStep_some (libm : MathLibrary) (a b : ℚ)
    (acc : EngineSoundGenerator × ℚ) (i : Nat) (c : Cylinder)
    (h : acc.1.cylinders[i]? = some c) :
    EngineSoundGenerator.cylinderStep libm a b acc i =
      ({ acc.1 with
          cylinders := acc.1.cylinders.set i
            (c.update libm a acc.1.straightPipe.outputLeft (acc.1.cylinderPhase b i)) },
        acc.2 + (if acc.1.cylinderCount ≤ 4 then 1 else acc.1.cylindersFactor) *
          (c.update libm a acc.1.straightPipe.outputLeft
            (acc.1.cylinderPhase b i)).cylinderWaveguide.outputLeft) := by
  unfold EngineSoundGenerator.cylinderStep EngineSoundGenerator.cylinderPhase
  rw [h]
  simp only
  split
  · rw [one_mul]
  · rfl

/-- State after the first `n` passes of the first loop of `_updateSample`: the first
`n` cylinders are advanced, each with its own phase, nothing else of the generator
has changed, and the sample has grown by the scaled sum of their chamber outputs. -/
theorem EngineSoundGenerator.cylinderLoop_spec (libm : MathLibrary) (a b : ℚ)
    (g : EngineSoundGenerator) (s0 : ℚ) (n : Nat) (hn : n ≤ g.cylinders.length) :
    ∃ cs : List Cylinder,
      (List.range n).foldl (EngineSoundGenerator.cylinderStep libm a b) (g, s0) =
        ({ g with cylinders := cs },
          s0 + (if g.cylinderCount ≤ 4 then 1 else g.cylindersFactor) *
            ((cs.take n).map (fun c => c.cylinderWaveguide.outputLeft)).sum) ∧
      cs.length = g.cylinders.length ∧
      ∀ i, cs[i]? =
        if i < n then
          (g.cylinders[i]?).map
            (fun c => c.update libm a g.straightPipe.outputLeft (g.cylinderPhase b i))
        else g.cylinders[i]? := by
  induction n with
  | zero =>
    refine ⟨g.cylinders, ?_, rfl, ?_⟩
    · simp only [List.range_zero, List.foldl_nil, List.take_zero, List.map_nil, List.sum_nil,
        mul_zero, add_zero]
    · intro i
      rw [if_neg (Nat.not_lt_zero i)]
  | succ n ih =>
    obtain ⟨cs, hfold, hlen, hget⟩ := ih (by omega)
    have hn2 : n < g.cylinders.length := by omega
    have hsome : cs[n]? = some (g.cylinders[n]) := by
      rw [hget n, if_neg (Nat.lt_irrefl n), List.getElem?_eq_getElem hn2]
    rw [List.range_succ, List.foldl_append, List.foldl_cons, List.foldl_nil, hfold]
    have hstep := EngineSoundGenerator.cylinderStep_some libm a b
      ({ g with cylinders := cs },
        s0 + (if g.cylinderCount ≤ 4 then 1 else g.cylindersFactor) *
          ((cs.take n).map (fun c => c.cylinderWaveguide.outputLeft)).sum) n _ hsome
    rw [hstep]
    refine ⟨cs.set n ((g.cylinders[n]).update libm a g.straightPipe.outputLeft
      (g.cylinderPhase b n)), ?_, ?_, ?_⟩
    · rw [take_succ_set_self cs n _ (by omega), List.map_append, List.sum_append,
        List.map_cons, List.map_nil, List.sum_singleton, mul_add, ← add_assoc]
      rfl
    · rw [List.length_set, hlen]
    · intro i
      rw [List.getElem?_set]
      by_cases hin : n = i
      · subst hin
        rw [if_pos rfl, if_pos (by omega), if_pos (Nat.lt_succ_self n),
          List.getElem?_eq_getElem hn2]
        rfl
      · rw [if_neg hin, hget i]
        by_cases hlt : i < n
        · rw [if_pos hlt, if_pos (by omega)]
        · rw [if_neg hlt, if_neg (by omega)]

/-- The first loop of `_updateSample` as a whole, for a vector of `cylinderCount`
cylinders: every cylinder is advanced with its own phase, the sample is the scaled
sum of the chamber outputs of the advanced cylinders and only the two noise filters
have changed besides. -/
theorem EngineSoundGenerator.updateCylinders_spec (libm : MathLibrary)
    (g : EngineSoundGenerator) (random1 random2 : ℚ)
    (hsize : g.cylinders.length = g.cylinderCount) :
    g.updateCylinders libm random1 random2 =
      ({ g with
          intakeNoiseLowPassFilter :=
            (g.intakeNoiseLowPassFilter.getFilteredValue (2 * random1 - 1)).2
          crankshaftLowPassFilter :=
            (g.crankshaftLowPassFilter.getFilteredValue (1 / 4 * random2)).2
          cylinders := g.cylinders.mapIdx (fun i c =>
            c.update libm
              (if g.rpm < 25 then 0
                else (g.intakeNoiseLowPassFilter.getFilteredValue (2 * random1 - 1)).1)
              g.straightPipe.outputLeft
              (g.cylinderPhase
                (g.crankshaftLowPassFilter.getFilteredValue (1 / 4 * random2)).1 i)) },
        (if g.cylinderCount ≤ 4 then 1 else g.cylindersFactor) *
          ((g.cylinders.mapIdx (fun i c =>
            c.update libm
              (if g.rpm < 25 then 0
                else (g.intakeNoiseLowPassFilter.getFilteredValue (2 * random1 - 1)).1)
              g.straightPipe.outputLeft
              (g.cylinderPhase
                (g.crankshaftLowPassFilter.getFilteredValue (1 / 4 * random2)).1 i))).map
            (fun c => c.cylinderWaveguide.outputLeft)).sum) := by
  have e2 : (2.0 : ℚ) = 2 := by norm_num
  have e1 : (1.0 : ℚ) = 1 := by norm_num
  have e25 : (25.0 : ℚ) = 25 := by norm_num
  have e4 : (0.25 : ℚ) = 1 / 4 := by norm_num
  have e0 : (0.0 : ℚ) = 0 := by norm_num
  unfold EngineSoundGenerator.updateCylinders
  simp only [e2, e1, e25, e4, e0]
  obtain ⟨cs, hfold, hlen, hget⟩ := EngineSoundGenerator.cylinderLoop_spec libm
    (if g.rpm < 25 then 0
      else (g.intakeNoiseLowPassFilter.getFilteredValue (2 * random1 - 1)).1)
    (g.crankshaftLowPassFilter.getFilteredValue (1 / 4 * random2)).1
    { g with
      intakeNoiseLowPassFilter :=
        (g.intakeNoiseLowPassFilter.getFilteredValue (2 * random1 - 1)).2
      crankshaftLowPassFilter :=
        (g.crankshaftLowPassFilter.getFilteredValue (1 / 4 * random2)).2 }
    0 g.cylinderCount (le_of_eq hsize.symm)
  rw [hfold]
  have hcs : cs = g.cylinders.mapIdx (fun i c =>
      c.update libm
        (if g.rpm < 25 then 0
          else (g.intakeNoiseLowPassFilter.getFilteredValue (2 * random1 - 1)).1)
        g.straightPipe.outputLeft
        (g.cylinderPhase
          (g.crankshaftLowPassFilter.getFilteredValue (1 / 4 * random2)).1 i)) := by
    apply List.ext_getElem?
    intro i
    rw [hget i, List.getElem?_mapIdx]
    by_cases hlt : i < g.cylinderCount
    · rw [if_pos hlt]
      rfl
    · rw [if_neg hlt]
      show g.cylinders[i]? = _
      rw [List.getElem?_eq_none (by omega)]
      rfl
  have htake : cs.take g.cylinderCount = cs := by
    apply List.take_of_length_le
    rw [hlen]
    exact le_of_eq hsize
  rw [htake, zero_add, ← hcs]

/-- The second and the third loop of `_updateSample`: the scaled sum of an output
over the first `n` cylinders. -/
theorem EngineSoundGenerator.sumLoop_spec (g : EngineSoundGenerator) (out : Cylinder → ℚ)
    (s0 : ℚ) (n : Nat) (hn : n ≤ g.cylinders.length) :
    (List.range n).foldl (g.sumStep out) s0 =
      s0 + (if g.cylinderCount ≤ 4 then 1 else g.cylindersFactor) *
        ((g.cylinders.take n).map out).sum := by
  induction n with
  | zero =>
    simp only [List.range_zero, List.foldl_nil, List.take_zero, List.map_nil, List.sum_nil,
      mul_zero, add_zero]
  | succ n ih =>
    have hn2 : n < g.cylinders.length := by omega
    rw [List.range_succ, List.foldl_append, List.foldl_cons, List.foldl_nil, ih (by omega)]
    have htake : g.cylinders.take (n + 1) = g.cylinders.take n ++ [g.cylinders[n]] := by
      rw [List.take_succ, List.getElem?_eq_getElem hn2]
      rfl
    rw [htake, List.map_append, List.sum_append, List.map_cons, List.map_nil,
      List.sum_singleton, mul_add, ← add_assoc]
    unfold EngineSoundGenerator.sumStep
    rw [List.getElem?_eq_getElem hn2]
    simp only
    split
    · simp only [one_mul]
    · rfl

/-! ### C19: the crank phase of every cylinder -/

/-- The constructor of `LowpassFilter` gives a coefficient `alpha` between 0 and 1
for every frequency and sampling rate that are not negative. -/
theorem LowpassFilter.new_alpha_range (frequency samplingRate lastValue : ℚ)
    (hf : 0 ≤ frequency) (hs : 0 ≤ samplingRate) :
    0 ≤ (LowpassFilter.new frequency samplingRate lastValue).alpha ∧
    (LowpassFilter.new frequency samplingRate lastValue).alpha ≤ 1 := by
  have hpi : (0 : ℚ) ≤ M_PI := by norm_num [M_PI]
  have hk : 0 ≤ 2 * M_PI * (1 / samplingRate) * frequency := by positivity
  show 0 ≤ 2 * M_PI * (1 / samplingRate) * frequency /
      (2 * M_PI * (1 / samplingRate) * frequency + 1) ∧
    2 * M_PI * (1 / samplingRate) * frequency /
      (2 * M_PI * (1 / samplingRate) * frequency + 1) ≤ 1
  constructor
  · positivity
  · rw [div_le_one (by linarith)]
    linarith

/-- The value that a filter with a state that is not negative and a coefficient
between 0 and 1 returns for an input that is not negative is not negative. -/
theorem LowpassFilter.getFilteredValue_nonneg (f : LowpassFilter) (value : ℚ)
    (hlast : 0 ≤ f.lastValue) (h0 : 0 ≤ f.alpha) (h1 : f.alpha ≤ 1) (hv : 0 ≤ value) :
    0 ≤ (f.getFilteredValue value).1 := by
  show 0 ≤ f.lastValue + f.alpha * (value - f.lastValue)
  have e : f.lastValue + f.alpha * (value - f.lastValue) =
      (1 - f.alpha) * f.lastValue + f.alpha * value := by ring
  rw [e]
  have h2 : 0 ≤ 1 - f.alpha := by linarith
  positivity

theorem EngineSoundGenerator.cylinderPhase_of_nonneg (g : EngineSoundGenerator)
    (crankshaftValue : ℚ) (i : Nat)
    (hx : 0 ≤ g.currentRevolution + (i : ℚ) * (g.cylindersCountInverse + crankshaftValue))
    (hbound : g.currentRevolution + (i : ℚ) * (g.cylindersCountInverse + crankshaftValue) <
      9223372036854775808) :
    g.cylinderPhase crankshaftValue i =
      Int.fract (g.currentRevolution + (i : ℚ) * (g.cylindersCountInverse + crankshaftValue)) := by
  unfold EngineSoundGenerator.cylinderPhase toLongLong
  simp only
  rw [if_neg (by linarith), if_neg (by linarith), if_pos hx]
  rfl

/-- C19, with the bounds it needs: in a generator whose `currentRevolution` and
crankshaft-filter state are not negative, the coefficient `alpha` of that filter lying
between 0 and 1 (as the constructor of the filter leaves it), whose vector holds
`cylinderCount` cylinders and whose `cylindersCountInverse` is `1 / cylinderCount`, for
a second random draw in [0,1] and every `i < cylinderCount` for which
`x = currentRevolution + i * (1 / cylinderCount + jitter)` is below `2^63` (`jitter` is
the filtered value of `0.25 * random2`), so that the truncation of `x` is a 64-bit
integer: the first loop of `_updateSample` replaces the cylinder `i` by its state after
`update` with the third argument `frac x`; the argument computed by the source,
`x - (long long) x`, is equal to `frac x`, and it lies in [0,1). -/
theorem EngineSoundGenerator.cylinder_phase_in_unit_interval (libm : MathLibrary)
    (g : EngineSoundGenerator) (random1 random2 : ℚ) (i : Nat)
    (hrev : 0 ≤ g.currentRevolution)
    (hlast : 0 ≤ g.crankshaftLowPassFilter.lastValue)
    (halpha : 0 ≤ g.crankshaftLowPassFilter.alpha ∧ g.crankshaftLowPassFilter.alpha ≤ 1)
    (hrandom : 0 ≤ random2 ∧ random2 ≤ 1)
    (hinv : g.cylindersCountInverse = 1 / (g.cylinderCount : ℚ))
    (hsize : g.cylinders.length = g.cylinderCount)
    (hi : i < g.cylinderCount)
    (hbound : g.currentRevolution + (i : ℚ) * (1 / (g.cylinderCount : ℚ) +
      (g.crankshaftLowPassFilter.getFilteredValue (0.25 * random2)).1) <
        9223372036854775808) :
    (g.updateCylinders libm random1 random2).1.cylinders[i]? =
      (g.cylinders[i]?).map (fun c =>
        c.update libm
          (if g.rpm < 25 then 0
            else (g.intakeNoiseLowPassFilter.getFilteredValue (2 * random1 - 1)).1)
          g.straightPipe.outputLeft
          (Int.fract (g.currentRevolution + (i : ℚ) * (1 / (g.cylinderCount : ℚ) +
            (g.crankshaftLowPassFilter.getFilteredValue (0.25 * random2)).1)))) ∧
    g.cylinderPhase (g.crankshaftLowPassFilter.getFilteredValue (0.25 * random2)).1 i =
      Int.fract (g.currentRevolution + (i : ℚ) * (1 / (g.cylinderCount : ℚ) +
        (g.crankshaftLowPassFilter.getFilteredValue (0.25 * random2)).1)) ∧
    0 ≤ g.cylinderPhase (g.crankshaftLowPassFilter.getFilteredValue (0.25 * random2)).1 i ∧
    g.cylinderPhase (g.crankshaftLowPassFilter.getFilteredValue (0.25 * random2)).1 i < 1 := by
  have e4 : (0.25 : ℚ) = 1 / 4 := by norm_num
  rw [e4] at hbound ⊢
  have hj : 0 ≤ (g.crankshaftLowPassFilter.getFilteredValue (1 / 4 * random2)).1 :=
    LowpassFilter.getFilteredValue_nonneg _ _ hlast halpha.1 halpha.2
      (by linarith [hrandom.1])
  have hc : (0 : ℚ) ≤ 1 / (g.cylinderCount : ℚ) := by positivity
  have hx : 0 ≤ g.currentRevolution + (i : ℚ) * (g.cylindersCountInverse +
      (g.crankshaftLowPassFilter.getFilteredValue (1 / 4 * random2)).1) := by
    rw [hinv]
    positivity
  have hphase := EngineSoundGenerator.cylinderPhase_of_nonneg g _ i hx
    (by rw [hinv]; exact hbound)
  rw [hinv] at hphase
  refine ⟨?_, hphase, ?_, ?_⟩
  · rw [EngineSoundGenerator.updateCylinders_spec libm g random1 random2 hsize]
    show (List.mapIdx _ g.cylinders)[i]? = _
    rw [List.getElem?_mapIdx, hphase]
  · rw [hphase]
    exact Int.fract_nonneg _
  · rw [hphase]
    exact Int.fract_lt_one _

/-- Witness of C19: the cylinder 5 of an engine of eight cylinders. -/
theorem EngineSoundGenerator.cylinder_phase_in_unit_interval_witness :
    0 ≤ (exampleEngine 8).cylinderPhase
      ((exampleEngine 8).crankshaftLowPassFilter.getFilteredValue (0.25 * (1 / 2))).1 5 ∧
    (exampleEngine 8).cylinderPhase
      ((exampleEngine 8).crankshaftLowPassFilter.getFilteredValue (0.25 * (1 / 2))).1 5 < 1 :=
  (EngineSoundGenerator.cylinder_phase_in_unit_interval exampleMath (exampleEngine 8)
    (1 / 2) (1 / 2) 5
    (by norm_num [exampleEngine, exampleGenerator])
    (by norm_num [exampleEngine, exampleGenerator, LowpassFilter.new])
    (LowpassFilter.new_alpha_range 75 (1 / (1 / 44100)) 0 (by norm_num) (by norm_num))
    (by norm_num)
    (by norm_num [exampleEngine])
    (by simp [exampleEngine])
    (by norm_num [exampleEngine])
    (by norm_num [exampleEngine, exampleGenerator, LowpassFilter.new,
      LowpassFilter.getFilteredValue, M_PI])).2.2

/-- Counterexample to C19: the engine of eight cylinders with `currentRevolution =
2^64` meets every condition of the claim (`currentRevolution` and the state of the
crankshaft filter are not negative, the draw 1/2 is in [0,1], and 0 is the index of a
cylinder). For the cylinder 0 the value `x` is `2^64`, a whole number with `frac x = 0`;
its truncation is no 64-bit integer, the conversion gives `2^63 - 1`, and the first
loop of `_updateSample` advances the cylinder with the third argument
`2^64 - (2^63 - 1) = 2^63 + 1`, which is not below 1. No 64-bit value of the conversion
brings the argument below 1. -/
theorem EngineSoundGenerator.cylinder_phase_overflow_counterexample :
    0 ≤ exampleOverflowEngine.currentRevolution ∧
    0 ≤ exampleOverflowEngine.crankshaftLowPassFilter.lastValue ∧
    exampleOverflowEngine.cylinders.length = exampleOverflowEngine.cylinderCount ∧
    0 < exampleOverflowEngine.cylinderCount ∧
    exampleOverflowEngine.currentRevolution + ((0 : Nat) : ℚ) *
      (1 / (exampleOverflowEngine.cylinderCount : ℚ) +
        (exampleOverflowEngine.crankshaftLowPassFilter.getFilteredValue
          (0.25 * (1 / 2))).1) = 18446744073709551616 ∧
    Int.fract (18446744073709551616 : ℚ) = 0 ∧
    exampleOverflowEngine.cylinderPhase
      (exampleOverflowEngine.crankshaftLowPassFilter.getFilteredValue (0.25 * (1 / 2))).1 0 =
        9223372036854775809 ∧
    (exampleOverflowEngine.updateCylinders exampleMath (1 / 2) (1 / 2)).1.cylinders[0]? =
      some (exampleCylinder.update exampleMath
        (exampleOverflowEngine.intakeNoiseLowPassFilter.getFilteredValue (2 * (1 / 2) - 1)).1
        exampleOverflowEngine.straightPipe.outputLeft 9223372036854775809) ∧
    (∀ v : Int, v ≤ 9223372036854775807 → 1 ≤ (18446744073709551616 : ℚ) - (v : ℚ)) := by
  have hphase : exampleOverflowEngine.cylinderPhase
      (exampleOverflowEngine.crankshaftLowPassFilter.getFilteredValue (0.25 * (1 / 2))).1 0 =
        9223372036854775809 := by
    unfold EngineSoundGenerator.cylinderPhase toLongLong
    norm_num [exampleOverflowEngine, exampleEngine, exampleGenerator]
  refine ⟨?_, ?_, ?_, ?_, ?_, ?_, hphase, ?_, ?_⟩
  · norm_num [exampleOverflowEngine, exampleEngine, exampleGenerator]
  · norm_num [exampleOverflowEngine, exampleEngine, exampleGenerator, LowpassFilter.new]
  · simp [exampleOverflowEngine, exampleEngine]
  · norm_num [exampleOverflowEngine, exampleEngine]
  · norm_num [exampleOverflowEngine, exampleEngine, exampleGenerator]
  · have e : (18446744073709551616 : ℚ) = ((18446744073709551616 : Int) : ℚ) := by norm_num
    rw [e, Int.fract_intCast]
  · have e4 : (0.25 : ℚ) = 1 / 4 := by norm_num
    rw [e4] at hphase
    have hr : ¬ (exampleOverflowEngine.rpm < 25) := by
      norm_num [exampleOverflowEngine, exampleEngine, exampleGenerator]
    have hc : exampleOverflowEngine.cylinders[0]? = some exampleCylinder := rfl
    rw [EngineSoundGenerator.updateCylinders_spec exampleMath exampleOverflowEngine (1 / 2)
      (1 / 2) (by simp [exampleOverflowEngine, exampleEngine])]
    simp only [List.getElem?_mapIdx, hc, hphase, if_neg hr]
    rfl
  · intro v hv
    have h : (v : ℚ) ≤ 9223372036854775807 := by exact_mod_cast hv
    linarith

/-! ### C11: the three scaled sums of a sample -/

theorem EngineSoundGenerator.updateRevolution_frame (g : EngineSoundGenerator) :
    g.updateRevolution = { g with currentRevolution := g.updateRevolution.currentRevolution } := by
  unfold EngineSoundGenerator.updateRevolution
  simp only
  split <;> rfl

/-- C11: for a generator whose vector holds `cylinderCount` cylinders and whose
`cylindersFactor` is `4 / cylinderCount` (what `updateParameters` computes), one call
of `_updateSample` advances every cylinder, and then the vibration sample, the intake
sample and the left input of the straight pipe are `f` times the sum, over the
advanced cylinders, of the chamber `outputLeft`, the intake `outputLeft` and the
extractor `outputRight`, with `f = 1` for at most four cylinders and
`f = 4 / cylinderCount` otherwise; for `cylinderCount ≥ 1` this `f` is
`min 1 (4 / cylinderCount)`. -/
theorem EngineSoundGenerator._updateSample_scaled_sums (libm : MathLibrary)
    (g : EngineSoundGenerator) (random1 random2 : ℚ)
    (hsize : g.cylinders.length = g.cylinderCount)
    (hfactor : g.cylindersFactor = 4 / (g.cylinderCount : ℚ)) :
    (g._updateSample libm random1 random2).1.cylinders =
      g.cylinders.mapIdx (fun i c =>
        c.update libm
          (if g.rpm < 25 then 0
            else (g.intakeNoiseLowPassFilter.getFilteredValue (2 * random1 - 1)).1)
          g.straightPipe.outputLeft
          (g.cylinderPhase
            (g.crankshaftLowPassFilter.getFilteredValue (1 / 4 * random2)).1 i)) ∧
    (g._updateSample libm random1 random2).2.sound =
      (if g.cylinderCount ≤ 4 then 1 else 4 / (g.cylinderCount : ℚ)) *
        ((g._updateSample libm random1 random2).1.cylinders.map
          (fun c => c.cylinderWaveguide.outputLeft)).sum ∧
    (g._updateSample libm random1 random2).2.intakeSound =
      (if g.cylinderCount ≤ 4 then 1 else 4 / (g.cylinderCount : ℚ)) *
        ((g._updateSample libm random1 random2).1.cylinders.map
          (fun c => c.intakeWaveguide.outputLeft)).sum ∧
    (g._updateSample libm random1 random2).1.straightPipe =
      g.straightPipe.add
        ((if g.cylinderCount ≤ 4 then 1 else 4 / (g.cylinderCount : ℚ)) *
          ((g._updateSample libm random1 random2).1.cylinders.map
            (fun c => c.extractorWaveguide.outputRight)).sum)
        g.muffler.outputLeft ∧
    (1 ≤ g.cylinderCount →
      (if g.cylinderCount ≤ 4 then 1 else 4 / (g.cylinderCount : ℚ)) =
        min 1 (4 / (g.cylinderCount : ℚ))) := by
  have hU := EngineSoundGenerator.updateCylinders_spec libm g random1 random2 hsize
  have hR := EngineSoundGenerator.updateRevolution_frame
    (g.updateCylinders libm random1 random2).1
  have hlen : (g.updateCylinders libm random1 random2).1.updateRevolution.cylinderCount ≤
      (g.updateCylinders libm random1 random2).1.updateRevolution.cylinders.length := by
    rw [hR, hU]
    show g.cylinderCount ≤ (List.mapIdx _ g.cylinders).length
    rw [List.length_mapIdx, hsize]
  have htake : List.take
      (g.updateCylinders libm random1 random2).1.updateRevolution.cylinderCount
      (g.updateCylinders libm random1 random2).1.updateRevolution.cylinders =
      (g.updateCylinders libm random1 random2).1.updateRevolution.cylinders := by
    apply List.take_of_length_le
    rw [hR, hU]
    show (List.mapIdx _ g.cylinders).length ≤ g.cylinderCount
    rw [List.length_mapIdx, hsize]
  have hsum := fun out : Cylinder → ℚ => EngineSoundGenerator.sumLoop_spec
    (g.updateCylinders libm random1 random2).1.updateRevolution out 0 _ hlen
  have hcount : (g.updateCylinders libm random1 random2).1.updateRevolution.cylinderCount =
      g.cylinderCount := by
    rw [hR, hU]
  have hfac : (g.updateCylinders libm random1 random2).1.updateRevolution.cylindersFactor =
      4 / (g.cylinderCount : ℚ) := by
    rw [hR, hU]
    exact hfactor
  have hcyl : (g.updateCylinders libm random1 random2).1.updateRevolution.cylinders =
      (g.updateCylinders libm random1 random2).1.cylinders := by
    rw [hR]
  have hpipe : (g.updateCylinders libm random1 random2).1.updateRevolution.straightPipe =
      g.straightPipe := by
    rw [hR, hU]
  have hmuffler : (g.updateCylinders libm random1 random2).1.updateRevolution.muffler =
      g.muffler := by
    rw [hR, hU]
  have e0 : (0.0 : ℚ) = 0 := by norm_num
  simp only [htake, zero_add] at hsum
  refine ⟨?_, ?_, ?_, ?_, ?_⟩
  · show (g.updateCylinders libm random1 random2).1.updateRevolution.cylinders = _
    rw [hcyl, hU]
  · show (g.updateCylinders libm random1 random2).2 = _ *
      (List.map _ (g.updateCylinders libm random1 random2).1.updateRevolution.cylinders).sum
    rw [hcyl, hU, hfactor]
  · show (List.range (g.updateCylinders libm random1 random2).1.updateRevolution.cylinderCount).foldl
      ((g.updateCylinders libm random1 random2).1.updateRevolution.sumStep
        (fun c => c.intakeWaveguide.outputLeft)) 0 = _ *
      (List.map _ (g.updateCylinders libm random1 random2).1.updateRevolution.cylinders).sum
    rw [hsum, hcount, hfac]
  · unfold EngineSoundGenerator._updateSample EngineSoundGenerator.updateExhaustPath
    simp only [e0, hsum, hpipe, hmuffler]
    rw [hcount, hfac]
  · intro h1
    have hpos : (0 : ℚ) < (g.cylinderCount : ℚ) := by exact_mod_cast h1
    by_cases h4 : g.cylinderCount ≤ 4
    · rw [if_pos h4]
      have : (g.cylinderCount : ℚ) ≤ 4 := by exact_mod_cast h4
      rw [min_eq_left]
      rw [le_div_iff₀ hpos]
      linarith
    · rw [if_neg h4]
      have : (4 : ℚ) < (g.cylinderCount : ℚ) := by exact_mod_cast (Nat.lt_of_not_le h4)
      rw [min_eq_right]
      rw [div_le_iff₀ hpos]
      linarith

/-- Witness of C11: an engine of eight cylinders, where the factor is 1/2. -/
theorem EngineSoundGenerator._updateSample_scaled_sums_witness :
    ((exampleEngine 8)._updateSample exampleMath (1 / 2) (1 / 2)).2.sound =
      (if (exampleEngine 8).cylinderCount ≤ 4 then 1
        else 4 / ((exampleEngine 8).cylinderCount : ℚ)) *
        (((exampleEngine 8)._updateSample exampleMath (1 / 2) (1 / 2)).1.cylinders.map
          (fun c => c.cylinderWaveguide.outputLeft)).sum ∧
    (if (exampleEngine 8).cylinderCount ≤ 4 then 1
        else 4 / ((exampleEngine 8).cylinderCount : ℚ)) = 1 / 2 :=
  ⟨(EngineSoundGenerator._updateSample_scaled_sums exampleMath (exampleEngine 8)
      (1 / 2) (1 / 2) (by simp [exampleEngine]) (by norm_num [exampleEngine])).2.1,
    by norm_num [exampleEngine]⟩

/-! ### C12: what `updateParameters` leaves alone -/

theorem Waveguide.new_ok (length : Nat) (rl rr : ℚ) (heapUpper heapLower : Nat → ℚ)
    (h1 : 1 ≤ length) (h2 : length ≤ 2147483647) :
    ∃ w, Waveguide.new length rl rr heapUpper heapLower = Except.ok w := by
  obtain ⟨w, hw, _⟩ := Waveguide.new_of_range length rl rr heapUpper heapLower h1 h2
  exact ⟨w, hw⟩

theorem Cylinder.new_of_valid_lengths (index intakeWaveguideLength exhaustWaveguideLength
    extractorWaveguideLength : Nat)
    (intakeOpenReflectionFactor intakeClosedReflectionFactor
      exhaustOpenReflectionFactor exhaustClosedReflectionFactor ignitionTime : ℚ)
    (heap : Nat → (Nat → ℚ) × (Nat → ℚ)) (uninit : Nat → ℚ)
    (hintake : 1 ≤ intakeWaveguideLength ∧ intakeWaveguideLength ≤ 2147483647)
    (hexhaust : 1 ≤ exhaustWaveguideLength ∧ exhaustWaveguideLength ≤ 2147483647)
    (hextractor : 1 ≤ extractorWaveguideLength ∧ extractorWaveguideLength ≤ 2147483647) :
    ∃ c, Cylinder.new index intakeWaveguideLength exhaustWaveguideLength
      extractorWaveguideLength intakeOpenReflectionFactor intakeClosedReflectionFactor
      exhaustOpenReflectionFactor exhaustClosedReflectionFactor ignitionTime heap uninit =
        Except.ok c := by
  obtain ⟨w0, h0⟩ := Waveguide.new_ok 10 0.75 0.75 (heap 0).1 (heap 0).2 (by decide) (by decide)
  obtain ⟨w1, h1⟩ := Waveguide.new_ok intakeWaveguideLength 0.01 intakeOpenReflectionFactor
    (heap 1).1 (heap 1).2 hintake.1 hintake.2
  obtain ⟨w2, h2⟩ := Waveguide.new_ok exhaustWaveguideLength exhaustClosedReflectionFactor 0.01
    (heap 2).1 (heap 2).2 hexhaust.1 hexhaust.2
  obtain ⟨w3, h3⟩ := Waveguide.new_ok extractorWaveguideLength 0.01 0.01
    (heap 3).1 (heap 3).2 hextractor.1 hextractor.2
  unfold Cylinder.new
  rw [h0, h1, h2, h3]
  exact ⟨_, rfl⟩

theorem EngineSoundGenerator.newCylinders_ok
    (intakeWaveguideLength exhaustWaveguideLength extractorWaveguideLength : Nat)
    (intakeOpenReflectionFactor intakeClosedReflectionFactor
      exhaustOpenReflectionFactor exhaustClosedReflectionFactor ignitionTime : ℚ)
    (memory : FreshMemory)
    (hintake : 1 ≤ intakeWaveguideLength ∧ intakeWaveguideLength ≤ 2147483647)
    (hexhaust : 1 ≤ exhaustWaveguideLength ∧ exhaustWaveguideLength ≤ 2147483647)
    (hextractor : 1 ≤ extractorWaveguideLength ∧ extractorWaveguideLength ≤ 2147483647)
    (count first : Nat) :
    ∃ cs, EngineSoundGenerator.newCylinders intakeWaveguideLength exhaustWaveguideLength
      extractorWaveguideLength intakeOpenReflectionFactor intakeClosedReflectionFactor
      exhaustOpenReflectionFactor exhaustClosedReflectionFactor ignitionTime memory
      count first = Except.ok cs ∧ cs.length = count := by
  induction count generalizing first with
  | zero => exact ⟨[], rfl, rfl⟩
  | succ count ih =>
    obtain ⟨c, hc⟩ := Cylinder.new_of_valid_lengths first intakeWaveguideLength exhaustWaveguideLength
      extractorWaveguideLength intakeOpenReflectionFactor intakeClosedReflectionFactor
      exhaustOpenReflectionFactor exhaustClosedReflectionFactor ignitionTime
      (memory.cylinderHeap first) (memory.cylinderUninit first) hintake hexhaust hextractor
    obtain ⟨cs, hcs, hlen⟩ := ih (first + 1)
    unfold EngineSoundGenerator.newCylinders
    rw [hc, hcs]
    exact ⟨c :: cs, rfl, by rw [List.length_cons, hlen]⟩

theorem EngineSoundGenerator.newCylinders_length
    (intakeWaveguideLength exhaustWaveguideLength extractorWaveguideLength : Nat)
    (intakeOpenReflectionFactor intakeClosedReflectionFactor
      exhaustOpenReflectionFactor exhaustClosedReflectionFactor ignitionTime : ℚ)
    (memory : FreshMemory) (count first : Nat) (cs : List Cylinder)
    (h : EngineSoundGenerator.newCylinders intakeWaveguideLength exhaustWaveguideLength
      extractorWaveguideLength intakeOpenReflectionFactor intakeClosedReflectionFactor
      exhaustOpenReflectionFactor exhaustClosedReflectionFactor ignitionTime memory
      count first = Except.ok cs) :
    cs.length = count := by
  induction count generalizing first cs with
  | zero =>
    simp only [EngineSoundGenerator.newCylinders] at h
    injection h with h
    subst h
    rfl
  | succ count ih =>
    unfold EngineSoundGenerator.newCylinders at h
    split at h
    · cases h
    · split at h
      · cases h
      · rename_i cs2 hcs2
        injection h with h
        subst h
        rw [List.length_cons, ih _ _ hcs2]

theorem Muffler.newElements_ok (elementLengths : List Nat) (action : ℚ)
    (heap : Nat → (Nat → ℚ) × (Nat → ℚ)) (count first : Nat)
    (hvalid : ∀ k, first ≤ k → k < first + count →
      1 ≤ elementLengths.getD k 0 ∧ elementLengths.getD k 0 ≤ 2147483647) :
    ∃ ws, Muffler.newElements elementLengths action heap count first = Except.ok ws := by
  induction count generalizing first with
  | zero => exact ⟨[], rfl⟩
  | succ count ih =>
    obtain ⟨w, hw⟩ := Waveguide.new_ok (elementLengths.getD first 0) 0 action
      (heap first).1 (heap first).2 (hvalid first (le_refl _) (by omega)).1
      (hvalid first (le_refl _) (by omega)).2
    obtain ⟨ws, hws⟩ := ih (first + 1) (fun k h1 h2 => hvalid k (by omega) (by omega))
    unfold Muffler.newElements
    rw [hw, hws]
    exact ⟨w :: ws, rfl⟩

/-- What a call of `updateParameters` that returns has done: the members that it does
not assign are those of the object before the call, the count and the two fields
derived from it are those of the argument, and the vector holds `cylinderCount`
cylinders. -/
theorem EngineSoundGenerator.updateParameters_spec (g g2 : EngineSoundGenerator)
    (cylinderCount intakeWaveguideLength exhaustWaveguideLength
      extractorWaveguideLength : Nat)
    (intakeOpenReflectionFactor intakeClosedReflectionFactor
      exhaustOpenReflectionFactor exhaustClosedReflectionFactor ignitionTime : ℚ)
    (straightPipeWaveguideLength : Nat) (straightPipeReflectionFactor : ℚ)
    (mufflerElementsLength : List Nat) (mufflerElementsCount : Nat) (action : ℚ)
    (outletWaveguideLength : Nat) (outletReflectionFactor : ℚ) (memory : FreshMemory)
    (h : g.updateParameters cylinderCount intakeWaveguideLength exhaustWaveguideLength
      extractorWaveguideLength intakeOpenReflectionFactor intakeClosedReflectionFactor
      exhaustOpenReflectionFactor exhaustClosedReflectionFactor ignitionTime
      straightPipeWaveguideLength straightPipeReflectionFactor mufflerElementsLength
      mufflerElementsCount action outletWaveguideLength outletReflectionFactor memory =
        Except.ok g2) :
    g2 = { g with
      cylinders := g2.cylinders
      cylinderCount := cylinderCount
      cylindersCountInverse := 1 / (cylinderCount : ℚ)
      cylindersFactor := 4 / (cylinderCount : ℚ)
      straightPipe := g2.straightPipe
      muffler := g2.muffler
      outlet := g2.outlet } ∧
    g2.cylinders.length = cylinderCount := by
  have e1 : (1.0 : ℚ) = 1 := by norm_num
  have e4 : (4.0 : ℚ) * (1 / (cylinderCount : ℚ)) = 4 / (cylinderCount : ℚ) := by
    norm_num
    ring
  unfold EngineSoundGenerator.updateParameters at h
  split at h
  · cases h
  · rename_i cs hcs
    split at h
    · cases h
    · split at h
      · cases h
      · split at h
        · cases h
        · injection h with h
          subst h
          simp only [e1, e4]
          exact ⟨trivial, EngineSoundGenerator.newCylinders_length _ _ _ _ _ _ _ _ _ _ _ _ hcs⟩

/-- C12: for every argument list with valid lengths (each waveguide length, those of
the muffler elements included, from 1 to 2^31 - 1) `updateParameters` returns, and the
object it leaves differs from the object before the call only in the cylinder vector,
the count with the two fields derived from it, the straight pipe, the muffler and the
outlet: `currentRevolution`, `secondsPerSample`, `rpm`, `throttle` and the three
filters with their whole state are those of before. -/
theorem EngineSoundGenerator.updateParameters_keeps_clock_and_filters
    (g : EngineSoundGenerator)
    (cylinderCount intakeWaveguideLength exhaustWaveguideLength
      extractorWaveguideLength : Nat)
    (intakeOpenReflectionFactor intakeClosedReflectionFactor
      exhaustOpenReflectionFactor exhaustClosedReflectionFactor ignitionTime : ℚ)
    (straightPipeWaveguideLength : Nat) (straightPipeReflectionFactor : ℚ)
    (mufflerElementsLength : List Nat) (mufflerElementsCount : Nat) (action : ℚ)
    (outletWaveguideLength : Nat) (outletReflectionFactor : ℚ) (memory : FreshMemory)
    (hintake : 1 ≤ intakeWaveguideLength ∧ intakeWaveguideLength ≤ 2147483647)
    (hexhaust : 1 ≤ exhaustWaveguideLength ∧ exhaustWaveguideLength ≤ 2147483647)
    (hextractor : 1 ≤ extractorWaveguideLength ∧ extractorWaveguideLength ≤ 2147483647)
    (hstraightPipe : 1 ≤ straightPipeWaveguideLength ∧
      straightPipeWaveguideLength ≤ 2147483647)
    (hmuffler : ∀ k, k < mufflerElementsCount →
      1 ≤ mufflerElementsLength.getD k 0 ∧ mufflerElementsLength.getD k 0 ≤ 2147483647)
    (houtlet : 1 ≤ outletWaveguideLength ∧ outletWaveguideLength ≤ 2147483647) :
    ∃ g2, g.updateParameters cylinderCount intakeWaveguideLength exhaustWaveguideLength
        extractorWaveguideLength intakeOpenReflectionFactor intakeClosedReflectionFactor
        exhaustOpenReflectionFactor exhaustClosedReflectionFactor ignitionTime
        straightPipeWaveguideLength straightPipeReflectionFactor mufflerElementsLength
        mufflerElementsCount action outletWaveguideLength outletReflectionFactor memory =
          Except.ok g2 ∧
      g2.currentRevolution = g.currentRevolution ∧
      g2.secondsPerSample = g.secondsPerSample ∧
      g2.intakeNoiseLowPassFilter = g.intakeNoiseLowPassFilter ∧
      g2.crankshaftLowPassFilter = g.crankshaftLowPassFilter ∧
      g2.engineLowPassFilter = g.engineLowPassFilter ∧
      g2.rpm = g.rpm ∧ g2.throttle = g.throttle ∧
      g2.cylinderCount = cylinderCount ∧
      g2.cylindersCountInverse = 1 / (cylinderCount : ℚ) ∧
      g2.cylindersFactor = 4 / (cylinderCount : ℚ) ∧
      g2.cylinders.length = cylinderCount := by
  obtain ⟨cs, hcs, _⟩ := EngineSoundGenerator.newCylinders_ok intakeWaveguideLength
    exhaustWaveguideLength extractorWaveguideLength intakeOpenReflectionFactor
    intakeClosedReflectionFactor exhaustOpenReflectionFactor exhaustClosedReflectionFactor
    ignitionTime memory hintake hexhaust hextractor cylinderCount 0
  obtain ⟨sp, hsp⟩ := Waveguide.new_ok straightPipeWaveguideLength
    straightPipeReflectionFactor straightPipeReflectionFactor memory.straightPipeHeap.1
    memory.straightPipeHeap.2 hstraightPipe.1 hstraightPipe.2
  obtain ⟨ws, hws⟩ := Muffler.newElements_ok mufflerElementsLength action memory.mufflerHeap
    mufflerElementsCount 0 (fun k _ h2 => hmuffler k (by omega))
  obtain ⟨ol, hol⟩ := Waveguide.new_ok outletWaveguideLength outletReflectionFactor
    outletReflectionFactor memory.outletHeap.1 memory.outletHeap.2 houtlet.1 houtlet.2
  have hok : ∃ g2, g.updateParameters cylinderCount intakeWaveguideLength
      exhaustWaveguideLength extractorWaveguideLength intakeOpenReflectionFactor
      intakeClosedReflectionFactor exhaustOpenReflectionFactor exhaustClosedReflectionFactor
      ignitionTime straightPipeWaveguideLength straightPipeReflectionFactor
      mufflerElementsLength mufflerElementsCount action outletWaveguideLength
      outletReflectionFactor memory = Except.ok g2 := by
    unfold EngineSoundGenerator.updateParameters Muffler.new
    rw [hcs, hsp, hws, hol]
    exact ⟨_, rfl⟩
  obtain ⟨g2, hg2⟩ := hok
  obtain ⟨hframe, hlen⟩ := EngineSoundGenerator.updateParameters_spec g g2 _ _ _ _ _ _ _ _ _
    _ _ _ _ _ _ _ memory hg2
  refine ⟨g2, hg2, ?_, ?_, ?_, ?_, ?_, ?_, ?_, ?_, ?_, ?_, hlen⟩
  all_goals rw [hframe]

/-- Witness of C12: an engine of four cylinders is reconfigured to eight. -/
theorem EngineSoundGenerator.updateParameters_keeps_clock_and_filters_witness :
    ∃ g2, (exampleEngine 4).updateParameters 8 3 4 5 (1 / 100) (9 / 10) (1 / 100) (9 / 10)
        (1 / 10) 6 (1 / 10) [3, 4] 2 (1 / 2) 7 (1 / 10) exampleMemory = Except.ok g2 ∧
      g2.currentRevolution = (exampleEngine 4).currentRevolution ∧
      g2.secondsPerSample = (exampleEngine 4).secondsPerSample ∧
      g2.intakeNoiseLowPassFilter = (exampleEngine 4).intakeNoiseLowPassFilter ∧
      g2.crankshaftLowPassFilter = (exampleEngine 4).crankshaftLowPassFilter ∧
      g2.engineLowPassFilter = (exampleEngine 4).engineLowPassFilter ∧
      g2.rpm = (exampleEngine 4).rpm ∧ g2.throttle = (exampleEngine 4).throttle ∧
      g2.cylinderCount = 8 ∧
      g2.cylindersCountInverse = 1 / ((8 : Nat) : ℚ) ∧
      g2.cylindersFactor = 4 / ((8 : Nat) : ℚ) ∧
      g2.cylinders.length = 8 :=
  EngineSoundGenerator.updateParameters_keeps_clock_and_filters (exampleEngine 4) 8 3 4 5
    (1 / 100) (9 / 10) (1 / 100) (9 / 10) (1 / 10) 6 (1 / 10) [3, 4] 2 (1 / 2) 7 (1 / 10)
    exampleMemory (by decide) (by decide) (by decide) (by decide)
    (by intro k hk; interval_cases k <;> decide) (by decide)

/-! ### What `_updateSample` neither reads nor writes -/

theorem EngineSoundGenerator.cylinderStep_frame (libm : MathLibrary) (a b : ℚ)
    (g : EngineSoundGenerator) (s : ℚ) (i : Nat) (t : ℚ) (f : LowpassFilter) :
    EngineSoundGenerator.cylinderStep libm a b
        ({ g with throttle := t, engineLowPassFilter := f }, s) i =
      ({ (EngineSoundGenerator.cylinderStep libm a b (g, s) i).1 with
          throttle := t, engineLowPassFilter := f },
        (EngineSoundGenerator.cylinderStep libm a b (g, s) i).2) := by
  unfold EngineSoundGenerator.cylinderStep
  simp only
  rcases h : g.cylinders[i]? with _ | c
  · rfl
  · simp only
    split <;> rfl

theorem EngineSoundGenerator.cylinderLoop_frame (libm : MathLibrary) (a b : ℚ) (l : List Nat)
    (g : EngineSoundGenerator) (s : ℚ) (t : ℚ) (f : LowpassFilter) :
    l.foldl (EngineSoundGenerator.cylinderStep libm a b)
        ({ g with throttle := t, engineLowPassFilter := f }, s) =
      ({ (l.foldl (EngineSoundGenerator.cylinderStep libm a b) (g, s)).1 with
          throttle := t, engineLowPassFilter := f },
        (l.foldl (EngineSoundGenerator.cylinderStep libm a b) (g, s)).2) := by
  induction l generalizing g s with
  | nil => rfl
  | cons i l ih =>
    rw [List.foldl_cons, List.foldl_cons, EngineSoundGenerator.cylinderStep_frame]
    exact ih _ _

theorem EngineSoundGenerator.updateCylinders_frame (libm : MathLibrary)
    (g : EngineSoundGenerator) (random1 random2 : ℚ) (t : ℚ) (f : LowpassFilter) :
    EngineSoundGenerator.updateCylinders libm
        { g with throttle := t, engineLowPassFilter := f } random1 random2 =
      ({ (g.updateCylinders libm random1 random2).1 with
          throttle := t, engineLowPassFilter := f },
        (g.updateCylinders libm random1 random2).2) := by
  unfold EngineSoundGenerator.updateCylinders
  exact EngineSoundGenerator.cylinderLoop_frame libm
    (if g.rpm < 25.0 then 0
      else (g.intakeNoiseLowPassFilter.getFilteredValue (2.0 * random1 - 1.0)).1)
    (g.crankshaftLowPassFilter.getFilteredValue (0.25 * random2)).1
    (List.range g.cylinderCount)
    { g with
      intakeNoiseLowPassFilter :=
        (g.intakeNoiseLowPassFilter.getFilteredValue (2.0 * random1 - 1.0)).2
      crankshaftLowPassFilter :=
        (g.crankshaftLowPassFilter.getFilteredValue (0.25 * random2)).2 }
    0.0 t f

theorem EngineSoundGenerator.updateRevolution_other (g : EngineSoundGenerator) (t : ℚ)
    (f : LowpassFilter) :
    EngineSoundGenerator.updateRevolution { g with throttle := t, engineLowPassFilter := f } =
      { g.updateRevolution with throttle := t, engineLowPassFilter := f } := by
  unfold EngineSoundGenerator.updateRevolution
  simp only
  split <;> rfl

theorem EngineSoundGenerator.sumStep_frame (g : EngineSoundGenerator) (t : ℚ)
    (f : LowpassFilter) (out : Cylinder → ℚ) :
    EngineSoundGenerator.sumStep { g with throttle := t, engineLowPassFilter := f } out =
      g.sumStep out := rfl

/-- The method `_updateSample` neither reads nor writes the members `throttle` and
`engineLowPassFilter`: with other values in them it writes the same samples and
leaves the same state, up to these two members, which keep their values. -/
theorem EngineSoundGenerator._updateSample_frame (libm : MathLibrary)
    (g : EngineSoundGenerator) (random1 random2 : ℚ) (t : ℚ) (f : LowpassFilter) :
    EngineSoundGenerator._updateSample libm
        { g with throttle := t, engineLowPassFilter := f } random1 random2 =
      ({ (g._updateSample libm random1 random2).1 with
          throttle := t, engineLowPassFilter := f },
        (g._updateSample libm random1 random2).2) := by
  unfold EngineSoundGenerator._updateSample
  simp only
  rw [EngineSoundGenerator.updateCylinders_frame]
  simp only
  rw [EngineSoundGenerator.updateRevolution_other]
  rfl

theorem EngineSoundGenerator._updateSample_throttle (libm : MathLibrary)
    (g : EngineSoundGenerator) (random1 random2 : ℚ) :
    (g._updateSample libm random1 random2).1.throttle = g.throttle :=
  congrArg (fun r => r.1.throttle)
    (EngineSoundGenerator._updateSample_frame libm g random1 random2 g.throttle
      g.engineLowPassFilter)

theorem EngineSoundGenerator._updateSample_engineLowPassFilter (libm : MathLibrary)
    (g : EngineSoundGenerator) (random1 random2 : ℚ) :
    (g._updateSample libm random1 random2).1.engineLowPassFilter = g.engineLowPassFilter :=
  congrArg (fun r => r.1.engineLowPassFilter)
    (EngineSoundGenerator._updateSample_frame libm g random1 random2 g.throttle
      g.engineLowPassFilter)

theorem EngineSoundGenerator._updateSample_frame_filter (libm : MathLibrary)
    (g : EngineSoundGenerator) (random1 random2 : ℚ) (f : LowpassFilter) :
    EngineSoundGenerator._updateSample libm { g with engineLowPassFilter := f }
        random1 random2 =
      ({ (g._updateSample libm random1 random2).1 with engineLowPassFilter := f },
        (g._updateSample libm random1 random2).2) := by
  have h := EngineSoundGenerator._updateSample_frame libm g random1 random2 g.throttle f
  have ht := EngineSoundGenerator._updateSample_throttle libm g random1 random2
  have e : ({ (g._updateSample libm random1 random2).1 with
      throttle := g.throttle, engineLowPassFilter := f } : EngineSoundGenerator) =
      { (g._updateSample libm random1 random2).1 with engineLowPassFilter := f } := by
    rw [← ht]
  exact h.trans (congrArg (fun x => (x, (g._updateSample libm random1 random2).2)) e)

theorem EngineSoundGenerator._updateSample_frame_throttle (libm : MathLibrary)
    (g : EngineSoundGenerator) (random1 random2 : ℚ) (t : ℚ) :
    EngineSoundGenerator._updateSample libm { g with throttle := t } random1 random2 =
      ({ (g._updateSample libm random1 random2).1 with throttle := t },
        (g._updateSample libm random1 random2).2) := by
  have h := EngineSoundGenerator._updateSample_frame libm g random1 random2 t
    g.engineLowPassFilter
  have hf := EngineSoundGenerator._updateSample_engineLowPassFilter libm g random1 random2
  have e : ({ (g._updateSample libm random1 random2).1 with
      throttle := t, engineLowPassFilter := g.engineLowPassFilter } : EngineSoundGenerator) =
      { (g._updateSample libm random1 random2).1 with throttle := t } := by
    rw [← hf]
  exact h.trans (congrArg (fun x => (x, (g._updateSample libm random1 random2).2)) e)

/-! ### The sample loop of `generateSound` -/

theorem EngineSoundGenerator.sampleStep_filter (libm : MathLibrary)
    (rpm throttle : ControlInput) (random : Nat → ℚ × ℚ) (g : EngineSoundGenerator)
    (outs : List SampleOutput) (i : Nat) (f : LowpassFilter) :
    EngineSoundGenerator.sampleStep libm rpm throttle random
        ({ g with engineLowPassFilter := f }, outs) i =
      ({ (EngineSoundGenerator.sampleStep libm rpm throttle random (g, outs) i).1 with
          engineLowPassFilter := f },
        (EngineSoundGenerator.sampleStep libm rpm throttle random (g, outs) i).2) :=
  congrArg (fun r : EngineSoundGenerator × SampleOutput => (r.1, outs ++ [r.2]))
    (EngineSoundGenerator._updateSample_frame_filter libm
      { g with rpm := rpm.valueAt i, throttle := throttle.valueAt i }
      (random i).1 (random i).2 f)

theorem EngineSoundGenerator.sampleStep_prepend (libm : MathLibrary)
    (rpm throttle : ControlInput) (random : Nat → ℚ × ℚ) (g : EngineSoundGenerator)
    (pre : List SampleOutput) (i : Nat) :
    EngineSoundGenerator.sampleStep libm rpm throttle random (g, pre) i =
      ((EngineSoundGenerator.sampleStep libm rpm throttle random (g, []) i).1,
        pre ++ (EngineSoundGenerator.sampleStep libm rpm throttle random (g, []) i).2) := rfl

theorem EngineSoundGenerator.sampleLoop_prepend (libm : MathLibrary)
    (rpm throttle : ControlInput) (random : Nat → ℚ × ℚ) (l : List Nat)
    (g : EngineSoundGenerator) (pre : List SampleOutput) :
    l.foldl (EngineSoundGenerator.sampleStep libm rpm throttle random) (g, pre) =
      ((l.foldl (EngineSoundGenerator.sampleStep libm rpm throttle random) (g, [])).1,
        pre ++ (l.foldl (EngineSoundGenerator.sampleStep libm rpm throttle random) (g, [])).2) := by
  induction l generalizing g pre with
  | nil => simp only [List.foldl_nil, List.append_nil]
  | cons i l ih =>
    rw [List.foldl_cons, List.foldl_cons,
      EngineSoundGenerator.sampleStep_prepend libm rpm throttle random g pre i, ih,
      ih _ (EngineSoundGenerator.sampleStep libm rpm throttle random (g, []) i).2,
      List.append_assoc]

theorem EngineSoundGenerator.sampleLoop_filter (libm : MathLibrary)
    (rpm throttle : ControlInput) (random : Nat → ℚ × ℚ) (l : List Nat)
    (g : EngineSoundGenerator) (outs : List SampleOutput) (f : LowpassFilter) :
    l.foldl (EngineSoundGenerator.sampleStep libm rpm throttle random)
        ({ g with engineLowPassFilter := f }, outs) =
      ({ (l.foldl (EngineSoundGenerator.sampleStep libm rpm throttle random) (g, outs)).1 with
          engineLowPassFilter := f },
        (l.foldl (EngineSoundGenerator.sampleStep libm rpm throttle random) (g, outs)).2) := by
  induction l generalizing g outs with
  | nil => rfl
  | cons i l ih =>
    rw [List.foldl_cons, List.foldl_cons, EngineSoundGenerator.sampleStep_filter]
    exact ih _ _

/-- The sample loop of `generateSound` leaves the engine low-pass filter as it is. -/
theorem EngineSoundGenerator.sampleLoop_engineLowPassFilter (libm : MathLibrary)
    (rpm throttle : ControlInput) (random : Nat → ℚ × ℚ) (l : List Nat)
    (g : EngineSoundGenerator) (outs : List SampleOutput) :
    (l.foldl (EngineSoundGenerator.sampleStep libm rpm throttle random)
      (g, outs)).1.engineLowPassFilter = g.engineLowPassFilter :=
  congrArg (fun r => r.1.engineLowPassFilter)
    (EngineSoundGenerator.sampleLoop_filter libm rpm throttle random l g outs
      g.engineLowPassFilter)

theorem EngineSoundGenerator.sampleStep_throttle (libm : MathLibrary)
    (rpm throttle1 throttle2 : ControlInput) (random : Nat → ℚ × ℚ)
    (g : EngineSoundGenerator) (outs : List SampleOutput) (i : Nat) (x : ℚ) :
    EngineSoundGenerator.sampleStep libm rpm throttle1 random ({ g with throttle := x }, outs) i =
      ({ (EngineSoundGenerator.sampleStep libm rpm throttle2 random (g, outs) i).1 with
          throttle := throttle1.valueAt i },
        (EngineSoundGenerator.sampleStep libm rpm throttle2 random (g, outs) i).2) := by
  have h1 := EngineSoundGenerator._updateSample_frame_throttle libm
    { g with rpm := rpm.valueAt i } (random i).1 (random i).2 (throttle1.valueAt i)
  have h2 := EngineSoundGenerator._updateSample_frame_throttle libm
    { g with rpm := rpm.valueAt i } (random i).1 (random i).2 (throttle2.valueAt i)
  have e1 : EngineSoundGenerator.sampleStep libm rpm throttle1 random
      ({ g with throttle := x }, outs) i = _ :=
    congrArg (fun r : EngineSoundGenerator × SampleOutput => (r.1, outs ++ [r.2])) h1
  have e2 : EngineSoundGenerator.sampleStep libm rpm throttle2 random (g, outs) i = _ :=
    congrArg (fun r : EngineSoundGenerator × SampleOutput => (r.1, outs ++ [r.2])) h2
  rw [e1, e2]

theorem EngineSoundGenerator.sampleLoop_throttle (libm : MathLibrary)
    (rpm throttle1 throttle2 : ControlInput) (random : Nat → ℚ × ℚ) (l : List Nat)
    (g : EngineSoundGenerator) (outs : List SampleOutput) (x : ℚ) :
    ∃ y : ℚ,
      l.foldl (EngineSoundGenerator.sampleStep libm rpm throttle1 random)
          ({ g with throttle := x }, outs) =
        ({ (l.foldl (EngineSoundGenerator.sampleStep libm rpm throttle2 random) (g, outs)).1 with
            throttle := y },
          (l.foldl (EngineSoundGenerator.sampleStep libm rpm throttle2 random) (g, outs)).2) := by
  induction l generalizing g outs x with
  | nil => exact ⟨x, rfl⟩
  | cons i l ih =>
    rw [List.foldl_cons, List.foldl_cons,
      EngineSoundGenerator.sampleStep_throttle libm rpm throttle1 throttle2]
    exact ih _ _ _

/-! ### C13: the throttle input -/

/-- C13: two calls of `generateSound` on the same generator state, with the same
random draws, the same rpm input and the same block length, that differ only in
the throttle input (values and length) fill the three channels with the same
samples and leave the same state except for the member `throttle`. -/
theorem EngineSoundGenerator.generateSound_ignores_throttle (libm : MathLibrary)
    (g : EngineSoundGenerator) (rpm throttle1 throttle2 : ControlInput) (chunkSize : Nat)
    (random : Nat → ℚ × ℚ) :
    (g.generateSound libm rpm throttle1 chunkSize random).2 =
      (g.generateSound libm rpm throttle2 chunkSize random).2 ∧
    (g.generateSound libm rpm throttle1 chunkSize random).1 =
      { (g.generateSound libm rpm throttle2 chunkSize random).1 with
        throttle := (g.generateSound libm rpm throttle1 chunkSize random).1.throttle } := by
  obtain ⟨y, hy⟩ := EngineSoundGenerator.sampleLoop_throttle libm rpm throttle1 throttle2
    random (List.range chunkSize) g [] g.throttle
  have hy2 : (List.range chunkSize).foldl
      (EngineSoundGenerator.sampleStep libm rpm throttle1 random) (g, []) = _ := hy
  unfold EngineSoundGenerator.generateSound
  simp only
  rw [hy2]
  exact ⟨rfl, rfl⟩

/-! ### C20: rendering in one block or in two -/

theorem LowpassFilter.filterAll_append (f : LowpassFilter) (a b : List ℚ) :
    f.filterAll (a ++ b) =
      ((f.filterAll a).1 ++ ((f.filterAll a).2.filterAll b).1,
        ((f.filterAll a).2.filterAll b).2) := by
  induction a generalizing f with
  | nil => rfl
  | cons v a ih =>
    show ((f.getFilteredValue v).1 :: ((f.getFilteredValue v).2.filterAll (a ++ b)).1,
      ((f.getFilteredValue v).2.filterAll (a ++ b)).2) = _
    rw [ih]
    rfl

/-- The first `N` entries of an array of `N + M` per-sample values, read with the
length `N`, are the entries that the whole array gives for these samples. -/
theorem ControlInput.valueAt_first (values : List ℚ) (N M i : Nat) (hi : i < N) :
    (ControlInput.mk values (N + M)).valueAt i = (ControlInput.mk values N).valueAt i := by
  unfold ControlInput.valueAt
  simp only
  by_cases h1 : N + M > 1
  · rw [if_pos h1]
    by_cases h2 : N > 1
    · rw [if_pos h2]
    · rw [if_neg h2]
      have : i = 0 := by omega
      rw [this]
  · rw [if_neg h1, if_neg (by omega)]

/-- The entries from `N` on of an array of `N + M` per-sample values, read with the
length `M`, are the entries that the whole array gives for the samples from `N` on. -/
theorem ControlInput.valueAt_rest (values : List ℚ) (N M j : Nat) (hj : j < M) :
    (ControlInput.mk values (N + M)).valueAt (N + j) =
      (ControlInput.mk (values.drop N) M).valueAt j := by
  unfold ControlInput.valueAt
  simp only
  have hd : ∀ k, (values.drop N).getD k 0 = values.getD (N + k) 0 := by
    intro k
    rw [List.getD_eq_getElem?_getD, List.getD_eq_getElem?_getD, List.getElem?_drop]
  by_cases h1 : N + M > 1
  · rw [if_pos h1]
    by_cases h2 : M > 1
    · rw [if_pos h2, hd]
    · rw [if_neg h2, hd]
      have : j = 0 := by omega
      rw [this]
  · rw [if_neg h1, if_neg (by omega), hd]
    have hN : N = 0 := by omega
    rw [hN]

/-- The sample loop over `N + M` samples is the loop over the first `N` samples
followed by the loop over `M` samples that reads the inputs from `N` on. -/
theorem EngineSoundGenerator.sampleLoop_split (libm : MathLibrary)
    (rpm throttle : List ℚ) (N M : Nat) (random : Nat → ℚ × ℚ)
    (acc : EngineSoundGenerator × List SampleOutput) :
    (List.range (N + M)).foldl
        (EngineSoundGenerator.sampleStep libm ⟨rpm, N + M⟩ ⟨throttle, N + M⟩ random) acc =
      (List.range M).foldl
        (EngineSoundGenerator.sampleStep libm ⟨rpm.drop N, M⟩ ⟨throttle.drop N, M⟩
          (fun j => random (N + j)))
        ((List.range N).foldl
          (EngineSoundGenerator.sampleStep libm ⟨rpm, N⟩ ⟨throttle, N⟩ random) acc) := by
  rw [List.range_add, List.foldl_append, List.foldl_map]
  have h1 : (List.range N).foldl
      (EngineSoundGenerator.sampleStep libm ⟨rpm, N + M⟩ ⟨throttle, N + M⟩ random) acc =
      (List.range N).foldl
        (EngineSoundGenerator.sampleStep libm ⟨rpm, N⟩ ⟨throttle, N⟩ random) acc := by
    apply List.foldl_ext
    intro a i hi
    have hi2 : i < N := List.mem_range.mp hi
    unfold EngineSoundGenerator.sampleStep
    rw [ControlInput.valueAt_first rpm N M i hi2, ControlInput.valueAt_first throttle N M i hi2]
  rw [h1]
  apply List.foldl_ext
  intro a j hj
  have hj2 : j < M := List.mem_range.mp hj
  unfold EngineSoundGenerator.sampleStep
  rw [ControlInput.valueAt_rest rpm N M j hj2, ControlInput.valueAt_rest throttle N M j hj2]

/-- C20: rendering `N + M` samples in one call of `generateSound` gives the same
final state and, channel by channel, the samples of a call for the first `N` samples
followed by the samples of a call for the remaining `M` samples on the state that
the first call leaves. The rpm and throttle arrays hold one value per sample and
each call receives its part of them; the second call goes on in the sequence of
random draws where the first one stopped. -/
theorem EngineSoundGenerator.generateSound_block_size_independent (libm : MathLibrary)
    (g : EngineSoundGenerator) (rpm throttle : List ℚ) (N M : Nat)
    (random : Nat → ℚ × ℚ) :
    (g.generateSound libm ⟨rpm, N + M⟩ ⟨throttle, N + M⟩ (N + M) random).1 =
      ((g.generateSound libm ⟨rpm, N⟩ ⟨throttle, N⟩ N random).1.generateSound libm
        ⟨rpm.drop N, M⟩ ⟨throttle.drop N, M⟩ M (fun j => random (N + j))).1 ∧
    (g.generateSound libm ⟨rpm, N + M⟩ ⟨throttle, N + M⟩ (N + M) random).2.channelIntake =
      (g.generateSound libm ⟨rpm, N⟩ ⟨throttle, N⟩ N random).2.channelIntake ++
      ((g.generateSound libm ⟨rpm, N⟩ ⟨throttle, N⟩ N random).1.generateSound libm
        ⟨rpm.drop N, M⟩ ⟨throttle.drop N, M⟩ M (fun j => random (N + j))).2.channelIntake ∧
    (g.generateSound libm ⟨rpm, N + M⟩ ⟨throttle, N + M⟩
        (N + M) random).2.channelEngineBlockVibrations =
      (g.generateSound libm ⟨rpm, N⟩ ⟨throttle, N⟩ N random).2.channelEngineBlockVibrations ++
      ((g.generateSound libm ⟨rpm, N⟩ ⟨throttle, N⟩ N random).1.generateSound libm
        ⟨rpm.drop N, M⟩ ⟨throttle.drop N, M⟩ M
        (fun j => random (N + j))).2.channelEngineBlockVibrations ∧
    (g.generateSound libm ⟨rpm, N + M⟩ ⟨throttle, N + M⟩ (N + M) random).2.channelOutlet =
      (g.generateSound libm ⟨rpm, N⟩ ⟨throttle, N⟩ N random).2.channelOutlet ++
      ((g.generateSound libm ⟨rpm, N⟩ ⟨throttle, N⟩ N random).1.generateSound libm
        ⟨rpm.drop N, M⟩ ⟨throttle.drop N, M⟩ M (fun j => random (N + j))).2.channelOutlet := by
  have hsplit := EngineSoundGenerator.sampleLoop_split libm rpm throttle N M random (g, [])
  generalize hX : (List.range N).foldl
    (EngineSoundGenerator.sampleStep libm ⟨rpm, N⟩ ⟨throttle, N⟩ random) (g, []) = X at hsplit
  have hXf : X.1.engineLowPassFilter = g.engineLowPassFilter := by
    rw [← hX]
    exact EngineSoundGenerator.sampleLoop_engineLowPassFilter libm _ _ random _ g []
  have hpre := EngineSoundGenerator.sampleLoop_prepend libm ⟨rpm.drop N, M⟩
    ⟨throttle.drop N, M⟩ (fun j => random (N + j)) (List.range M) X.1 X.2
  have hfil := fun f => EngineSoundGenerator.sampleLoop_filter libm ⟨rpm.drop N, M⟩
    ⟨throttle.drop N, M⟩ (fun j => random (N + j)) (List.range M) X.1 [] f
  generalize hY : (List.range M).foldl
    (EngineSoundGenerator.sampleStep libm ⟨rpm.drop N, M⟩ ⟨throttle.drop N, M⟩
      (fun j => random (N + j))) (X.1, []) = Y at hpre hfil
  have hYf : Y.1.engineLowPassFilter = X.1.engineLowPassFilter := by
    rw [← hY]
    exact EngineSoundGenerator.sampleLoop_engineLowPassFilter libm _ _ _ _ X.1 []
  have hsplit2 : (List.range (N + M)).foldl
      (EngineSoundGenerator.sampleStep libm ⟨rpm, N + M⟩ ⟨throttle, N + M⟩ random) (g, []) =
      (Y.1, X.2 ++ Y.2) := hsplit.trans hpre
  unfold EngineSoundGenerator.generateSound
  simp only
  rw [hsplit2, hX]
  simp only [hfil, hYf, List.map_append, LowpassFilter.filterAll_append]
  refine ⟨?_, ?_, ?_, ?_⟩ <;> first | rfl | trivial

/-! ### C10: the period of the phase accumulator -/

theorem roundHalfEven_intCast (k : Int) : roundHalfEven (k : ℚ) = k := by
  unfold roundHalfEven
  rw [Int.floor_intCast, sub_self, if_pos (by norm_num)]

/-- The exponent that `Int.log` finds for a positive rational between two successive
powers of two. -/
theorem log_two_eq (x : ℚ) (e : Int) (h1 : (2 : ℚ) ^ e ≤ x) (h2 : x < (2 : ℚ) ^ (e + 1)) :
    Int.log 2 x = e := by
  have hx : 0 < x := lt_of_lt_of_le (by positivity) h1
  have a : e ≤ Int.log 2 x := by
    rw [← Int.zpow_le_iff_le_log (by norm_num) hx]
    exact_mod_cast h1
  have b : Int.log 2 x < e + 1 := by
    rw [← Int.lt_zpow_iff_log_lt (by norm_num) hx]
    exact_mod_cast h2
  omega

/-- Rounding of a positive number whose binary exponent is known. -/
theorem roundToBinary_of_exponent (precision : Nat) (emin : Int) (x : ℚ) (e : Int)
    (h1 : (2 : ℚ) ^ e ≤ x) (h2 : x < (2 : ℚ) ^ (e + 1)) (he : emin ≤ e) :
    roundToBinary precision emin x =
      (roundHalfEven (x / 2 ^ (e - ((precision : Int) - 1))) : ℚ) *
        2 ^ (e - ((precision : Int) - 1)) := by
  have hx : 0 < x := lt_of_lt_of_le (by positivity) h1
  unfold roundToBinary
  rw [if_neg (ne_of_gt hx), abs_of_pos hx, log_two_eq x e h1 h2, max_eq_left he]

/-- A number `k * 2 ^ j` whose mantissa `k` has at most `precision` bits and whose
exponent `j` is not below that of the least subnormal number is a value of the
format: rounding leaves it as it is. -/
theorem roundToBinary_of_grid (precision : Nat) (emin : Int) (k j : Int)
    (hk : |k| < 2 ^ precision) (hj : emin - ((precision : Int) - 1) ≤ j) :
    roundToBinary precision emin ((k : ℚ) * 2 ^ j) = (k : ℚ) * 2 ^ j := by
  by_cases hk0 : k = 0
  · subst hk0
    unfold roundToBinary
    rw [if_pos (by simp)]
    simp
  have h2pos : ∀ z : Int, (0 : ℚ) < 2 ^ z := fun z => by positivity
  have hx0 : (k : ℚ) * 2 ^ j ≠ 0 :=
    mul_ne_zero (by exact_mod_cast hk0) (ne_of_gt (h2pos j))
  have habs : |(k : ℚ) * 2 ^ j| = (|k| : Int) * 2 ^ j := by
    rw [abs_mul, abs_of_pos (h2pos j)]
    push_cast
    rfl
  have hlog : Int.log 2 |(k : ℚ) * 2 ^ j| - ((precision : Int) - 1) ≤ j := by
    have hle := Int.zpow_log_le_self (b := 2) (r := |(k : ℚ) * 2 ^ j|) (by norm_num)
      (abs_pos.mpr hx0)
    have hlt : |(k : ℚ) * 2 ^ j| < 2 ^ ((precision : Int) + j) := by
      rw [habs, zpow_add₀ (by norm_num : (2 : ℚ) ≠ 0)]
      apply mul_lt_mul_of_pos_right _ (h2pos j)
      rw [zpow_natCast]
      exact_mod_cast hk
    have hlt2 : ((2 : ℕ) : ℚ) ^ Int.log 2 |(k : ℚ) * 2 ^ j| < 2 ^ ((precision : Int) + j) :=
      lt_of_le_of_lt hle hlt
    have hlt3 : Int.log 2 |(k : ℚ) * 2 ^ j| < (precision : Int) + j := by
      have := (zpow_lt_zpow_iff_right₀ (by norm_num : (1 : ℚ) < 2)).mp
        (by exact_mod_cast hlt2 :
          (2 : ℚ) ^ Int.log 2 |(k : ℚ) * 2 ^ j| < 2 ^ ((precision : Int) + j))
      exact this
    omega
  have ht : max (Int.log 2 |(k : ℚ) * 2 ^ j|) emin - ((precision : Int) - 1) ≤ j := by
    rcases le_total (Int.log 2 |(k : ℚ) * 2 ^ j|) emin with h | h
    · rw [max_eq_right h]
      exact hj
    · rw [max_eq_left h]
      exact hlog
  unfold roundToBinary
  rw [if_neg hx0]
  generalize max (Int.log 2 |(k : ℚ) * 2 ^ j|) emin - ((precision : Int) - 1) = t at ht
  obtain ⟨n, hn⟩ := Int.eq_ofNat_of_zero_le (sub_nonneg.mpr ht)
  have hdiv : (k : ℚ) * 2 ^ j / 2 ^ t = ((k * 2 ^ n : Int) : ℚ) := by
    rw [mul_div_assoc, ← zpow_sub₀ (by norm_num : (2 : ℚ) ≠ 0), hn, zpow_natCast]
    push_cast
    rfl
  rw [hdiv, roundHalfEven_intCast]
  push_cast
  rw [mul_assoc, ← zpow_natCast, ← hn, ← zpow_add₀ (by norm_num : (2 : ℚ) ≠ 0)]
  congr 2
  omega

theorem toFloat_of_grid (k j : Int) (hk : |k| < 2 ^ 24) (hj : -149 ≤ j) :
    toFloat ((k : ℚ) * 2 ^ j) = (k : ℚ) * 2 ^ j :=
  roundToBinary_of_grid 24 (-126) k j hk (by omega)

theorem toDouble_of_grid (k j : Int) (hk : |k| < 2 ^ 53) (hj : -1074 ≤ j) :
    toDouble ((k : ℚ) * 2 ^ j) = (k : ℚ) * 2 ^ j :=
  roundToBinary_of_grid 53 (-1022) k j hk (by omega)

/-- A number `k * 2 ^ j` with a mantissa of at most 24 bits passes the rounding of a
`double` operation and the conversion to `float` unchanged. -/
theorem toFloat_toDouble_of_grid (k j : Int) (hk : |k| < 2 ^ 24) (hj : -149 ≤ j) :
    toFloat (toDouble ((k : ℚ) * 2 ^ j)) = (k : ℚ) * 2 ^ j := by
  rw [toDouble_of_grid k j (lt_trans hk (by norm_num)) (by omega), toFloat_of_grid k j hk hj]

/-- The multiples of `2^-23` from 0 to 2 are `float` values. -/
theorem toFloat_toDouble_of_grid23 (n : Nat) (hn : n ≤ 2 ^ 24) :
    toFloat (toDouble ((n : ℚ) / 2 ^ 23)) = (n : ℚ) / 2 ^ 23 := by
  rcases Nat.lt_or_ge n (2 ^ 24) with h | h
  · have e : (n : ℚ) / 2 ^ 23 = ((n : Int) : ℚ) * 2 ^ (-23 : Int) := by
      rw [zpow_neg, div_eq_mul_inv]
      norm_num
    rw [e]
    apply toFloat_toDouble_of_grid
    · rw [abs_of_nonneg (by omega)]
      exact_mod_cast h
    · norm_num
  · have hn2 : n = 2 ^ 24 := by omega
    have e : (n : ℚ) / 2 ^ 23 = ((1 : Int) : ℚ) * 2 ^ (1 : Int) := by
      rw [hn2]
      norm_num
    rw [e]
    exact toFloat_toDouble_of_grid 1 1 (by norm_num) (by norm_num)

/-- Where the step and the phase are whole multiples of `2^-23` and the step is
computed without rounding, the rounded update of the phase is the exact one. -/
theorem EngineSoundGenerator.updateRevolutionFloat_of_grid (g : EngineSoundGenerator)
    (a k : Nat)
    (hstep : toDouble (toFloat (g.secondsPerSample * g.rpm) / 120.0) =
      g.secondsPerSample * g.rpm / 120)
    (hk : g.secondsPerSample * g.rpm / 120 = (k : ℚ) / 2 ^ 23) (hk1 : k ≤ 2 ^ 23)
    (ha : g.currentRevolution = (a : ℚ) / 2 ^ 23) (ha1 : a ≤ 2 ^ 23) :
    g.updateRevolutionFloat = g.updateRevolution := by
  have e120 : (120.0 : ℚ) = 120 := by norm_num
  have e1 : (1.0 : ℚ) = 1 := by norm_num
  have hsum : g.currentRevolution + g.secondsPerSample * g.rpm / 120 =
      ((a + k : Nat) : ℚ) / 2 ^ 23 := by
    rw [ha, hk]
    push_cast
    ring
  have hstep2 := hstep
  rw [e120] at hstep2
  unfold EngineSoundGenerator.updateRevolutionFloat EngineSoundGenerator.updateRevolution
  simp only [e120, e1, hstep2]
  rw [hsum, toFloat_toDouble_of_grid23 (a + k) (by omega)]
  by_cases h : ((a + k : Nat) : ℚ) / 2 ^ 23 > 1
  · rw [if_pos h, if_pos h]
    have hak : 2 ^ 23 < a + k := by
      have h2 : (1 : ℚ) < ((a + k : Nat) : ℚ) / 2 ^ 23 := h
      rw [lt_div_iff₀ (by norm_num)] at h2
      have h3 : ((2 ^ 23 : Nat) : ℚ) < ((a + k : Nat) : ℚ) := by
        push_cast
        linarith
      exact_mod_cast h3
    have e : ((a + k : Nat) : ℚ) / 2 ^ 23 - 1 = ((a + k - 2 ^ 23 : Nat) : ℚ) / 2 ^ 23 := by
      rw [Nat.cast_sub (le_of_lt hak)]
      push_cast
      ring
    rw [e, toFloat_toDouble_of_grid23 (a + k - 2 ^ 23) (by omega)]
  · rw [if_neg h, if_neg h]

theorem EngineSoundGenerator.runRevolutionFloat_clock (g : EngineSoundGenerator) (n : Nat) :
    (g.runRevolutionFloat n).secondsPerSample = g.secondsPerSample ∧
    (g.runRevolutionFloat n).rpm = g.rpm := by
  induction n with
  | zero => exact ⟨rfl, rfl⟩
  | succ n ih =>
    show (g.runRevolutionFloat n).updateRevolutionFloat.secondsPerSample = _ ∧
      (g.runRevolutionFloat n).updateRevolutionFloat.rpm = _
    unfold EngineSoundGenerator.updateRevolutionFloat
    simp only
    split <;> exact ih

/-- Where the step and the starting phase are whole multiples of `2^-23` and the step
is computed without rounding, the rounded accumulator goes through the values of the
exact one. -/
theorem EngineSoundGenerator.runRevolutionFloat_of_grid (libm : MathLibrary)
    (g : EngineSoundGenerator) (random : Nat → ℚ × ℚ) (a k : Nat)
    (hstep : toDouble (toFloat (g.secondsPerSample * g.rpm) / 120.0) =
      g.secondsPerSample * g.rpm / 120)
    (hk : g.secondsPerSample * g.rpm / 120 = (k : ℚ) / 2 ^ 23) (hk1 : k ≤ 2 ^ 23)
    (ha : g.currentRevolution = (a : ℚ) / 2 ^ 23) (ha1 : a ≤ 2 ^ 23) (n : Nat) :
    (g.runRevolutionFloat n).currentRevolution =
      (g.runSamples libm random n).currentRevolution := by
  have hd0 : 0 ≤ g.secondsPerSample * g.rpm / 120 := by
    rw [hk]
    positivity
  have hd1 : g.secondsPerSample * g.rpm / 120 ≤ 1 := by
    rw [hk, div_le_one (by norm_num)]
    exact_mod_cast hk1
  have hc0 : 0 ≤ g.currentRevolution := by
    rw [ha]
    positivity
  have hc1 : g.currentRevolution ≤ 1 := by
    rw [ha, div_le_one (by norm_num)]
    exact_mod_cast ha1
  induction n with
  | zero => rfl
  | succ n ih =>
    obtain ⟨h0, h1, z, hz⟩ :=
      EngineSoundGenerator.runSamples_phase libm g random hd0 hd1 hc0 hc1 n
    obtain ⟨hs, hr⟩ := EngineSoundGenerator.runRevolutionFloat_clock g n
    -- the phase after `n` samples is a multiple of `2^-23` between 0 and 1
    have hgrid : (g.runSamples libm random n).currentRevolution =
        (((a : Int) + n * k - z * 2 ^ 23 : Int) : ℚ) / 2 ^ 23 := by
      rw [hz, ha, hk]
      push_cast
      ring
    have hnum0 : 0 ≤ (a : Int) + n * k - z * 2 ^ 23 := by
      have h2 : (0 : ℚ) ≤ (((a : Int) + n * k - z * 2 ^ 23 : Int) : ℚ) / 2 ^ 23 := by
        rw [← hgrid]
        exact h0
      rw [le_div_iff₀ (by norm_num), zero_mul] at h2
      exact_mod_cast h2
    have hnum1 : (a : Int) + n * k - z * 2 ^ 23 ≤ 2 ^ 23 := by
      have h2 : (((a : Int) + n * k - z * 2 ^ 23 : Int) : ℚ) / 2 ^ 23 ≤ 1 := by
        rw [← hgrid]
        exact h1
      rw [div_le_one (by norm_num)] at h2
      exact_mod_cast h2
    obtain ⟨b, hb⟩ := Int.eq_ofNat_of_zero_le hnum0
    have hb1 : b ≤ 2 ^ 23 := by
      rw [hb] at hnum1
      exact_mod_cast hnum1
    have hcur : (g.runRevolutionFloat n).currentRevolution = (b : ℚ) / 2 ^ 23 := by
      rw [ih, hgrid, hb, Int.cast_natCast]
    have hfloat := EngineSoundGenerator.updateRevolutionFloat_of_grid
      (g.runRevolutionFloat n) b k (by rw [hs, hr]; exact hstep) (by rw [hs, hr]; exact hk)
      hk1 hcur hb1
    show (g.runRevolutionFloat n).updateRevolutionFloat.currentRevolution = _
    rw [hfloat, (EngineSoundGenerator.updateRevolution_clock _).2.2, hs, hr, ih,
      EngineSoundGenerator.runSamples_succ]

/-- C10, as the machine arithmetic has it: at a constant rpm > 0 and a sample rate for
which `N = 120 * sampleRate / rpm` is a whole number, from a phase in `[0, 1)`, where no
operation of the accumulator rounds (the stored `secondsPerSample` is exactly
`1 / sampleRate`, the step `secondsPerSample * rpm / 120` is computed without rounding,
and the step and the starting phase are whole multiples of `2^-23`): `N` successive
updates with the roundings of `float` and `double` bring `currentRevolution` back to
its starting value modulo 1. Its fractional part is the starting value; it is the
starting value itself when that is above 0, and it is 1 when the start was 0; and it
is the value that `N` calls of `_updateSample` leave in exact arithmetic. -/
theorem EngineSoundGenerator.currentRevolution_returns_where_nothing_rounds
    (libm : MathLibrary) (g : EngineSoundGenerator) (random : Nat → ℚ × ℚ)
    (sampleRate N a k : Nat)
    (hrpm : 0 < g.rpm) (hrate : 0 < sampleRate)
    (hN : (N : ℚ) = 120 * (sampleRate : ℚ) / g.rpm)
    (hsps : g.secondsPerSample = EngineSoundGenerator.secondsPerSampleFloat sampleRate)
    (hexact : EngineSoundGenerator.secondsPerSampleFloat sampleRate = 1 / (sampleRate : ℚ))
    (hstep : toDouble (toFloat (g.secondsPerSample * g.rpm) / 120.0) =
      g.secondsPerSample * g.rpm / 120)
    (hk : g.secondsPerSample * g.rpm / 120 = (k : ℚ) / 2 ^ 23)
    (ha : g.currentRevolution = (a : ℚ) / 2 ^ 23)
    (hc1 : g.currentRevolution < 1) :
    Int.fract (g.runRevolutionFloat N).currentRevolution = g.currentRevolution ∧
    (0 < g.currentRevolution →
      (g.runRevolutionFloat N).currentRevolution = g.currentRevolution) ∧
    (g.currentRevolution = 0 → (g.runRevolutionFloat N).currentRevolution = 1) ∧
    (g.runRevolutionFloat N).currentRevolution =
      (g.runSamples libm random N).currentRevolution := by
  have hratepos : (0 : ℚ) < (sampleRate : ℚ) := by exact_mod_cast hrate
  have hc0 : 0 ≤ g.currentRevolution := by
    rw [ha]
    positivity
  have hexactRun := EngineSoundGenerator.runSamples_returns_after_period libm g random g.rpm
    (sampleRate : ℚ) N hrpm hratepos hN rfl (hsps.trans hexact) hc0 hc1
  have hNpos : (0 : ℚ) < N := by
    rw [hN]
    positivity
  have hN1 : (1 : ℚ) ≤ N := by
    have : 0 < N := by exact_mod_cast hNpos
    exact_mod_cast this
  have hNd : (N : ℚ) * (g.secondsPerSample * g.rpm / 120) = 1 := by
    rw [hN, hsps.trans hexact]
    field_simp
    ring
  have hk1 : k ≤ 2 ^ 23 := by
    have h2 : (k : ℚ) / 2 ^ 23 ≤ 1 := by
      rw [← hk]
      have hd0 : 0 ≤ g.secondsPerSample * g.rpm / 120 := by
        rw [hsps.trans hexact]
        positivity
      nlinarith
    rw [div_le_one (by norm_num)] at h2
    exact_mod_cast h2
  have ha1 : a ≤ 2 ^ 23 := by
    have h2 : (a : ℚ) / 2 ^ 23 ≤ 1 := by
      rw [← ha]
      exact le_of_lt hc1
    rw [div_le_one (by norm_num)] at h2
    exact_mod_cast h2
  have hrun := EngineSoundGenerator.runRevolutionFloat_of_grid libm g random a k hstep hk hk1
    ha ha1 N
  rw [hrun]
  exact ⟨hexactRun.1, hexactRun.2.1, hexactRun.2.2, rfl⟩

/-- The sample rate 32768 is a power of two: its inverse is a `float`, and the
constructor stores it without rounding. -/
theorem EngineSoundGenerator.secondsPerSampleFloat_of_32768 :
    EngineSoundGenerator.secondsPerSampleFloat 32768 = 1 / 32768 := by
  have e : (1.0 : ℚ) / ((32768 : Nat) : ℚ) = ((1 : Int) : ℚ) * 2 ^ (-15 : Int) := by
    rw [zpow_neg]
    norm_num
  unfold EngineSoundGenerator.secondsPerSampleFloat
  rw [e, toFloat_toDouble_of_grid 1 (-15) (by norm_num) (by norm_num), zpow_neg]
  norm_num

/-- At the sample rate 32768 and 3840 rpm the step is computed without rounding: the
product is 15/128 and the quotient is `2^-10`. -/
theorem step_of_3840_rpm_at_32768 :
    toDouble (toFloat ((1 / 32768 : ℚ) * 3840) / 120.0) = 1 / 32768 * 3840 / 120 := by
  have e1 : (1 / 32768 : ℚ) * 3840 = ((15 : Int) : ℚ) * 2 ^ (-7 : Int) := by
    rw [zpow_neg]
    norm_num
  have e2 : ((15 : Int) : ℚ) * 2 ^ (-7 : Int) / 120.0 = ((1 : Int) : ℚ) * 2 ^ (-10 : Int) := by
    rw [zpow_neg, zpow_neg]
    norm_num
  rw [e1, toFloat_of_grid 15 (-7) (by norm_num) (by norm_num), e2,
    toDouble_of_grid 1 (-10) (by norm_num) (by norm_num), zpow_neg, zpow_neg]
  norm_num

/-- Witness of C10: 3840 rpm at the sample rate 32768, a period of 1024 samples with
the step `2^-10`, from the phase 1/4. -/
theorem EngineSoundGenerator.currentRevolution_returns_where_nothing_rounds_witness :
    ((exampleGenerator (1 / 32768) 3840 (1 / 4)).runRevolutionFloat 1024).currentRevolution =
      (exampleGenerator (1 / 32768) 3840 (1 / 4)).currentRevolution :=
  (EngineSoundGenerator.currentRevolution_returns_where_nothing_rounds exampleMath
    (exampleGenerator (1 / 32768) 3840 (1 / 4)) (fun _ => (0, 0)) 32768 1024 2097152 8192
    (by norm_num [exampleGenerator]) (by norm_num) (by norm_num [exampleGenerator])
    EngineSoundGenerator.secondsPerSampleFloat_of_32768.symm
    (by rw [EngineSoundGenerator.secondsPerSampleFloat_of_32768]; norm_num)
    step_of_3840_rpm_at_32768
    (by norm_num [exampleGenerator]) (by norm_num [exampleGenerator])
    (by norm_num [exampleGenerator])).2.1 (by norm_num [exampleGenerator])

theorem EngineSoundGenerator.updateRevolutionFloat_currentRevolution
    (g : EngineSoundGenerator) :
    g.updateRevolutionFloat.currentRevolution =
      if toFloat (toDouble (g.currentRevolution +
          toDouble (toFloat (g.secondsPerSample * g.rpm) / 120.0))) > 1 then
        toFloat (toDouble (toFloat (toDouble (g.currentRevolution +
          toDouble (toFloat (g.secondsPerSample * g.rpm) / 120.0))) - 1))
      else
        toFloat (toDouble (g.currentRevolution +
          toDouble (toFloat (g.secondsPerSample * g.rpm) / 120.0))) := by
  have e1 : (1.0 : ℚ) = 1 := by norm_num
  unfold EngineSoundGenerator.updateRevolutionFloat
  simp only [e1]
  split <;> rfl

theorem EngineSoundGenerator.runRevolutionFloat_add (g : EngineSoundGenerator) (m n : Nat) :
    g.runRevolutionFloat (m + n) = (g.runRevolutionFloat m).runRevolutionFloat n := by
  induction n with
  | zero => rfl
  | succ n ih =>
    show (g.runRevolutionFloat (m + n)).updateRevolutionFloat = _
    rw [ih]
    rfl

/-- As long as no sum rounds and none exceeds 1, the rounded accumulator grows by the
step. -/
theorem EngineSoundGenerator.runRevolutionFloat_linear (g : EngineSoundGenerator) (d : ℚ)
    (hd : toDouble (toFloat (g.secondsPerSample * g.rpm) / 120.0) = d) (n : Nat)
    (hrep : ∀ j : Nat, 1 ≤ j → j ≤ n →
      toFloat (toDouble (g.currentRevolution + (j : ℚ) * d)) =
        g.currentRevolution + (j : ℚ) * d ∧
      g.currentRevolution + (j : ℚ) * d ≤ 1) :
    (g.runRevolutionFloat n).currentRevolution = g.currentRevolution + (n : ℚ) * d := by
  induction n with
  | zero =>
    show g.currentRevolution = _
    rw [Nat.cast_zero, zero_mul, add_zero]
  | succ n ih =>
    have ih2 := ih (fun j h1 h2 => hrep j h1 (by omega))
    obtain ⟨hs, hr⟩ := EngineSoundGenerator.runRevolutionFloat_clock g n
    obtain ⟨h1, h2⟩ := hrep (n + 1) (by omega) (le_refl _)
    have e : g.currentRevolution + (n : ℚ) * d + d =
        g.currentRevolution + ((n + 1 : Nat) : ℚ) * d := by
      push_cast
      ring
    show (g.runRevolutionFloat n).updateRevolutionFloat.currentRevolution = _
    rw [EngineSoundGenerator.updateRevolutionFloat_currentRevolution, hs, hr, hd, ih2, e, h1,
      if_neg (not_lt.mpr h2)]

/-- A tie of the conversion to `float`: `2^-6 + 2^-30` lies midway between the
neighbouring `float` values `2^-6` and `2^-6 + 2^-29` and goes to the even one. -/
theorem toFloat_of_tie_above_one_sixtyfourth :
    toFloat (16777217 / 1073741824) = 1 / 64 := by
  have hfloor : ⌊(16777217 / 2 : ℚ)⌋ = 8388608 := by
    rw [Int.floor_eq_iff]
    constructor <;> norm_num
  have hround : roundHalfEven (16777217 / 2) = 8388608 := by
    unfold roundHalfEven
    rw [hfloor]
    norm_num
  have hq : (16777217 / 1073741824 : ℚ) / 2 ^ ((-6 : Int) - (((24 : Nat) : Int) - 1)) =
      16777217 / 2 := by
    have e : ((-6 : Int) - (((24 : Nat) : Int) - 1)) = -29 := by norm_num
    rw [e, zpow_neg]
    norm_num
  unfold toFloat
  rw [roundToBinary_of_exponent 24 (-126) (16777217 / 1073741824) (-6)
    (by rw [zpow_neg]; norm_num) (by norm_num [zpow_neg]) (by norm_num), hq, hround]
  have e : ((-6 : Int) - (((24 : Nat) : Int) - 1)) = -29 := by norm_num
  rw [e, zpow_neg]
  norm_num

/-- Counterexample to C10: at the sample rate 32768 (its inverse `2^-15` is stored
without rounding) and the constant 3840 rpm the period is `N = 120 * 32768 / 3840 =
1024` samples and the step is `2^-10`, computed without rounding. From the starting
phase `2^-30`, a `float` in `[0, 1)`, the first 15 sums are `float` values; the 16th,
`2^-6 + 2^-30`, lies midway between two `float` values and is stored as `2^-6`; the
1008 sums that follow are exact and the last is 1.0, which is not greater than 1.0
and stays. After the 1024 updates `currentRevolution` is 1, whose fractional part 0
is not the starting value `2^-30`: the accumulator has not returned, modulo 1 or
otherwise. In exact arithmetic the 1024 calls of `_updateSample` do return to
`2^-30`. -/
theorem EngineSoundGenerator.currentRevolution_lost_after_period_counterexample :
    (exampleGenerator (1 / 32768) 3840 (1 / 1073741824)).secondsPerSample =
      EngineSoundGenerator.secondsPerSampleFloat 32768 ∧
    0 < (exampleGenerator (1 / 32768) 3840 (1 / 1073741824)).rpm ∧
    ((1024 : Nat) : ℚ) =
      120 * ((32768 : Nat) : ℚ) / (exampleGenerator (1 / 32768) 3840 (1 / 1073741824)).rpm ∧
    (exampleGenerator (1 / 32768) 3840 (1 / 1073741824)).currentRevolution =
      1 / 1073741824 ∧
    toFloat (1 / 1073741824) = 1 / 1073741824 ∧
    ((exampleGenerator (1 / 32768) 3840 (1 / 1073741824)).runRevolutionFloat
      1024).currentRevolution = 1 ∧
    Int.fract ((exampleGenerator (1 / 32768) 3840 (1 / 1073741824)).runRevolutionFloat
      1024).currentRevolution = 0 ∧
    ((exampleGenerator (1 / 32768) 3840 (1 / 1073741824)).runSamples exampleMath
      (fun _ => (0, 0)) 1024).currentRevolution = 1 / 1073741824 := by
  have hclock := EngineSoundGenerator.runRevolutionFloat_clock
    (exampleGenerator (1 / 32768) 3840 (1 / 1073741824))
  have hd : toDouble (toFloat ((exampleGenerator (1 / 32768) 3840
      (1 / 1073741824)).secondsPerSample *
      (exampleGenerator (1 / 32768) 3840 (1 / 1073741824)).rpm) / 120.0) = 1 / 1024 := by
    show toDouble (toFloat ((1 / 32768 : ℚ) * 3840) / 120.0) = 1 / 1024
    rw [step_of_3840_rpm_at_32768]
    norm_num
  -- the first 15 updates
  have s15 : ((exampleGenerator (1 / 32768) 3840 (1 / 1073741824)).runRevolutionFloat
      15).currentRevolution = 15728641 / 1073741824 := by
    rw [EngineSoundGenerator.runRevolutionFloat_linear _ (1 / 1024) hd 15]
    · show (1 / 1073741824 : ℚ) + ((15 : Nat) : ℚ) * (1 / 1024) = _
      norm_num
    · intro j h1 h2
      show toFloat (toDouble ((1 / 1073741824 : ℚ) + (j : ℚ) * (1 / 1024))) =
          (1 / 1073741824 : ℚ) + (j : ℚ) * (1 / 1024) ∧
        (1 / 1073741824 : ℚ) + (j : ℚ) * (1 / 1024) ≤ 1
      have hj : (j : ℚ) ≤ 15 := by exact_mod_cast h2
      have e : (1 / 1073741824 : ℚ) + (j : ℚ) * (1 / 1024) =
          ((1 + (j : Int) * 1048576 : Int) : ℚ) * 2 ^ (-30 : Int) := by
        rw [zpow_neg]
        push_cast
        norm_num
        ring
      refine ⟨?_, by linarith⟩
      rw [e]
      apply toFloat_toDouble_of_grid
      · rw [abs_of_nonneg (by omega)]
        norm_num
        omega
      · norm_num
  -- the 16th update rounds
  have s16 : ((exampleGenerator (1 / 32768) 3840 (1 / 1073741824)).runRevolutionFloat
      16).currentRevolution = 1 / 64 := by
    show ((exampleGenerator (1 / 32768) 3840 (1 / 1073741824)).runRevolutionFloat
      15).updateRevolutionFloat.currentRevolution = 1 / 64
    have esum : (15728641 / 1073741824 : ℚ) + 1 / 1024 =
        ((16777217 : Int) : ℚ) * 2 ^ (-30 : Int) := by
      rw [zpow_neg]
      norm_num
    have eback : ((16777217 : Int) : ℚ) * 2 ^ (-30 : Int) = 16777217 / 1073741824 := by
      rw [zpow_neg]
      norm_num
    rw [EngineSoundGenerator.updateRevolutionFloat_currentRevolution, (hclock 15).1,
      (hclock 15).2, hd, s15, esum,
      toDouble_of_grid 16777217 (-30) (by norm_num) (by norm_num), eback,
      toFloat_of_tie_above_one_sixtyfourth, if_neg (by norm_num)]
  -- the remaining 1008 updates
  have hsplit : (exampleGenerator (1 / 32768) 3840 (1 / 1073741824)).runRevolutionFloat 1024 =
      ((exampleGenerator (1 / 32768) 3840 (1 / 1073741824)).runRevolutionFloat
        16).runRevolutionFloat 1008 :=
    EngineSoundGenerator.runRevolutionFloat_add _ 16 1008
  have s1024 : ((exampleGenerator (1 / 32768) 3840 (1 / 1073741824)).runRevolutionFloat
      1024).currentRevolution = 1 := by
    rw [hsplit, EngineSoundGenerator.runRevolutionFloat_linear _ (1 / 1024)
      (by rw [(hclock 16).1, (hclock 16).2]; exact hd) 1008]
    · rw [s16]
      norm_num
    · intro j h1 h2
      rw [s16]
      have hj : (j : ℚ) ≤ 1008 := by exact_mod_cast h2
      have e : (1 / 64 : ℚ) + (j : ℚ) * (1 / 1024) =
          ((16 + (j : Int) : Int) : ℚ) * 2 ^ (-10 : Int) := by
        rw [zpow_neg]
        push_cast
        norm_num
        ring
      refine ⟨?_, by linarith⟩
      rw [e]
      apply toFloat_toDouble_of_grid
      · rw [abs_of_nonneg (by omega)]
        norm_num
        omega
      · norm_num
  refine ⟨EngineSoundGenerator.secondsPerSampleFloat_of_32768.symm, ?_, ?_, rfl, ?_, s1024,
    ?_, ?_⟩
  · norm_num [exampleGenerator]
  · norm_num [exampleGenerator]
  · have e : (1 / 1073741824 : ℚ) = ((1 : Int) : ℚ) * 2 ^ (-30 : Int) := by
      rw [zpow_neg]
      norm_num
    rw [e]
    exact toFloat_of_grid 1 (-30) (by norm_num) (by norm_num)
  · rw [s1024]
    exact Int.fract_one
  · exact (EngineSoundGenerator.runSamples_returns_after_period exampleMath
      (exampleGenerator (1 / 32768) 3840 (1 / 1073741824)) (fun _ => (0, 0)) 3840 32768 1024
      (by norm_num) (by norm_num) (by norm_num) rfl rfl
      (by norm_num [exampleGenerator]) (by norm_num [exampleGenerator])).2.1
      (by norm_num [exampleGenerator])

end EngineSound
